import Mathlib

/-!
Verification development for the vector-extraction and rendering core of the
Highly-Efficient-PDF-Renderer repository (TypeScript sources under src/).

The TypeScript code is shallowly embedded here:

* IEEE-754 double arithmetic is modelled by exact rational arithmetic (`ℚ`).
  No theorem in this file depends on rounding behaviour of doubles.
* `Math.sqrt` / `Math.hypot` are modelled by `ratSqrt` / `hypotQ`, which are
  exact whenever the radicand is a ratio of perfect squares.  Every concrete
  input evaluated by a theorem below is in that exact regime; the remaining
  (approximate) uses only feed comparisons whose outcome no theorem depends on.
* `Float32Array` record streams (four floats per logical record) are modelled
  as lists of quadruples of rationals.
* `Array.prototype.sort` is modelled by the stable `List.insertionSort`.  The
  one comparator in scope (the coverage-cull comparator) is not a consistent
  comparison function, so ECMA-262 leaves the sort order implementation
  defined; the stable insertion sort used here is one conforming behaviour,
  and is also the algorithm V8 runs on arrays this short.
* The `pdfjs-dist` operator list is modelled as a list of already classified
  operators (`PdfOp`), and packed path data as decoded path commands
  (`PathCmd`); the numeric opcode constants of the source are kept.

Sources embedded: src/pdfVectorExtractor.ts (interpreter, curve flattener,
segment merger, invisible-segment culler), src/spatialGrid.ts (uniform grid
with CSR storage), the pan-cache revision of the renderer kept alongside it
(GpuFloorplanRenderer.updateVisibleSet and buildSegmentBounds), and
src/parsedDataZip.ts (derived stroke textures).
-/

namespace HEPR

abbrev Quad : Type := ℚ × ℚ × ℚ × ℚ

/-- Model of JavaScript Math.round: round half toward positive infinity. -/
def jsRound (q : ℚ) : ℤ := ⌊q + 1/2⌋

/-- Model of Math.sqrt on nonnegative rationals.  The result is exact when
numerator and denominator are perfect squares, and is the componentwise
floor square root otherwise.  Negative inputs (never produced by the embedded
code) map to 0. -/
def ratSqrt (q : ℚ) : ℚ :=
  if q ≤ 0 then 0 else (Nat.sqrt q.num.toNat : ℚ) / (Nat.sqrt q.den : ℚ)

/-- Model of Math.hypot on two arguments. -/
def hypotQ (x y : ℚ) : ℚ := ratSqrt (x * x + y * y)

/-- Mirror of clamp01 in pdfVectorExtractor.ts. -/
def clamp01 (value : ℚ) : ℚ :=
  if value ≤ 0 then 0 else if 1 ≤ value then 1 else value

/-- Mirror of the clamp helper shared by spatialGrid.ts and the renderer. -/
def clampQ (value minV maxV : ℚ) : ℚ :=
  if value < minV then minV else if maxV < value then maxV else value

/-- Mirror of quantize in pdfVectorExtractor.ts. -/
def quantize (value scale : ℚ) : ℤ := jsRound (value * scale)

/-- 2D affine matrix (a, b, c, d, e, f), mirroring the Mat2D tuples of the
source. -/
structure Mat2D where
  a : ℚ
  b : ℚ
  c : ℚ
  d : ℚ
  e : ℚ
  f : ℚ
deriving DecidableEq, Repr

def identityMatrix : Mat2D := ⟨1, 0, 0, 1, 0, 0⟩

/-- Mirror of multiplyMatrices in pdfVectorExtractor.ts. -/
def multiplyMatrices (m n : Mat2D) : Mat2D :=
  ⟨m.a * n.a + m.c * n.b,
   m.b * n.a + m.d * n.b,
   m.a * n.c + m.c * n.d,
   m.b * n.c + m.d * n.d,
   m.a * n.e + m.c * n.f + m.e,
   m.b * n.e + m.d * n.f + m.f⟩

/-- Mirror of applyMatrix in pdfVectorExtractor.ts. -/
def applyMatrix (m : Mat2D) (x y : ℚ) : ℚ × ℚ :=
  (m.a * x + m.c * y + m.e, m.b * x + m.d * y + m.f)

/-- Mirror of matrixScale in pdfVectorExtractor.ts; rationals are always
finite, so the Number.isFinite guard reduces to the positivity test. -/
def matrixScale (m : Mat2D) : ℚ :=
  let sx := hypotQ m.a m.b
  let sy := hypotQ m.c m.d
  let scale := (sx + sy) * (1/2)
  if 0 < scale then scale else 1

/-- Axis-aligned bounds record, mirroring the Bounds interface. -/
structure Bounds where
  minX : ℚ
  minY : ℚ
  maxX : ℚ
  maxY : ℚ
deriving DecidableEq, Repr

/-- Mirror of transformBounds in pdfVectorExtractor.ts. -/
def transformBounds (bounds : Bounds) (matrix : Mat2D) : Bounds :=
  let p0 := applyMatrix matrix bounds.minX bounds.minY
  let p1 := applyMatrix matrix bounds.minX bounds.maxY
  let p2 := applyMatrix matrix bounds.maxX bounds.minY
  let p3 := applyMatrix matrix bounds.maxX bounds.maxY
  ⟨min (min p0.1 p1.1) (min p2.1 p3.1),
   min (min p0.2 p1.2) (min p2.2 p3.2),
   max (max p0.1 p1.1) (max p2.1 p3.1),
   max (max p0.2 p1.2) (max p2.2 p3.2)⟩

/-- Mirror of crossDistanceSq in pdfVectorExtractor.ts. -/
def crossDistanceSq (px py ux uy lenSq : ℚ) : ℚ :=
  let cross := px * uy - py * ux
  cross * cross / lenSq

/-- Mirror of cubicFlatnessSq in pdfVectorExtractor.ts. -/
def cubicFlatnessSq (x0 y0 x1 y1 x2 y2 x3 y3 : ℚ) : ℚ :=
  let ux := x3 - x0
  let uy := y3 - y0
  let lenSq := ux * ux + uy * uy
  if lenSq < 1/1000000000000 then 0
  else
    max (crossDistanceSq (x1 - x0) (y1 - y0) ux uy lenSq)
        (crossDistanceSq (x2 - x0) (y2 - y0) ux uy lenSq)

/-- Worker for flattenCubic.  The source drives an explicit LIFO stack that
always pushes the second half before the first half, so records are emitted
in depth-first, in-curve order; this recursion produces the same emission
list.  Termination: each split strictly increases depth, and records with
depth at or beyond maxDepth always emit. -/
def flattenCubicGo (flatnessSq : ℚ) (maxDepth : ℕ) (x0 y0 x1 y1 x2 y2 x3 y3 : ℚ)
    (depth : ℕ) : List Quad :=
  if maxDepth ≤ depth ∨ cubicFlatnessSq x0 y0 x1 y1 x2 y2 x3 y3 ≤ flatnessSq then
    [(x0, y0, x3, y3)]
  else
    let x01 := (x0 + x1) * (1/2)
    let y01 := (y0 + y1) * (1/2)
    let x12 := (x1 + x2) * (1/2)
    let y12 := (y1 + y2) * (1/2)
    let x23 := (x2 + x3) * (1/2)
    let y23 := (y2 + y3) * (1/2)
    let x012 := (x01 + x12) * (1/2)
    let y012 := (y01 + y12) * (1/2)
    let x123 := (x12 + x23) * (1/2)
    let y123 := (y12 + y23) * (1/2)
    let x0123 := (x012 + x123) * (1/2)
    let y0123 := (y012 + y123) * (1/2)
    flattenCubicGo flatnessSq maxDepth x0 y0 x01 y01 x012 y012 x0123 y0123 (depth + 1) ++
      flattenCubicGo flatnessSq maxDepth x0123 y0123 x123 y123 x23 y23 x3 y3 (depth + 1)
termination_by maxDepth - depth
decreasing_by
  all_goals
    rename_i h
    push_neg at h
    omega

/-- Mirror of flattenCubic in pdfVectorExtractor.ts, returning the emitted
chords in emission order. -/
def flattenCubic (x0 y0 x1 y1 x2 y2 x3 y3 flatness : ℚ) (maxDepth : ℕ) : List Quad :=
  flattenCubicGo (flatness * flatness) maxDepth x0 y0 x1 y1 x2 y2 x3 y3 0

theorem flattenCubicGo_length_le (flatnessSq : ℚ) (maxDepth : ℕ) :
    ∀ fuel depth, maxDepth - depth ≤ fuel → ∀ x0 y0 x1 y1 x2 y2 x3 y3 : ℚ,
      (flattenCubicGo flatnessSq maxDepth x0 y0 x1 y1 x2 y2 x3 y3 depth).length ≤
        2 ^ (maxDepth - depth) := by
  intro fuel
  induction fuel with
  | zero =>
    intro depth hf x0 y0 x1 y1 x2 y2 x3 y3
    have hdep : maxDepth ≤ depth := by omega
    rw [flattenCubicGo, if_pos (Or.inl hdep)]
    simpa using Nat.one_le_two_pow
  | succ fuel ih =>
    intro depth hf x0 y0 x1 y1 x2 y2 x3 y3
    rw [flattenCubicGo]
    split
    · simpa using Nat.one_le_two_pow
    · rename_i h
      push_neg at h
      have hrec : maxDepth - depth = (maxDepth - (depth + 1)) + 1 := by omega
      simp only [List.length_append]
      have h1 := ih (depth + 1) (by omega)
      calc (flattenCubicGo flatnessSq maxDepth _ _ _ _ _ _ _ _ (depth + 1)).length +
            (flattenCubicGo flatnessSq maxDepth _ _ _ _ _ _ _ _ (depth + 1)).length ≤
          2 ^ (maxDepth - (depth + 1)) + 2 ^ (maxDepth - (depth + 1)) := by
            exact Nat.add_le_add (h1 _ _ _ _ _ _ _ _) (h1 _ _ _ _ _ _ _ _)
        _ = 2 ^ (maxDepth - depth) := by rw [hrec]; ring

theorem flattenCubicGo_length_pos (flatnessSq : ℚ) (maxDepth : ℕ)
    (depth : ℕ) (x0 y0 x1 y1 x2 y2 x3 y3 : ℚ) :
    1 ≤ (flattenCubicGo flatnessSq maxDepth x0 y0 x1 y1 x2 y2 x3 y3 depth).length := by
  rw [flattenCubicGo]
  split
  · simp
  · rename_i h
    push_neg at h
    simp only [List.length_append]
    have h1 := flattenCubicGo_length_pos flatnessSq maxDepth (depth + 1) x0 y0
      ((x0 + x1) * (1/2)) ((y0 + y1) * (1/2))
      (((x0 + x1) * (1/2) + (x1 + x2) * (1/2)) * (1/2))
      (((y0 + y1) * (1/2) + (y1 + y2) * (1/2)) * (1/2))
      ((((x0 + x1) * (1/2) + (x1 + x2) * (1/2)) * (1/2) +
        ((x1 + x2) * (1/2) + (x2 + x3) * (1/2)) * (1/2)) * (1/2))
      ((((y0 + y1) * (1/2) + (y1 + y2) * (1/2)) * (1/2) +
        ((y1 + y2) * (1/2) + (y2 + y3) * (1/2)) * (1/2)) * (1/2))
    omega
termination_by maxDepth - depth
decreasing_by omega

/-- C7: flattenCubic terminates on every cubic input: a subdivision record at
depth d ≥ 9, or whose control points' maximum squared perpendicular distance
to the chord is at most 0.35², emits its chord; otherwise it splits at
t = 0.5 into two midpoint-subdivided halves at depth d + 1.  Consequently each
curve emits at least 1 and at most 2^9 = 512 chords. -/
theorem flattenCubic_spec (x0 y0 x1 y1 x2 y2 x3 y3 : ℚ) (d : ℕ) :
    (9 ≤ d ∨ cubicFlatnessSq x0 y0 x1 y1 x2 y2 x3 y3 ≤ (0.35 : ℚ) * 0.35 →
      flattenCubicGo ((0.35 : ℚ) * 0.35) 9 x0 y0 x1 y1 x2 y2 x3 y3 d =
        [(x0, y0, x3, y3)]) ∧
    (¬ (9 ≤ d ∨ cubicFlatnessSq x0 y0 x1 y1 x2 y2 x3 y3 ≤ (0.35 : ℚ) * 0.35) →
      flattenCubicGo ((0.35 : ℚ) * 0.35) 9 x0 y0 x1 y1 x2 y2 x3 y3 d =
        flattenCubicGo ((0.35 : ℚ) * 0.35) 9 x0 y0
          ((x0 + x1) * (1/2)) ((y0 + y1) * (1/2))
          (((x0 + x1) * (1/2) + (x1 + x2) * (1/2)) * (1/2))
          (((y0 + y1) * (1/2) + (y1 + y2) * (1/2)) * (1/2))
          ((((x0 + x1) * (1/2) + (x1 + x2) * (1/2)) * (1/2) +
            ((x1 + x2) * (1/2) + (x2 + x3) * (1/2)) * (1/2)) * (1/2))
          ((((y0 + y1) * (1/2) + (y1 + y2) * (1/2)) * (1/2) +
            ((y1 + y2) * (1/2) + (y2 + y3) * (1/2)) * (1/2)) * (1/2)) (d + 1) ++
        flattenCubicGo ((0.35 : ℚ) * 0.35) 9
          ((((x0 + x1) * (1/2) + (x1 + x2) * (1/2)) * (1/2) +
            ((x1 + x2) * (1/2) + (x2 + x3) * (1/2)) * (1/2)) * (1/2))
          ((((y0 + y1) * (1/2) + (y1 + y2) * (1/2)) * (1/2) +
            ((y1 + y2) * (1/2) + (y2 + y3) * (1/2)) * (1/2)) * (1/2))
          (((x1 + x2) * (1/2) + (x2 + x3) * (1/2)) * (1/2))
          (((y1 + y2) * (1/2) + (y2 + y3) * (1/2)) * (1/2))
          ((x2 + x3) * (1/2)) ((y2 + y3) * (1/2)) x3 y3 (d + 1)) ∧
    1 ≤ (flattenCubic x0 y0 x1 y1 x2 y2 x3 y3 0.35 9).length ∧
    (flattenCubic x0 y0 x1 y1 x2 y2 x3 y3 0.35 9).length ≤ 512 := by
  refine ⟨?_, ?_, ?_, ?_⟩
  · intro h
    rw [flattenCubicGo, if_pos h]
  · intro h
    rw [flattenCubicGo, if_neg h]
  · exact flattenCubicGo_length_pos _ _ _ _ _ _ _ _ _ _ _
  · have h := flattenCubicGo_length_le ((0.35 : ℚ) * 0.35) 9 9 0 (by omega)
      x0 y0 x1 y1 x2 y2 x3 y3
    simpa [flattenCubic] using h

/-- Helper: the rational square root model is exact on squares. -/
theorem ratSqrt_sq (r : ℚ) (h0 : 0 ≤ r) : ratSqrt (r * r) = r := by
  rcases eq_or_lt_of_le h0 with h | h
  · rw [ratSqrt, if_pos]
    · exact h
    · rw [← h]; norm_num
  · have hrr : 0 < r * r := mul_pos h h
    rw [ratSqrt, if_neg (not_le.mpr hrr)]
    have hnum : (r * r).num = r.num * r.num := Rat.mul_self_num r
    have hden : (r * r).den = r.den * r.den := Rat.mul_self_den r
    have hnn : 0 < r.num := Rat.num_pos.mpr h
    rw [hnum, hden]
    have h1 : (r.num * r.num).toNat = r.num.toNat * r.num.toNat := by
      rcases Int.eq_ofNat_of_zero_le (le_of_lt hnn) with ⟨m, hm⟩
      simp [hm]
      exact_mod_cast rfl
    rw [h1, Nat.sqrt_eq, Nat.sqrt_eq]
    have hcast : ((r.num.toNat : ℚ)) = (r.num : ℚ) := by
      exact_mod_cast Int.toNat_of_nonneg (le_of_lt hnn)
    rw [hcast]
    exact Rat.num_div_den r

/-- Witness for C7 at the specification's example cubic (0,0), (10,10),
(20,10), (30,0): the curve is not flat at depth 0, so it splits, and a record
at depth 9 always emits its chord. -/
theorem flattenCubic_spec_witness :
    (9 ≤ 9 ∨ cubicFlatnessSq 0 0 10 10 20 10 30 0 ≤ (0.35 : ℚ) * 0.35) ∧
    ¬ (9 ≤ 0 ∨ cubicFlatnessSq 0 0 10 10 20 10 30 0 ≤ (0.35 : ℚ) * 0.35) ∧
    flattenCubicGo ((0.35 : ℚ) * 0.35) 9 0 0 10 10 20 10 30 0 9 = [(0, 0, 30, 0)] ∧
    1 ≤ (flattenCubic 0 0 10 10 20 10 30 0 0.35 9).length ∧
    (flattenCubic 0 0 10 10 20 10 30 0 0.35 9).length ≤ 512 :=
  ⟨Or.inl (by norm_num),
   by norm_num [cubicFlatnessSq, crossDistanceSq, max_def],
   (flattenCubic_spec 0 0 10 10 20 10 30 0 9).1 (Or.inl (by norm_num)),
   (flattenCubic_spec 0 0 10 10 20 10 30 0 0).2.2.1,
   (flattenCubic_spec 0 0 10 10 20 10 30 0 0).2.2.2⟩

/-! ### Invisible-segment culler (cullInvisibleSegments and helpers) -/

def ALPHA_INVISIBLE_EPSILON : ℚ := 1/1000
def OPAQUE_ALPHA_EPSILON : ℚ := 0.999
def DUPLICATE_POSITION_SCALE : ℚ := 1000
def DUPLICATE_STYLE_SCALE : ℚ := 10000
def COVER_DIRECTION_SCALE : ℚ := 2000
def COVER_OFFSET_SCALE : ℚ := 200
def COVER_INTERVAL_EPSILON : ℚ := 0.05
def COVER_HALF_WIDTH_EPSILON : ℚ := 1/10000

/-- Record access with the zero default of out-of-range typed-array reads. -/
def quadAt (records : List Quad) (i : ℕ) : Quad := records.getD i (0, 0, 0, 0)

/-- The source joins seven quantized integers with a separator into a string
key; the integer tuple itself is an equivalent faithful key. -/
abbrev DupKey : Type := ℤ × ℤ × ℤ × ℤ × ℤ × ℤ × ℤ

/-- Mirror of buildDuplicateKey in pdfVectorExtractor.ts. -/
def buildDuplicateKey (x0 y0 x1 y1 halfWidth luma alpha : ℚ) : DupKey :=
  let swapped := x0 > x1 ∨ (x0 = x1 ∧ y0 > y1)
  let ax := if swapped then x1 else x0
  let ay := if swapped then y1 else y0
  let bx := if swapped then x0 else x1
  let by2 := if swapped then y0 else y1
  (quantize halfWidth DUPLICATE_STYLE_SCALE,
   quantize luma DUPLICATE_STYLE_SCALE,
   quantize alpha DUPLICATE_STYLE_SCALE,
   quantize ax DUPLICATE_POSITION_SCALE,
   quantize ay DUPLICATE_POSITION_SCALE,
   quantize bx DUPLICATE_POSITION_SCALE,
   quantize by2 DUPLICATE_POSITION_SCALE)

abbrev CoverKey : Type := ℤ × ℤ × ℤ × ℤ

/-- Coverage candidate record; the source field named end is called tEnd. -/
structure CoverageCandidate where
  index : ℕ
  start : ℚ
  tEnd : ℚ
  halfWidth : ℚ
  alpha : ℚ
deriving DecidableEq, Repr

/-- Mirror of buildCoverageCandidate in pdfVectorExtractor.ts, returning the
group key together with the candidate record. -/
def buildCoverageCandidate (index : ℕ) (x0 y0 x1 y1 halfWidth luma alpha : ℚ) :
    CoverKey × CoverageCandidate :=
  let dx := x1 - x0
  let dy := y1 - y0
  let len := hypotQ dx dy
  let ux0 := dx / len
  let uy0 := dy / len
  let flip := ux0 < 0 ∨ (|ux0| < 1/10000000000 ∧ uy0 < 0)
  let ux := if flip then -ux0 else ux0
  let uy := if flip then -uy0 else uy0
  let ax := if flip then x1 else x0
  let ay := if flip then y1 else y0
  let bx := if flip then x0 else x1
  let by2 := if flip then y0 else y1
  let nx := -uy
  let ny := ux
  let offset := nx * ax + ny * ay
  let t0 := ux * ax + uy * ay
  let t1 := ux * bx + uy * by2
  ((quantize ux COVER_DIRECTION_SCALE,
    quantize uy COVER_DIRECTION_SCALE,
    quantize offset COVER_OFFSET_SCALE,
    quantize luma DUPLICATE_STYLE_SCALE),
   ⟨index, min t0 t1, max t0 t1, halfWidth, alpha⟩)

/-- Append a candidate to its bucket, creating the bucket at the back on first
use; this mirrors insertion-ordered Map buckets with push. -/
def pushGroup : List (CoverKey × List CoverageCandidate) → CoverKey →
    CoverageCandidate → List (CoverKey × List CoverageCandidate)
  | [], key, cand => [(key, [cand])]
  | (k, bucket) :: rest, key, cand =>
    if k = key then (k, bucket ++ [cand]) :: rest
    else (k, bucket) :: pushGroup rest key cand

/-- Pointwise update of a mask modelled as a function. -/
def updMask (mask : ℕ → Bool) (i : ℕ) (v : Bool) : ℕ → Bool :=
  fun j => if j = i then v else mask j

/-- State of the classification loop of cullInvisibleSegments. -/
structure CullScanState where
  seen : List DupKey
  keep : ℕ → Bool
  groups : List (CoverKey × List CoverageCandidate)
  dTransparent : ℕ
  dDegenerate : ℕ
  dDuplicate : ℕ

def cullScanInit : CullScanState := ⟨[], fun _ => false, [], 0, 0, 0⟩

/-- One iteration of the first loop of cullInvisibleSegments. -/
def cullScanStep (endpoints styles : List Quad) (st : CullScanState) (i : ℕ) :
    CullScanState :=
  let (x0, y0, x1, y1) := quadAt endpoints i
  let (halfWidth, luma, alpha, _) := quadAt styles i
  if alpha ≤ ALPHA_INVISIBLE_EPSILON then
    { st with dTransparent := st.dTransparent + 1 }
  else
    let dx := x1 - x0
    let dy := y1 - y0
    if dx * dx + dy * dy < 1/10000000000 then
      { st with dDegenerate := st.dDegenerate + 1 }
    else
      let dupKey := buildDuplicateKey x0 y0 x1 y1 halfWidth luma alpha
      if dupKey ∈ st.seen then
        { st with dDuplicate := st.dDuplicate + 1 }
      else
        let (coverKey, cand) := buildCoverageCandidate i x0 y0 x1 y1 halfWidth luma alpha
        { st with
            seen := st.seen ++ [dupKey],
            keep := updMask st.keep i true,
            groups := pushGroup st.groups coverKey cand }

def cullScan (endpoints styles : List Quad) (n : ℕ) : CullScanState :=
  (List.range n).foldl (cullScanStep endpoints styles) cullScanInit

/-- Sign-valued comparator of the containment sort. -/
def coverCompare (a b : CoverageCandidate) : ℚ :=
  if |a.halfWidth - b.halfWidth| > COVER_HALF_WIDTH_EPSILON then
    b.halfWidth - a.halfWidth
  else
    let lenA := a.tEnd - a.start
    let lenB := b.tEnd - b.start
    if |lenA - lenB| > COVER_INTERVAL_EPSILON then lenB - lenA
    else a.start - b.start

/-- Orders a before b whenever the comparator does not demand the opposite.
Array.prototype.sort is modelled by the stable insertion sort over this
relation; the comparator is not a consistent comparison function, so
ECMA-262 leaves the resulting order implementation-defined, and a stable
insertion sort is one conforming behaviour (it is also the algorithm engines
use for short arrays). -/
def coverLE (a b : CoverageCandidate) : Prop := coverCompare a b ≤ 0

instance : DecidableRel coverLE := fun a b => by
  unfold coverLE; infer_instance

/-- The cover test of the inner containment loop: a previously kept opaque
candidate shadows the current one. -/
def coversCand (cover cand : CoverageCandidate) : Prop :=
  ¬ (cover.halfWidth + COVER_HALF_WIDTH_EPSILON < cand.halfWidth) ∧
  cover.start - COVER_INTERVAL_EPSILON ≤ cand.start ∧
  cand.tEnd ≤ cover.tEnd + COVER_INTERVAL_EPSILON

instance : ∀ a b, Decidable (coversCand a b) := fun a b => by
  unfold coversCand; infer_instance

/-- One iteration of the containment loop over a sorted bucket. -/
def coverStep (st : (List CoverageCandidate × (ℕ → Bool) × ℕ))
    (cand : CoverageCandidate) : List CoverageCandidate × (ℕ → Bool) × ℕ :=
  let (covers, keep, contained) := st
  if ∃ cover ∈ covers, coversCand cover cand then
    if keep cand.index then (covers, updMask keep cand.index false, contained + 1)
    else (covers, keep, contained)
  else if OPAQUE_ALPHA_EPSILON ≤ cand.alpha then
    (covers ++ [cand], keep, contained)
  else
    (covers, keep, contained)

/-- Containment processing of one bucket. -/
def processGroup (keep : ℕ → Bool) (contained : ℕ) (bucket : List CoverageCandidate) :
    (ℕ → Bool) × ℕ :=
  let sorted := List.insertionSort coverLE bucket
  let r := sorted.foldl coverStep ([], keep, contained)
  (r.2.1, r.2.2)

/-- Containment processing of all buckets. -/
def processGroups (keep : ℕ → Bool) (groups : List (CoverKey × List CoverageCandidate)) :
    (ℕ → Bool) × ℕ :=
  groups.foldl (fun st g => processGroup st.1 st.2 g.2) (keep, 0)

/-- State of the final collection loop of cullInvisibleSegments. -/
structure CullCollectState where
  outEndpoints : List Quad
  outStyles : List Quad
  outBounds : Option Bounds
  maxHalfWidth : ℚ

/-- Extend bounds by a segment; None models the positive and negative
infinity initialisers of the source, which every real update replaces. -/
def boundsAdd (b : Option Bounds) (x0 y0 x1 y1 : ℚ) : Option Bounds :=
  match b with
  | none => some ⟨min x0 x1, min y0 y1, max x0 x1, max y0 y1⟩
  | some bb => some ⟨min bb.minX (min x0 x1), min bb.minY (min y0 y1),
                     max bb.maxX (max x0 x1), max bb.maxY (max y0 y1)⟩

def cullCollectStep (endpoints styles : List Quad) (keep : ℕ → Bool)
    (st : CullCollectState) (i : ℕ) : CullCollectState :=
  if keep i then
    let (x0, y0, x1, y1) := quadAt endpoints i
    let s := quadAt styles i
    { outEndpoints := st.outEndpoints ++ [(x0, y0, x1, y1)],
      outStyles := st.outStyles ++ [s],
      outBounds := boundsAdd st.outBounds x0 y0 x1 y1,
      maxHalfWidth := max st.maxHalfWidth s.1 }
  else st

/-- Mirror of the InvisibleCullResult record. -/
structure InvisibleCullResult where
  segmentCount : ℕ
  endpoints : List Quad
  styles : List Quad
  bounds : Bounds
  maxHalfWidth : ℚ
  discardedTransparentCount : ℕ
  discardedDegenerateCount : ℕ
  discardedDuplicateCount : ℕ
  discardedContainedCount : ℕ
deriving DecidableEq, Repr

/-- Mirror of cullInvisibleSegments in pdfVectorExtractor.ts. -/
def cullInvisibleSegments (endpoints styles : List Quad) : InvisibleCullResult :=
  let segmentCount := endpoints.length
  let scan := cullScan endpoints styles segmentCount
  let (keep, contained) := processGroups scan.keep scan.groups
  let visibleCount := ((List.range segmentCount).filter (fun i => keep i)).length
  if visibleCount = 0 then
    ⟨0, [], [], ⟨0, 0, 0, 0⟩, 0,
     scan.dTransparent, scan.dDegenerate, scan.dDuplicate, contained⟩
  else
    let collect := (List.range segmentCount).foldl
      (cullCollectStep endpoints styles keep) ⟨[], [], none, 0⟩
    ⟨visibleCount, collect.outEndpoints, collect.outStyles,
     collect.outBounds.getD ⟨0, 0, 0, 0⟩, collect.maxHalfWidth,
     scan.dTransparent, scan.dDegenerate, scan.dDuplicate, contained⟩

/-! ### Operator interpreter and segment emission -/

def CURVE_FLATNESS : ℚ := 0.35
def MAX_CURVE_SPLIT_DEPTH : ℕ := 9
def SEGMENT_JOIN_EPSILON : ℚ := 1/1000
def COLLINEAR_DOT_THRESHOLD : ℚ := 0.999995
def COLLINEAR_PERP_EPSILON : ℚ := 0.05

/-- Graphics state of the interpreter. -/
structure GraphicsState where
  matrix : Mat2D
  lineWidth : ℚ
  strokeLuma : ℚ
  strokeAlpha : ℚ
deriving DecidableEq, Repr

/-- Mirror of createDefaultState; the extractor passes the page matrix. -/
def createDefaultState (initialMatrix : Mat2D) : GraphicsState :=
  ⟨initialMatrix, 1, 0, 1⟩

/-- Classified colour operand of parseLuma.  The hex constructor carries the
three bytes decoded from a hash colour literal; invalid covers every operand
parseLuma falls through on (it keeps the previous luma). -/
inductive ColorArg where
  | num (value : ℚ)
  | rgb (r g b : ℚ)
  | hex (r g b : ℕ)
  | invalid
deriving DecidableEq, Repr

/-- Mirror of parseLuma in pdfVectorExtractor.ts. -/
def parseLuma (value : ColorArg) (fallback : ℚ) : ℚ :=
  match value with
  | .num v => clamp01 v
  | .hex r g b => clamp01 ((0.2126 * r + 0.7152 * g + 0.0722 * b) / 255)
  | .rgb r g b =>
    let nr := if 1 < r then r / 255 else r
    let ng := if 1 < g then g / 255 else g
    let nb := if 1 < b then b / 255 else b
    clamp01 (0.2126 * nr + 0.7152 * ng + 0.0722 * nb)
  | .invalid => fallback

/-- One classified setGState entry; none in ca or lw models a value whose
Number conversion is not finite. -/
inductive GStateEntry where
  | ca (value : Option ℚ)
  | lw (value : Option ℚ)
  | other
deriving DecidableEq, Repr

/-- Mirror of applyGraphicsStateEntries in pdfVectorExtractor.ts. -/
def applyGraphicsStateEntries (entries : List GStateEntry) (st : GraphicsState) :
    GraphicsState :=
  entries.foldl
    (fun s e =>
      match e with
      | .ca (some a) => { s with strokeAlpha := clamp01 a }
      | .lw (some w) => { s with lineWidth := max 0 w }
      | _ => s)
    st

/-- Decoded path subcommand; unknown stands for any opcode outside the five
recognised ones and truncates the path. -/
inductive PathCmd where
  | moveTo (x y : ℚ)
  | lineTo (x y : ℚ)
  | curveTo (x1 y1 x2 y2 x3 y3 : ℚ)
  | quadTo (x1 y1 x2 y2 : ℚ)
  | close
  | unknown
deriving DecidableEq, Repr

/-- pdfjs operator numbers used by isStrokePaintOp. -/
def OPS_stroke : ℤ := 20
def OPS_closeStroke : ℤ := 21
def OPS_fillStroke : ℤ := 24
def OPS_eoFillStroke : ℤ := 25
def OPS_closeFillStroke : ℤ := 26
def OPS_closeEOFillStroke : ℤ := 27

/-- Mirror of isStrokePaintOp in pdfVectorExtractor.ts. -/
def isStrokePaintOp (op : ℤ) : Prop :=
  op = OPS_stroke ∨ op = OPS_closeStroke ∨ op = OPS_fillStroke ∨
  op = OPS_eoFillStroke ∨ op = OPS_closeFillStroke ∨ op = OPS_closeEOFillStroke

instance : ∀ op, Decidable (isStrokePaintOp op) := fun op => by
  unfold isStrokePaintOp; infer_instance

/-- Classified operator of the pdfjs operator list.  The four stroke-colour
operators (setStrokeRGBColor, setStrokeColor, setStrokeGray,
setStrokeCMYKColor) share one identical handler body and are modelled by one
constructor; transform and constructPath carry none when readTransform or
readPathData rejected the raw arguments; other covers every untracked
operator, which the loop skips. -/
inductive PdfOp where
  | save
  | restore
  | transform (matrix : Option Mat2D)
  | setLineWidth (width : Option ℚ)
  | setStrokeColor (value : ColorArg)
  | setGState (entries : List GStateEntry)
  | constructPath (paintOp : ℤ) (pathData : Option (List PathCmd))
  | other
deriving DecidableEq, Repr

/-- State threaded through emitSegmentsFromPath: the shared endpoint and
style builders and bounds, the per-path cursor, and the merge buffer. -/
structure PathRunState where
  endpoints : List Quad
  styles : List Quad
  bounds : Option Bounds
  cursorX : ℚ
  cursorY : ℚ
  startX : ℚ
  startY : ℚ
  hasStart : Bool
  pending : Option Quad
  sourceCount : ℕ

/-- Mirror of the flushPending closure of emitSegmentsFromPath. -/
def flushPending (halfWidth luma alpha : ℚ) (st : PathRunState) : PathRunState :=
  match st.pending with
  | none => st
  | some (px0, py0, px1, py1) =>
    { st with
        endpoints := st.endpoints ++ [(px0, py0, px1, py1)],
        styles := st.styles ++ [(halfWidth, luma, alpha, 0)],
        bounds := boundsAdd st.bounds px0 py0 px1 py1,
        pending := none }

/-- Mirror of the tryMergePending closure; some holds the extended pending
segment on success. -/
def tryMergePending (pending : Quad) (x0 y0 x1 y1 : ℚ) : Option Quad :=
  let (px0, py0, px1, py1) := pending
  let joinDx := x0 - px1
  let joinDy := y0 - py1
  if joinDx * joinDx + joinDy * joinDy > SEGMENT_JOIN_EPSILON * SEGMENT_JOIN_EPSILON then
    none
  else
    let baseDx := px1 - px0
    let baseDy := py1 - py0
    let nextDx := x1 - x0
    let nextDy := y1 - y0
    let baseLenSq := baseDx * baseDx + baseDy * baseDy
    let nextLenSq := nextDx * nextDx + nextDy * nextDy
    if baseLenSq < 1/10000000000 ∨ nextLenSq < 1/10000000000 then none
    else
      let invLenProduct := 1 / ratSqrt (baseLenSq * nextLenSq)
      let dot := (baseDx * nextDx + baseDy * nextDy) * invLenProduct
      if dot < COLLINEAR_DOT_THRESHOLD then none
      else
        let chainDx := x1 - px0
        let chainDy := y1 - py0
        if crossDistanceSq chainDx chainDy baseDx baseDy baseLenSq >
            COLLINEAR_PERP_EPSILON * COLLINEAR_PERP_EPSILON then none
        else some (px0, py0, x1, y1)

/-- Mirror of the emitLine closure of emitSegmentsFromPath. -/
def emitLine (halfWidth luma alpha : ℚ) (allowSegmentMerge : Bool)
    (st : PathRunState) (x0 y0 x1 y1 : ℚ) (allowMerge : Bool) : PathRunState :=
  let dx := x1 - x0
  let dy := y1 - y0
  if dx * dx + dy * dy < 1/10000000000 then st
  else
    let st1 := { st with sourceCount := st.sourceCount + 1 }
    let merged : Option Quad :=
      if allowSegmentMerge && allowMerge then
        match st1.pending with
        | some p => tryMergePending p x0 y0 x1 y1
        | none => none
      else none
    match merged with
    | some q => { st1 with pending := some q }
    | none =>
      if allowSegmentMerge then
        let st2 := flushPending halfWidth luma alpha st1
        { st2 with pending := some (x0, y0, x1, y1) }
      else
        { st1 with
            endpoints := st1.endpoints ++ [(x0, y0, x1, y1)],
            styles := st1.styles ++ [(halfWidth, luma, alpha, 0)],
            bounds := boundsAdd st1.bounds x0 y0 x1 y1 }

/-- The command loop of emitSegmentsFromPath; unknown opcodes flush and
truncate the path like the break of the source. -/
def processPathCmds (matrix : Mat2D) (halfWidth luma alpha : ℚ)
    (allowSegmentMerge : Bool) : List PathCmd → PathRunState → PathRunState
  | [], st => st
  | cmd :: rest, st =>
    match cmd with
    | .moveTo x y =>
      let st1 := flushPending halfWidth luma alpha st
      processPathCmds matrix halfWidth luma alpha allowSegmentMerge rest
        { st1 with cursorX := x, cursorY := y, startX := x, startY := y, hasStart := true }
    | .lineTo x y =>
      let t0 := applyMatrix matrix st.cursorX st.cursorY
      let t1 := applyMatrix matrix x y
      let st1 := emitLine halfWidth luma alpha allowSegmentMerge st t0.1 t0.2 t1.1 t1.2 true
      processPathCmds matrix halfWidth luma alpha allowSegmentMerge rest
        { st1 with cursorX := x, cursorY := y }
    | .curveTo x1 y1 x2 y2 x3 y3 =>
      let t0 := applyMatrix matrix st.cursorX st.cursorY
      let t1 := applyMatrix matrix x1 y1
      let t2 := applyMatrix matrix x2 y2
      let t3 := applyMatrix matrix x3 y3
      let chords := flattenCubic t0.1 t0.2 t1.1 t1.2 t2.1 t2.2 t3.1 t3.2
        CURVE_FLATNESS MAX_CURVE_SPLIT_DEPTH
      let st1 := chords.foldl
        (fun s q => emitLine halfWidth luma alpha allowSegmentMerge s q.1 q.2.1 q.2.2.1 q.2.2.2 false) st
      processPathCmds matrix halfWidth luma alpha allowSegmentMerge rest
        { st1 with cursorX := x3, cursorY := y3 }
    | .quadTo x1 y1 x2 y2 =>
      let c1x := st.cursorX + (2/3) * (x1 - st.cursorX)
      let c1y := st.cursorY + (2/3) * (y1 - st.cursorY)
      let c2x := x2 + (2/3) * (x1 - x2)
      let c2y := y2 + (2/3) * (y1 - y2)
      let t0 := applyMatrix matrix st.cursorX st.cursorY
      let t1 := applyMatrix matrix c1x c1y
      let t2 := applyMatrix matrix c2x c2y
      let t3 := applyMatrix matrix x2 y2
      let chords := flattenCubic t0.1 t0.2 t1.1 t1.2 t2.1 t2.2 t3.1 t3.2
        CURVE_FLATNESS MAX_CURVE_SPLIT_DEPTH
      let st1 := chords.foldl
        (fun s q => emitLine halfWidth luma alpha allowSegmentMerge s q.1 q.2.1 q.2.2.1 q.2.2.2 false) st
      processPathCmds matrix halfWidth luma alpha allowSegmentMerge rest
        { st1 with cursorX := x2, cursorY := y2 }
    | .close =>
      let st1 :=
        if st.hasStart ∧ (st.cursorX ≠ st.startX ∨ st.cursorY ≠ st.startY) then
          let t0 := applyMatrix matrix st.cursorX st.cursorY
          let t1 := applyMatrix matrix st.startX st.startY
          emitLine halfWidth luma alpha allowSegmentMerge st t0.1 t0.2 t1.1 t1.2 true
        else st
      let st2 := flushPending halfWidth luma alpha
        { st1 with cursorX := st.startX, cursorY := st.startY }
      processPathCmds matrix halfWidth luma alpha allowSegmentMerge rest st2
    | .unknown => flushPending halfWidth luma alpha st

/-- Mirror of emitSegmentsFromPath in pdfVectorExtractor.ts. -/
def emitSegmentsFromPath (pathData : List PathCmd) (matrix : Mat2D)
    (halfWidth luma alpha : ℚ) (allowSegmentMerge : Bool)
    (endpoints styles : List Quad) (bounds : Option Bounds) : PathRunState :=
  flushPending halfWidth luma alpha
    (processPathCmds matrix halfWidth luma alpha allowSegmentMerge pathData
      ⟨endpoints, styles, bounds, 0, 0, 0, 0, false, none, 0⟩)

/-- Interpreter state of extractFirstPageVectors; the state stack keeps its
top at the head of the list. -/
structure InterpState where
  stack : List GraphicsState
  current : GraphicsState
  endpoints : List Quad
  styles : List Quad
  bounds : Option Bounds
  pathCount : ℕ
  sourceSegmentCount : ℕ
  maxHalfWidth : ℚ

/-- One operator of the main loop of extractFirstPageVectors. -/
def interpStep (enableSegmentMerge : Bool) (st : InterpState) (op : PdfOp) :
    InterpState :=
  match op with
  | .save => { st with stack := st.current :: st.stack }
  | .restore =>
    match st.stack with
    | [] => st
    | restored :: rest => { st with current := restored, stack := rest }
  | .transform none => st
  | .transform (some m) =>
    { st with current := { st.current with matrix := multiplyMatrices st.current.matrix m } }
  | .setLineWidth w =>
    { st with current := { st.current with lineWidth := max 0 (w.getD st.current.lineWidth) } }
  | .setStrokeColor v =>
    { st with current := { st.current with strokeLuma := parseLuma v st.current.strokeLuma } }
  | .setGState entries =>
    { st with current := applyGraphicsStateEntries entries st.current }
  | .other => st
  | .constructPath paintOp pathData =>
    if isStrokePaintOp paintOp then
      match pathData with
      | none => st
      | some cmds =>
        let widthScale := matrixScale st.current.matrix
        let strokeWidth :=
          if 0 < st.current.lineWidth then st.current.lineWidth * widthScale else 0.7
        let halfWidth := max 0.2 (strokeWidth * (1/2))
        let styleLuma := clamp01 st.current.strokeLuma
        let styleAlpha := clamp01 st.current.strokeAlpha
        let run := emitSegmentsFromPath cmds st.current.matrix halfWidth styleLuma
          styleAlpha enableSegmentMerge st.endpoints st.styles st.bounds
        { st with
            endpoints := run.endpoints,
            styles := run.styles,
            bounds := run.bounds,
            pathCount := st.pathCount + 1,
            sourceSegmentCount := st.sourceSegmentCount + run.sourceCount,
            maxHalfWidth := max st.maxHalfWidth halfWidth }
    else st

/-- Mirror of the VectorScene record of pdfVectorExtractor.ts. -/
structure VectorScene where
  segmentCount : ℕ
  sourceSegmentCount : ℕ
  mergedSegmentCount : ℕ
  endpoints : List Quad
  styles : List Quad
  bounds : Bounds
  pageBounds : Bounds
  maxHalfWidth : ℚ
  operatorCount : ℕ
  pathCount : ℕ
  discardedTransparentCount : ℕ
  discardedDegenerateCount : ℕ
  discardedDuplicateCount : ℕ
  discardedContainedCount : ℕ
deriving DecidableEq, Repr

/-- The interpreter run over a whole operator list. -/
def interpretOps (ops : List PdfOp) (enableSegmentMerge : Bool)
    (pageMatrix : Mat2D) : InterpState :=
  ops.foldl (interpStep enableSegmentMerge)
    ⟨[], createDefaultState pageMatrix, [], [], none, 0, 0, 0⟩

/-- Mirror of extractFirstPageVectors in pdfVectorExtractor.ts.  The pdfjs
document plumbing is abstracted away: the classified operator list, the raw
page view rectangle and the page matrix built by buildPageMatrix are inputs.
In the branches where at least one segment exists the interpreter bounds and
the cull bounds are present, so the getD defaults are never read. -/
def extractFirstPageVectors (ops : List PdfOp)
    (enableSegmentMerge enableInvisibleCull : Bool)
    (pageView : Quad) (pageMatrix : Mat2D) : VectorScene :=
  let (v0, v1, v2, v3) := pageView
  let rawPageBounds : Bounds := ⟨min v0 v2, min v1 v3, max v0 v2, max v1 v3⟩
  let pageBounds := transformBounds rawPageBounds pageMatrix
  let final := interpretOps ops enableSegmentMerge pageMatrix
  let mergedSegmentCount := final.endpoints.length
  if mergedSegmentCount = 0 then
    ⟨0, final.sourceSegmentCount, mergedSegmentCount, [], [], pageBounds, pageBounds,
     0, ops.length, final.pathCount, 0, 0, 0, 0⟩
  else if !enableInvisibleCull then
    ⟨mergedSegmentCount, final.sourceSegmentCount, mergedSegmentCount,
     final.endpoints, final.styles, final.bounds.getD ⟨0, 0, 0, 0⟩, pageBounds,
     final.maxHalfWidth, ops.length, final.pathCount, 0, 0, 0, 0⟩
  else
    let culled := cullInvisibleSegments final.endpoints final.styles
    if culled.segmentCount = 0 then
      ⟨0, final.sourceSegmentCount, mergedSegmentCount, [], [], pageBounds, pageBounds,
       0, ops.length, final.pathCount,
       culled.discardedTransparentCount, culled.discardedDegenerateCount,
       culled.discardedDuplicateCount, culled.discardedContainedCount⟩
    else
      ⟨culled.segmentCount, final.sourceSegmentCount, mergedSegmentCount,
       culled.endpoints, culled.styles, culled.bounds, pageBounds,
       culled.maxHalfWidth, ops.length, final.pathCount,
       culled.discardedTransparentCount, culled.discardedDegenerateCount,
       culled.discardedDuplicateCount, culled.discardedContainedCount⟩

/-! ### C3: the single-horizontal-stroke scenario -/

/-- Helper evaluation lemmas for concrete runs. -/
theorem ratSqrt_one : ratSqrt 1 = 1 := by
  have h := ratSqrt_sq 1 (by norm_num)
  simpa using h

theorem hypotQ_one_zero : hypotQ 1 0 = 1 := by
  unfold hypotQ
  rw [show (1 : ℚ) * 1 + 0 * 0 = 1 by ring, ratSqrt_one]

theorem hypotQ_zero_one : hypotQ 0 1 = 1 := by
  unfold hypotQ
  rw [show (0 : ℚ) * 0 + 1 * 1 = 1 by ring, ratSqrt_one]

theorem hypotQ_pos_x (x : ℚ) (h : 0 ≤ x) : hypotQ x 0 = x := by
  unfold hypotQ
  rw [show x * x + 0 * 0 = x * x by ring]
  exact ratSqrt_sq x h

theorem matrixScale_identity : matrixScale ⟨1, 0, 0, 1, 0, 0⟩ = 1 := by
  unfold matrixScale
  norm_num [hypotQ_one_zero, hypotQ_zero_one]

/-- The operator list of end-to-end scenario 1 of the specification. -/
def singleStrokeOps : List PdfOp :=
  [.setLineWidth (some 2), .constructPath OPS_stroke (some [.moveTo 0 0, .lineTo 10 0])]

/-- Shared evaluation of scenario 1 under the identity CTM. -/
theorem singleStroke_eval :
    extractFirstPageVectors singleStrokeOps true true (0, 0, 100, 100) identityMatrix =
      ⟨1, 1, 1, [(0, 0, 10, 0)], [(1, 0, 1, 0)], ⟨0, 0, 10, 0⟩, ⟨0, 0, 100, 100⟩,
       1, 2, 1, 0, 0, 0, 0⟩ := by
  norm_num [extractFirstPageVectors, interpretOps, interpStep, createDefaultState,
    singleStrokeOps, identityMatrix, matrixScale_identity, isStrokePaintOp, OPS_stroke,
    OPS_closeStroke, OPS_fillStroke, OPS_eoFillStroke, OPS_closeFillStroke,
    OPS_closeEOFillStroke, emitSegmentsFromPath, processPathCmds, emitLine,
    tryMergePending, flushPending, applyMatrix, boundsAdd, cullInvisibleSegments,
    cullScan, cullScanStep, cullScanInit, quadAt, buildDuplicateKey,
    buildCoverageCandidate, pushGroup, processGroups, processGroup, coverStep,
    coverLE, coverCompare, coversCand, updMask, cullCollectStep, clamp01, quantize,
    jsRound, parseLuma, transformBounds, min_def, max_def, hypotQ_pos_x,
    ALPHA_INVISIBLE_EPSILON, OPAQUE_ALPHA_EPSILON, DUPLICATE_POSITION_SCALE,
    DUPLICATE_STYLE_SCALE, COVER_DIRECTION_SCALE, COVER_OFFSET_SCALE,
    COVER_INTERVAL_EPSILON, COVER_HALF_WIDTH_EPSILON, SEGMENT_JOIN_EPSILON,
    COLLINEAR_DOT_THRESHOLD, COLLINEAR_PERP_EPSILON,
    List.insertionSort, List.orderedInsert, List.range_succ, Option.getD]

/-- C3 counterexample: for the operator input [set_line_width(2),
construct_path(stroke, [MoveTo 0 0, LineTo 10 0])] under the identity CTM,
the scene bounds are the raw endpoint box (0, 0, 10, 0); they are not the
claimed margin-expanded box (-1.35, -1.35, 11.35, 1.35), because neither
flushPending nor the cull output loop expands bounds by half_width + 0.35. -/
theorem singleStroke_bounds_cex :
    (extractFirstPageVectors singleStrokeOps true true (0, 0, 100, 100)
      identityMatrix).bounds = ⟨0, 0, 10, 0⟩ ∧
    ¬ ((extractFirstPageVectors singleStrokeOps true true (0, 0, 100, 100)
      identityMatrix).bounds = ⟨-1.35, -1.35, 11.35, 1.35⟩) := by
  rw [singleStroke_eval]
  refine ⟨rfl, fun h => ?_⟩
  have h0 := congrArg Bounds.minX h
  norm_num at h0

/-- C3 amended: for the operator input [set_line_width(2),
construct_path(stroke, [MoveTo 0 0, LineTo 10 0])] interpreted under the
identity CTM, the resulting scene has segmentCount = 1 with endpoints
(0, 0, 10, 0), half_width = 1, luma = 0, alpha = 1, and scene bounds equal to
the raw endpoint box (0, 0, 10, 0) (no margin expansion is applied). -/
theorem singleStroke_scene_spec :
    (extractFirstPageVectors singleStrokeOps true true (0, 0, 100, 100)
      identityMatrix).segmentCount = 1 ∧
    (extractFirstPageVectors singleStrokeOps true true (0, 0, 100, 100)
      identityMatrix).endpoints = [(0, 0, 10, 0)] ∧
    (extractFirstPageVectors singleStrokeOps true true (0, 0, 100, 100)
      identityMatrix).styles = [(1, 0, 1, 0)] ∧
    (extractFirstPageVectors singleStrokeOps true true (0, 0, 100, 100)
      identityMatrix).bounds = ⟨0, 0, 10, 0⟩ := by
  rw [singleStroke_eval]
  exact ⟨rfl, rfl, rfl, rfl⟩

/-! ### C4: the culler is not idempotent -/

/-- Three collinear opaque horizontal strokes on y = 0 whose half-widths sit
inside the comparator's 1e-4 tie window pairwise-inconsistently: the
comparator of the containment sort is not a consistent comparison function on
them.  Listed as (start..end, halfWidth): Y = 0.02..10 at 1.00008,
Z = 0.04..5 at 1.00016, X = 0..12 at 1. -/
def cullTwiceEndpoints : List Quad := [(0.02, 0, 10, 0), (0.04, 0, 5, 0), (0, 0, 12, 0)]

def cullTwiceStyles : List Quad := [(1.00008, 0, 1, 0), (1.00016, 0, 1, 0), (1, 0, 1, 0)]

theorem cullTwiceScan_eval :
    cullScan cullTwiceEndpoints cullTwiceStyles 3 =
      ⟨[(10001, 0, 10000, 20, 0, 10000, 0),
        (10002, 0, 10000, 40, 0, 5000, 0),
        (10000, 0, 10000, 0, 0, 12000, 0)],
       updMask (updMask (updMask (fun _ => false) 0 true) 1 true) 2 true,
       [((2000, 0, 0, 0),
         [⟨0, 1/50, 10, 12501/12500, 1⟩, ⟨1, 1/25, 5, 6251/6250, 1⟩, ⟨2, 0, 12, 1, 1⟩])],
       0, 0, 0⟩ := by
  norm_num [cullTwiceEndpoints, cullTwiceStyles,
    cullScan, cullScanStep, cullScanInit, quadAt, buildDuplicateKey,
    buildCoverageCandidate, pushGroup, quantize,
    jsRound, min_def, max_def, hypotQ_pos_x,
    ALPHA_INVISIBLE_EPSILON, DUPLICATE_POSITION_SCALE,
    DUPLICATE_STYLE_SCALE, COVER_DIRECTION_SCALE, COVER_OFFSET_SCALE,
    List.range_succ]

theorem cullTwiceGroups_eval :
    processGroups (updMask (updMask (updMask (fun _ => false) 0 true) 1 true) 2 true)
      [((2000, 0, 0, 0),
        [⟨0, 1/50, 10, 12501/12500, 1⟩, ⟨1, 1/25, 5, 6251/6250, 1⟩, ⟨2, 0, 12, 1, 1⟩])] =
      (updMask (updMask (updMask (updMask (fun _ => false) 0 true) 1 true) 2 true) 1 false,
       1) := by
  norm_num [processGroups, processGroup, coverStep,
    coverLE, coverCompare, coversCand, min_def, max_def,
    OPAQUE_ALPHA_EPSILON, COVER_INTERVAL_EPSILON, COVER_HALF_WIDTH_EPSILON,
    List.insertionSort, List.orderedInsert, updMask,
    abs_of_nonneg, abs_of_nonpos]

/-- The strokes surviving the first cull run, in input order. -/
def cullTwiceSurvivorEndpoints : List Quad := [(0.02, 0, 10, 0), (0, 0, 12, 0)]

def cullTwiceSurvivorStyles : List Quad := [(1.00008, 0, 1, 0), (1, 0, 1, 0)]

theorem cullTwice_first_eval :
    cullInvisibleSegments cullTwiceEndpoints cullTwiceStyles =
      ⟨2, cullTwiceSurvivorEndpoints, cullTwiceSurvivorStyles,
       ⟨0, 0, 12, 0⟩, 1.00008, 0, 0, 0, 1⟩ := by
  rw [cullInvisibleSegments,
    show cullTwiceEndpoints.length = 3 by norm_num [cullTwiceEndpoints],
    cullTwiceScan_eval]
  simp only [cullTwiceGroups_eval]
  norm_num [cullTwiceEndpoints, cullTwiceStyles, cullTwiceSurvivorEndpoints,
    cullTwiceSurvivorStyles,
    cullCollectStep, quadAt, boundsAdd, min_def, max_def, updMask,
    List.range_succ, Option.getD]

theorem cullTwiceScan2_eval :
    cullScan cullTwiceSurvivorEndpoints cullTwiceSurvivorStyles 2 =
      ⟨[(10001, 0, 10000, 20, 0, 10000, 0),
        (10000, 0, 10000, 0, 0, 12000, 0)],
       updMask (updMask (fun _ => false) 0 true) 1 true,
       [((2000, 0, 0, 0), [⟨0, 1/50, 10, 12501/12500, 1⟩, ⟨1, 0, 12, 1, 1⟩])],
       0, 0, 0⟩ := by
  norm_num [cullTwiceSurvivorEndpoints, cullTwiceSurvivorStyles,
    cullScan, cullScanStep, cullScanInit, quadAt, buildDuplicateKey,
    buildCoverageCandidate, pushGroup, quantize,
    jsRound, min_def, max_def, hypotQ_pos_x,
    ALPHA_INVISIBLE_EPSILON, DUPLICATE_POSITION_SCALE,
    DUPLICATE_STYLE_SCALE, COVER_DIRECTION_SCALE, COVER_OFFSET_SCALE,
    List.range_succ]

theorem cullTwiceGroups2_eval :
    processGroups (updMask (updMask (fun _ => false) 0 true) 1 true)
      [((2000, 0, 0, 0), [⟨0, 1/50, 10, 12501/12500, 1⟩, ⟨1, 0, 12, 1, 1⟩])] =
      (updMask (updMask (updMask (fun _ => false) 0 true) 1 true) 0 false, 1) := by
  norm_num [processGroups, processGroup, coverStep,
    coverLE, coverCompare, coversCand, min_def, max_def,
    OPAQUE_ALPHA_EPSILON, COVER_INTERVAL_EPSILON, COVER_HALF_WIDTH_EPSILON,
    List.insertionSort, List.orderedInsert, updMask,
    abs_of_nonneg, abs_of_nonpos]

theorem cullTwice_second_eval :
    cullInvisibleSegments cullTwiceSurvivorEndpoints cullTwiceSurvivorStyles =
      ⟨1, [(0, 0, 12, 0)], [(1, 0, 1, 0)], ⟨0, 0, 12, 0⟩, 1, 0, 0, 0, 1⟩ := by
  rw [cullInvisibleSegments,
    show cullTwiceSurvivorEndpoints.length = 2 by
      norm_num [cullTwiceSurvivorEndpoints],
    cullTwiceScan2_eval]
  simp only [cullTwiceGroups2_eval]
  norm_num [cullTwiceSurvivorEndpoints, cullTwiceSurvivorStyles,
    cullCollectStep, quadAt, boundsAdd, min_def, max_def, updMask,
    List.range_succ, Option.getD]

/-- C4: evaluation of the culler at the failing input.  Running
cullInvisibleSegments a second time on its own surviving output discards one
further stroke as contained (the containment comparator is not a consistent
comparison function on this input, and the relative sort order of the two
survivors flips once the third stroke is gone), so the culler is not
idempotent: the second run has discardedContainedCount = 1, not 0, and drops
the first surviving stroke. -/
theorem cullInvisibleSegments_not_idempotent :
    (cullInvisibleSegments cullTwiceEndpoints cullTwiceStyles).segmentCount = 2 ∧
    (cullInvisibleSegments
      (cullInvisibleSegments cullTwiceEndpoints cullTwiceStyles).endpoints
      (cullInvisibleSegments cullTwiceEndpoints cullTwiceStyles).styles).segmentCount = 1 ∧
    (cullInvisibleSegments
      (cullInvisibleSegments cullTwiceEndpoints cullTwiceStyles).endpoints
      (cullInvisibleSegments cullTwiceEndpoints cullTwiceStyles).styles).discardedContainedCount = 1 ∧
    (cullInvisibleSegments
      (cullInvisibleSegments cullTwiceEndpoints cullTwiceStyles).endpoints
      (cullInvisibleSegments cullTwiceEndpoints cullTwiceStyles).styles).endpoints ≠
      (cullInvisibleSegments cullTwiceEndpoints cullTwiceStyles).endpoints := by
  rw [cullTwice_first_eval]
  rw [show (⟨2, cullTwiceSurvivorEndpoints, cullTwiceSurvivorStyles,
       ⟨0, 0, 12, 0⟩, 1.00008, 0, 0, 0, 1⟩ :
      InvisibleCullResult).endpoints = cullTwiceSurvivorEndpoints from rfl]
  rw [show (⟨2, cullTwiceSurvivorEndpoints, cullTwiceSurvivorStyles,
       ⟨0, 0, 12, 0⟩, 1.00008, 0, 0, 0, 1⟩ :
      InvisibleCullResult).styles = cullTwiceSurvivorStyles from rfl]
  rw [cullTwice_second_eval]
  refine ⟨rfl, rfl, rfl, fun h => ?_⟩
  have h0 := congrArg List.length h
  norm_num [cullTwiceSurvivorEndpoints] at h0

/-! ### General lemmas about the culler -/

/-- Number of set entries of a keep mask below n. -/
def countKeep (n : ℕ) (keep : ℕ → Bool) : ℕ :=
  ((List.range n).filter (fun i => keep i)).length

theorem filter_updMask_true (l : List ℕ) (hnd : l.Nodup) (j : ℕ) (hj : j ∈ l)
    (keep : ℕ → Bool) (h : keep j = false) :
    (l.filter (fun i => updMask keep j true i)).length =
      (l.filter (fun i => keep i)).length + 1 := by
  induction l with
  | nil => cases hj
  | cons a t ih =>
    rcases List.nodup_cons.mp hnd with ⟨haT, hndT⟩
    rcases List.mem_cons.mp hj with rfl | hjt
    · have htail : t.filter (fun i => updMask keep j true i) = t.filter (fun i => keep i) := by
        apply List.filter_congr
        intro x hx
        have hxj : x ≠ j := fun hEq => haT (hEq ▸ hx)
        simp [updMask, hxj]
      rw [List.filter_cons, List.filter_cons, htail]
      simp [updMask, h]
    · have haj : a ≠ j := fun hEq => haT (hEq ▸ hjt)
      have hhead : updMask keep j true a = keep a := by simp [updMask, haj]
      rw [List.filter_cons, List.filter_cons]
      by_cases hka : keep a = true
      · simp [hhead, hka, ih hndT hjt]
      · simp only [Bool.not_eq_true] at hka
        simp [hhead, hka, ih hndT hjt]

theorem filter_updMask_false (l : List ℕ) (hnd : l.Nodup) (j : ℕ) (hj : j ∈ l)
    (keep : ℕ → Bool) (h : keep j = true) :
    (l.filter (fun i => keep i)).length =
      (l.filter (fun i => updMask keep j false i)).length + 1 := by
  induction l with
  | nil => cases hj
  | cons a t ih =>
    rcases List.nodup_cons.mp hnd with ⟨haT, hndT⟩
    rcases List.mem_cons.mp hj with rfl | hjt
    · have htail : t.filter (fun i => updMask keep j false i) = t.filter (fun i => keep i) := by
        apply List.filter_congr
        intro x hx
        have hxj : x ≠ j := fun hEq => haT (hEq ▸ hx)
        simp [updMask, hxj]
      rw [List.filter_cons, List.filter_cons, htail]
      simp [updMask, h]
    · have haj : a ≠ j := fun hEq => haT (hEq ▸ hjt)
      have hhead : updMask keep j false a = keep a := by simp [updMask, haj]
      rw [List.filter_cons, List.filter_cons]
      by_cases hka : keep a = true
      · simp [hhead, hka, ih hndT hjt]
      · simp only [Bool.not_eq_true] at hka
        simp [hhead, hka, ih hndT hjt]

theorem countKeep_updMask_true {n j : ℕ} (hj : j < n) (keep : ℕ → Bool)
    (h : keep j = false) :
    countKeep n (updMask keep j true) = countKeep n keep + 1 :=
  filter_updMask_true (List.range n) (List.nodup_range n) j
    (List.mem_range.mpr hj) keep h

theorem countKeep_updMask_false {n j : ℕ} (hj : j < n) (keep : ℕ → Bool)
    (h : keep j = true) :
    countKeep n keep = countKeep n (updMask keep j false) + 1 :=
  filter_updMask_false (List.range n) (List.nodup_range n) j
    (List.mem_range.mpr hj) keep h

/-- The classification conditions that hold at every index the scan keeps. -/
def scanKeepConds (endpoints styles : List Quad) (i : ℕ) : Prop :=
  let (x0, y0, x1, y1) := quadAt endpoints i
  let alpha := (quadAt styles i).2.2.1
  ¬ ((quadAt styles i).2.2.1 ≤ ALPHA_INVISIBLE_EPSILON) ∧
  ¬ ((x1 - x0) * (x1 - x0) + (y1 - y0) * (y1 - y0) < 1/10000000000) ∧
  ALPHA_INVISIBLE_EPSILON < alpha

/-- Invariant of the classification loop. -/
def ScanInv (endpoints styles : List Quad) (n k : ℕ) (st : CullScanState) : Prop :=
  st.dTransparent + st.dDegenerate + st.dDuplicate + countKeep n st.keep = k ∧
  (∀ j, st.keep j = true → j < k) ∧
  (∀ j, st.keep j = true → scanKeepConds endpoints styles j)

theorem cullScanStep_inv (endpoints styles : List Quad) (n k : ℕ) (hkn : k < n)
    (st : CullScanState) (h : ScanInv endpoints styles n k st) :
    ScanInv endpoints styles n (k + 1) (cullScanStep endpoints styles st k) := by
  obtain ⟨hsum, hlt, hconds⟩ := h
  have hkfalse : st.keep k = false := by
    cases hkk : st.keep k
    · rfl
    · exact absurd (hlt k hkk) (lt_irrefl k)
  unfold cullScanStep
  rcases hq : quadAt endpoints k with ⟨x0, y0, x1, y1⟩
  rcases hq2 : quadAt styles k with ⟨hw, luma, alpha, w⟩
  simp only [hq, hq2]
  by_cases h1 : alpha ≤ ALPHA_INVISIBLE_EPSILON
  · simp only [if_pos h1]
    exact ⟨by simpa using by omega, fun j hj => Nat.lt_succ_of_lt (hlt j hj),
      hconds⟩
  · simp only [if_neg h1]
    by_cases h2 : (x1 - x0) * (x1 - x0) + (y1 - y0) * (y1 - y0) < 1/10000000000
    · simp only [if_pos h2]
      exact ⟨by simpa using by omega, fun j hj => Nat.lt_succ_of_lt (hlt j hj),
        hconds⟩
    · simp only [if_neg h2]
      by_cases h3 : buildDuplicateKey x0 y0 x1 y1 hw luma alpha ∈ st.seen
      · simp only [if_pos h3]
        exact ⟨by simpa using by omega, fun j hj => Nat.lt_succ_of_lt (hlt j hj),
          hconds⟩
      · simp only [if_neg h3]
        refine ⟨?_, ?_, ?_⟩
        · have := countKeep_updMask_true hkn st.keep hkfalse
          simp only [this]
          omega
        · intro j hj
          by_cases hjk : j = k
          · omega
          · have : st.keep j = true := by simpa [updMask, hjk] using hj
            exact Nat.lt_succ_of_lt (hlt j this)
        · intro j hj
          by_cases hjk : j = k
          · subst hjk
            unfold scanKeepConds
            rw [hq, hq2]
            refine ⟨h1, h2, lt_of_not_le h1⟩
          · have : st.keep j = true := by simpa [updMask, hjk] using hj
            exact hconds j this

theorem cullScan_inv (endpoints styles : List Quad) (n : ℕ) :
    ∀ k, k ≤ n →
      ScanInv endpoints styles n k
        ((List.range k).foldl (cullScanStep endpoints styles) cullScanInit) := by
  intro k
  induction k with
  | zero =>
    intro _
    refine ⟨?_, ?_, ?_⟩
    · simp [cullScanInit, countKeep]
    · intro j hj; simp [cullScanInit] at hj
    · intro j hj; simp [cullScanInit] at hj
  | succ k ih =>
    intro hk
    rw [List.range_succ, List.foldl_append, List.foldl_cons, List.foldl_nil]
    exact cullScanStep_inv endpoints styles n k (by omega) _ (ih (by omega))

/-- Invariant preserved by the containment loop: the flip budget is exact and
set mask entries stay below n. -/
theorem coverFold_inv (n : ℕ) (cands : List CoverageCandidate) :
    ∀ (covers : List CoverageCandidate) (keep : ℕ → Bool) (contained : ℕ),
      (∀ j, keep j = true → j < n) →
      ((cands.foldl coverStep (covers, keep, contained)).2.2 +
          countKeep n (cands.foldl coverStep (covers, keep, contained)).2.1 =
        contained + countKeep n keep) ∧
      (∀ j, (cands.foldl coverStep (covers, keep, contained)).2.1 j = true → j < n) := by
  induction cands with
  | nil => intro covers keep contained hlt; exact ⟨rfl, hlt⟩
  | cons cand rest ih =>
    intro covers keep contained hlt
    rw [List.foldl_cons]
    by_cases hcov : ∃ cover ∈ covers, coversCand cover cand
    · by_cases hkeep : keep cand.index = true
      · have hstep : coverStep (covers, keep, contained) cand =
            (covers, updMask keep cand.index false, contained + 1) := by
          unfold coverStep
          simp only [if_pos hcov, hkeep, if_true]
        rw [hstep]
        have hidx : cand.index < n := hlt cand.index hkeep
        have hlt2 : ∀ j, updMask keep cand.index false j = true → j < n := by
          intro j hj
          by_cases hji : j = cand.index
          · simp [updMask, hji] at hj
          · exact hlt j (by simpa [updMask, hji] using hj)
        obtain ⟨hsum, hmask⟩ := ih covers (updMask keep cand.index false) (contained + 1) hlt2
        refine ⟨?_, hmask⟩
        rw [hsum, countKeep_updMask_false hidx keep hkeep]
        omega
      · have hstep : coverStep (covers, keep, contained) cand = (covers, keep, contained) := by
          unfold coverStep
          simp only [Bool.not_eq_true] at hkeep
          simp only [if_pos hcov, hkeep, Bool.false_eq_true, if_false]
        rw [hstep]
        exact ih covers keep contained hlt
    · by_cases hop : OPAQUE_ALPHA_EPSILON ≤ cand.alpha
      · have hstep : coverStep (covers, keep, contained) cand =
            (covers ++ [cand], keep, contained) := by
          unfold coverStep
          simp only [if_neg hcov, if_pos hop]
        rw [hstep]
        exact ih (covers ++ [cand]) keep contained hlt
      · have hstep : coverStep (covers, keep, contained) cand = (covers, keep, contained) := by
          unfold coverStep
          simp only [if_neg hcov, if_neg hop]
        rw [hstep]
        exact ih covers keep contained hlt

theorem processGroups_inv (n : ℕ) (groups : List (CoverKey × List CoverageCandidate)) :
    ∀ (keep : ℕ → Bool),
      (∀ j, keep j = true → j < n) →
      ((processGroups keep groups).2 + countKeep n (processGroups keep groups).1 =
        countKeep n keep) ∧
      (∀ j, (processGroups keep groups).1 j = true → j < n) := by
  have hgen : ∀ (gs : List (CoverKey × List CoverageCandidate)) (keep : ℕ → Bool)
      (contained : ℕ), (∀ j, keep j = true → j < n) →
      ((gs.foldl (fun st g => processGroup st.1 st.2 g.2) (keep, contained)).2 +
          countKeep n (gs.foldl (fun st g => processGroup st.1 st.2 g.2) (keep, contained)).1 =
        contained + countKeep n keep) ∧
      (∀ j, (gs.foldl (fun st g => processGroup st.1 st.2 g.2) (keep, contained)).1 j = true →
        j < n) := by
    intro gs
    induction gs with
    | nil => intro keep contained hlt; exact ⟨rfl, hlt⟩
    | cons g rest ih =>
      intro keep contained hlt
      simp only [List.foldl_cons]
      obtain ⟨hsum, hmask⟩ := coverFold_inv n (List.insertionSort coverLE g.2) [] keep contained hlt
      have hstep : processGroup keep contained g.2 =
          (((List.insertionSort coverLE g.2).foldl coverStep ([], keep, contained)).2.1,
           ((List.insertionSort coverLE g.2).foldl coverStep ([], keep, contained)).2.2) := by
        unfold processGroup
        rfl
      rw [hstep]
      obtain ⟨hsum2, hmask2⟩ := ih
        ((List.insertionSort coverLE g.2).foldl coverStep ([], keep, contained)).2.1
        ((List.insertionSort coverLE g.2).foldl coverStep ([], keep, contained)).2.2 hmask
      constructor
      · rw [hsum2, hsum]
      · exact hmask2
  intro keep hlt
  have h := hgen groups keep 0 hlt
  unfold processGroups
  simpa using h

/-- The output loop of cullInvisibleSegments produces the kept records in
input order. -/
theorem cullCollect_eval (endpoints styles : List Quad) (keep : ℕ → Bool) :
    ∀ (l : List ℕ) (st : CullCollectState),
      ((l.foldl (cullCollectStep endpoints styles keep) st).outEndpoints =
        st.outEndpoints ++ (l.filter (fun i => keep i)).map (quadAt endpoints)) ∧
      ((l.foldl (cullCollectStep endpoints styles keep) st).outStyles =
        st.outStyles ++ (l.filter (fun i => keep i)).map (quadAt styles)) := by
  intro l
  induction l with
  | nil => intro st; simp
  | cons a t ih =>
    intro st
    rw [List.foldl_cons, List.filter_cons]
    obtain ⟨h1, h2⟩ := ih (cullCollectStep endpoints styles keep st a)
    by_cases hka : keep a = true
    · have hstepE : (cullCollectStep endpoints styles keep st a).outEndpoints =
          st.outEndpoints ++ [quadAt endpoints a] := by
        unfold cullCollectStep
        rcases hq : quadAt endpoints a with ⟨x0, y0, x1, y1⟩
        simp [hka, hq]
      have hstepS : (cullCollectStep endpoints styles keep st a).outStyles =
          st.outStyles ++ [quadAt styles a] := by
        unfold cullCollectStep
        rcases hq : quadAt endpoints a with ⟨x0, y0, x1, y1⟩
        simp [hka, hq]
      rw [h1, h2, hstepE, hstepS]
      simp [hka, List.append_assoc]
    · have hstep : cullCollectStep endpoints styles keep st a = st := by
        unfold cullCollectStep
        simp only [Bool.not_eq_true] at hka
        simp [hka]
      rw [h1, h2, hstep]
      simp [hka]

/-- C1 core: the cull tallies and survivors partition the input exactly. -/
theorem cull_partition (endpoints styles : List Quad) :
    (cullInvisibleSegments endpoints styles).discardedTransparentCount +
      (cullInvisibleSegments endpoints styles).discardedDegenerateCount +
      (cullInvisibleSegments endpoints styles).discardedDuplicateCount +
      (cullInvisibleSegments endpoints styles).discardedContainedCount +
      (cullInvisibleSegments endpoints styles).segmentCount = endpoints.length := by
  have hscan := cullScan_inv endpoints styles endpoints.length endpoints.length (le_refl _)
  rw [show (List.range endpoints.length).foldl (cullScanStep endpoints styles) cullScanInit
        = cullScan endpoints styles endpoints.length from rfl] at hscan
  obtain ⟨hscanSum, hscanLt, -⟩ := hscan
  obtain ⟨hgSum, -⟩ := processGroups_inv endpoints.length
    (cullScan endpoints styles endpoints.length).groups
    (cullScan endpoints styles endpoints.length).keep hscanLt
  unfold cullInvisibleSegments
  rcases hpg : processGroups (cullScan endpoints styles endpoints.length).keep
      (cullScan endpoints styles endpoints.length).groups with ⟨keep2, contained⟩
  rw [hpg] at hgSum
  simp only [hpg]
  unfold countKeep at hscanSum hgSum
  rw [show ((keep2, contained).2 : ℕ) = contained from rfl,
    show (fun i => (keep2, contained).1 i) = (fun i => keep2 i) from rfl] at hgSum
  split
  · rename_i hzero
    dsimp only
    omega
  · rename_i hzero
    dsimp only
    omega

/-! ### Counting lemmas for the emitter: merged segments never exceed source
segments -/

/-- Emitted records plus the pending buffer, the quantity each source segment
can increase by at most one. -/
def pendCount (st : PathRunState) : ℕ :=
  st.endpoints.length + (if st.pending.isSome then 1 else 0)

theorem flushPending_pendCount (halfWidth luma alpha : ℚ) (st : PathRunState) :
    pendCount (flushPending halfWidth luma alpha st) = pendCount st ∧
    (flushPending halfWidth luma alpha st).sourceCount = st.sourceCount := by
  unfold flushPending pendCount
  rcases hp : st.pending with - | ⟨px0, py0, px1, py1⟩
  · simp [hp]
  · simp [hp]

theorem emitLine_pendCount (halfWidth luma alpha : ℚ) (asm : Bool)
    (st : PathRunState) (x0 y0 x1 y1 : ℚ) (am : Bool) :
    pendCount (emitLine halfWidth luma alpha asm st x0 y0 x1 y1 am) + st.sourceCount ≤
      pendCount st + (emitLine halfWidth luma alpha asm st x0 y0 x1 y1 am).sourceCount ∧
    st.sourceCount ≤ (emitLine halfWidth luma alpha asm st x0 y0 x1 y1 am).sourceCount := by
  unfold emitLine
  by_cases hdeg : (x1 - x0) * (x1 - x0) + (y1 - y0) * (y1 - y0) < 1/10000000000
  · simp only [if_pos hdeg]
    simp
  · simp only [if_neg hdeg]
    rcases hm : (if asm && am then
        match st.pending with
        | some p => tryMergePending p x0 y0 x1 y1
        | none => none
      else none) with - | q
    · simp only [hm]
      by_cases hasm : asm = true
      · simp only [hasm, if_true]
        obtain ⟨h1, h2⟩ := flushPending_pendCount halfWidth luma alpha
          { st with sourceCount := st.sourceCount + 1 }
        unfold pendCount at h1 ⊢
        dsimp only at h1 h2 ⊢
        simp only [Option.isSome_some, reduceIte] at h1 h2 ⊢
        omega
      · simp only [Bool.not_eq_true] at hasm
        subst hasm
        unfold pendCount
        simp only [Bool.false_and, Bool.false_eq_true, if_false, List.length_append,
          List.length_singleton, Option.isSome_some, reduceIte]
        omega
    · simp only [hm]
      unfold pendCount
      rcases hsp : st.pending with - | p
      · rw [hsp] at hm
        simp only [Option.isSome_some]
        by_cases hb : (asm && am) = true
        · rw [if_pos hb] at hm; cases hm
        · rw [if_neg hb] at hm; cases hm
      · simp [hsp]

theorem emitChords_pendCount (halfWidth luma alpha : ℚ) (asm : Bool) :
    ∀ (chords : List Quad) (st : PathRunState),
      pendCount (chords.foldl
          (fun s q => emitLine halfWidth luma alpha asm s q.1 q.2.1 q.2.2.1 q.2.2.2 false) st) +
        st.sourceCount ≤
      pendCount st +
        (chords.foldl
          (fun s q => emitLine halfWidth luma alpha asm s q.1 q.2.1 q.2.2.1 q.2.2.2 false) st).sourceCount := by
  intro chords
  induction chords with
  | nil => intro st; simp
  | cons q rest ih =>
    intro st
    rw [List.foldl_cons]
    obtain ⟨h1, h2⟩ := emitLine_pendCount halfWidth luma alpha asm st q.1 q.2.1 q.2.2.1 q.2.2.2 false
    have h3 := ih (emitLine halfWidth luma alpha asm st q.1 q.2.1 q.2.2.1 q.2.2.2 false)
    omega

theorem processPathCmds_pendCount (matrix : Mat2D) (halfWidth luma alpha : ℚ)
    (asm : Bool) :
    ∀ (cmds : List PathCmd) (st : PathRunState),
      pendCount (processPathCmds matrix halfWidth luma alpha asm cmds st) +
        st.sourceCount ≤
      pendCount st +
        (processPathCmds matrix halfWidth luma alpha asm cmds st).sourceCount := by
  intro cmds
  induction cmds with
  | nil => intro st; simp [processPathCmds]
  | cons cmd rest ih =>
    intro st
    cases cmd with
    | moveTo x y =>
      rw [processPathCmds]
      obtain ⟨hf1, hf2⟩ := flushPending_pendCount halfWidth luma alpha st
      have h3 := ih { flushPending halfWidth luma alpha st with
        cursorX := x, cursorY := y, startX := x, startY := y, hasStart := true }
      simp only [pendCount] at hf1 h3 ⊢
      omega
    | lineTo x y =>
      rw [processPathCmds]
      obtain ⟨h1, h2⟩ := emitLine_pendCount halfWidth luma alpha asm st
        (applyMatrix matrix st.cursorX st.cursorY).1
        (applyMatrix matrix st.cursorX st.cursorY).2
        (applyMatrix matrix x y).1 (applyMatrix matrix x y).2 true
      have h3 := ih { emitLine halfWidth luma alpha asm st
          (applyMatrix matrix st.cursorX st.cursorY).1
          (applyMatrix matrix st.cursorX st.cursorY).2
          (applyMatrix matrix x y).1 (applyMatrix matrix x y).2 true with
        cursorX := x, cursorY := y }
      simp only [pendCount] at h1 h3 ⊢
      omega
    | curveTo x1 y1 x2 y2 x3 y3 =>
      rw [processPathCmds]
      have h1 := emitChords_pendCount halfWidth luma alpha asm
        (flattenCubic (applyMatrix matrix st.cursorX st.cursorY).1
          (applyMatrix matrix st.cursorX st.cursorY).2
          (applyMatrix matrix x1 y1).1 (applyMatrix matrix x1 y1).2
          (applyMatrix matrix x2 y2).1 (applyMatrix matrix x2 y2).2
          (applyMatrix matrix x3 y3).1 (applyMatrix matrix x3 y3).2
          CURVE_FLATNESS MAX_CURVE_SPLIT_DEPTH) st
      have h3 := ih { (flattenCubic (applyMatrix matrix st.cursorX st.cursorY).1
          (applyMatrix matrix st.cursorX st.cursorY).2
          (applyMatrix matrix x1 y1).1 (applyMatrix matrix x1 y1).2
          (applyMatrix matrix x2 y2).1 (applyMatrix matrix x2 y2).2
          (applyMatrix matrix x3 y3).1 (applyMatrix matrix x3 y3).2
          CURVE_FLATNESS MAX_CURVE_SPLIT_DEPTH).foldl
            (fun s q => emitLine halfWidth luma alpha asm s q.1 q.2.1 q.2.2.1 q.2.2.2 false) st with
        cursorX := x3, cursorY := y3 }
      simp only [pendCount] at h1 h3 ⊢
      dsimp only at h1 h3 ⊢
      omega
    | quadTo x1 y1 x2 y2 =>
      rw [processPathCmds]
      have h1 := emitChords_pendCount halfWidth luma alpha asm
        (flattenCubic (applyMatrix matrix st.cursorX st.cursorY).1
          (applyMatrix matrix st.cursorX st.cursorY).2
          (applyMatrix matrix (st.cursorX + 2/3 * (x1 - st.cursorX))
            (st.cursorY + 2/3 * (y1 - st.cursorY))).1
          (applyMatrix matrix (st.cursorX + 2/3 * (x1 - st.cursorX))
            (st.cursorY + 2/3 * (y1 - st.cursorY))).2
          (applyMatrix matrix (x2 + 2/3 * (x1 - x2)) (y2 + 2/3 * (y1 - y2))).1
          (applyMatrix matrix (x2 + 2/3 * (x1 - x2)) (y2 + 2/3 * (y1 - y2))).2
          (applyMatrix matrix x2 y2).1 (applyMatrix matrix x2 y2).2
          CURVE_FLATNESS MAX_CURVE_SPLIT_DEPTH) st
      have h3 := ih { (flattenCubic (applyMatrix matrix st.cursorX st.cursorY).1
          (applyMatrix matrix st.cursorX st.cursorY).2
          (applyMatrix matrix (st.cursorX + 2/3 * (x1 - st.cursorX))
            (st.cursorY + 2/3 * (y1 - st.cursorY))).1
          (applyMatrix matrix (st.cursorX + 2/3 * (x1 - st.cursorX))
            (st.cursorY + 2/3 * (y1 - st.cursorY))).2
          (applyMatrix matrix (x2 + 2/3 * (x1 - x2)) (y2 + 2/3 * (y1 - y2))).1
          (applyMatrix matrix (x2 + 2/3 * (x1 - x2)) (y2 + 2/3 * (y1 - y2))).2
          (applyMatrix matrix x2 y2).1 (applyMatrix matrix x2 y2).2
          CURVE_FLATNESS MAX_CURVE_SPLIT_DEPTH).foldl
            (fun s q => emitLine halfWidth luma alpha asm s q.1 q.2.1 q.2.2.1 q.2.2.2 false) st with
        cursorX := x2, cursorY := y2 }
      simp only [pendCount] at h1 h3 ⊢
      dsimp only at h1 h3 ⊢
      omega
    | close =>
      rw [processPathCmds]
      set st1 := (if st.hasStart ∧ (st.cursorX ≠ st.startX ∨ st.cursorY ≠ st.startY) then
          emitLine halfWidth luma alpha asm st
            (applyMatrix matrix st.cursorX st.cursorY).1
            (applyMatrix matrix st.cursorX st.cursorY).2
            (applyMatrix matrix st.startX st.startY).1
            (applyMatrix matrix st.startX st.startY).2 true
        else st) with hst1
      have h1 : pendCount st1 + st.sourceCount ≤ pendCount st + st1.sourceCount ∧
          st.sourceCount ≤ st1.sourceCount := by
        rw [hst1]
        split
        · exact emitLine_pendCount halfWidth luma alpha asm st _ _ _ _ true
        · exact ⟨le_refl _, le_refl _⟩
      obtain ⟨hf1, hf2⟩ := flushPending_pendCount halfWidth luma alpha
        { st1 with cursorX := st.startX, cursorY := st.startY }
      have h3 := ih (flushPending halfWidth luma alpha
        { st1 with cursorX := st.startX, cursorY := st.startY })
      simp only [pendCount] at h1 hf1 h3 ⊢
      dsimp only at h1 hf1 hf2 h3 ⊢
      omega
    | unknown =>
      rw [processPathCmds]
      obtain ⟨hf1, hf2⟩ := flushPending_pendCount halfWidth luma alpha st
      simp only [pendCount] at hf1 ⊢
      omega

/-- The emitter grows the endpoint list by at most its source-segment count. -/
theorem emitSegmentsFromPath_count (pathData : List PathCmd) (matrix : Mat2D)
    (halfWidth luma alpha : ℚ) (asm : Bool) (endpoints styles : List Quad)
    (bounds : Option Bounds) :
    (emitSegmentsFromPath pathData matrix halfWidth luma alpha asm endpoints styles
        bounds).endpoints.length ≤
      endpoints.length +
      (emitSegmentsFromPath pathData matrix halfWidth luma alpha asm endpoints styles
        bounds).sourceCount := by
  unfold emitSegmentsFromPath
  have h1 := processPathCmds_pendCount matrix halfWidth luma alpha asm pathData
    ⟨endpoints, styles, bounds, 0, 0, 0, 0, false, none, 0⟩
  obtain ⟨hf1, hf2⟩ := flushPending_pendCount halfWidth luma alpha
    (processPathCmds matrix halfWidth luma alpha asm pathData
      ⟨endpoints, styles, bounds, 0, 0, 0, 0, false, none, 0⟩)
  simp only [pendCount] at h1 hf1
  dsimp only at h1 hf1 hf2
  simp only [Option.isSome_none, Bool.false_eq_true, if_false, reduceIte] at h1
  have hle : (flushPending halfWidth luma alpha
      (processPathCmds matrix halfWidth luma alpha asm pathData
        ⟨endpoints, styles, bounds, 0, 0, 0, 0, false, none, 0⟩)).endpoints.length ≤
      (flushPending halfWidth luma alpha
      (processPathCmds matrix halfWidth luma alpha asm pathData
        ⟨endpoints, styles, bounds, 0, 0, 0, 0, false, none, 0⟩)).endpoints.length +
      (if (flushPending halfWidth luma alpha
      (processPathCmds matrix halfWidth luma alpha asm pathData
        ⟨endpoints, styles, bounds, 0, 0, 0, 0, false, none, 0⟩)).pending.isSome
        then 1 else 0) := Nat.le_add_right _ _
  omega

/-- The interpreter never emits more merged records than source segments. -/
theorem interpretOps_merged_le_source (ops : List PdfOp) (merge : Bool)
    (pageMatrix : Mat2D) :
    (interpretOps ops merge pageMatrix).endpoints.length ≤
      (interpretOps ops merge pageMatrix).sourceSegmentCount := by
  unfold interpretOps
  have hgen : ∀ (l : List PdfOp) (st : InterpState),
      st.endpoints.length ≤ st.sourceSegmentCount →
      (l.foldl (interpStep merge) st).endpoints.length ≤
        (l.foldl (interpStep merge) st).sourceSegmentCount := by
    intro l
    induction l with
    | nil => intro st h; exact h
    | cons op rest ih =>
      intro st h
      rw [List.foldl_cons]
      apply ih
      cases op with
      | save => exact h
      | restore =>
        unfold interpStep
        rcases st.stack with - | ⟨g, grest⟩ <;> simpa using h
      | transform m => rcases m with - | m <;> simpa [interpStep] using h
      | setLineWidth w => simpa [interpStep] using h
      | setStrokeColor v => simpa [interpStep] using h
      | setGState entries => simpa [interpStep] using h
      | other => exact h
      | constructPath paintOp pathData =>
        unfold interpStep
        by_cases hPaint : isStrokePaintOp paintOp
        · simp only [if_pos hPaint]
          rcases pathData with - | cmds
          · exact h
          · simp only
            have := emitSegmentsFromPath_count cmds st.current.matrix
              (max 0.2 ((if 0 < st.current.lineWidth then
                st.current.lineWidth * matrixScale st.current.matrix else 0.7) * (1/2)))
              (clamp01 st.current.strokeLuma) (clamp01 st.current.strokeAlpha)
              merge st.endpoints st.styles st.bounds
            omega
        · simp only [if_neg hPaint]
          exact h
  have h0 : (⟨[], createDefaultState pageMatrix, [], [], none, 0, 0, 0⟩ :
      InterpState).endpoints.length ≤
      (⟨[], createDefaultState pageMatrix, [], [], none, 0, 0, 0⟩ :
      InterpState).sourceSegmentCount := by simp
  exact hgen ops _ h0

/-- C1: for every scene produced with invisible culling enabled, the
discarded tallies and the surviving count partition the merged stroke list
exactly, and the count chain segmentCount ≤ mergedSegmentCount ≤
sourceSegmentCount holds. -/
theorem extract_counts_partition (ops : List PdfOp) (merge : Bool)
    (pageView : Quad) (pageMatrix : Mat2D) :
    (extractFirstPageVectors ops merge true pageView pageMatrix).discardedTransparentCount +
      (extractFirstPageVectors ops merge true pageView pageMatrix).discardedDegenerateCount +
      (extractFirstPageVectors ops merge true pageView pageMatrix).discardedDuplicateCount +
      (extractFirstPageVectors ops merge true pageView pageMatrix).discardedContainedCount +
      (extractFirstPageVectors ops merge true pageView pageMatrix).segmentCount =
      (extractFirstPageVectors ops merge true pageView pageMatrix).mergedSegmentCount ∧
    (extractFirstPageVectors ops merge true pageView pageMatrix).segmentCount ≤
      (extractFirstPageVectors ops merge true pageView pageMatrix).mergedSegmentCount ∧
    (extractFirstPageVectors ops merge true pageView pageMatrix).mergedSegmentCount ≤
      (extractFirstPageVectors ops merge true pageView pageMatrix).sourceSegmentCount := by
  have hms := interpretOps_merged_le_source ops merge pageMatrix
  have hpart := cull_partition (interpretOps ops merge pageMatrix).endpoints
    (interpretOps ops merge pageMatrix).styles
  unfold extractFirstPageVectors
  rcases pageView with ⟨v0, v1, v2, v3⟩
  simp only
  split
  · rename_i hzero
    simp only
    omega
  · rename_i hnz
    split
    · rename_i hcull
      simp at hcull
    · rename_i hcull
      split
      · rename_i hczero
        simp only
        rw [hczero] at hpart
        omega
      · rename_i hcnz
        simp only
        omega

/-! ### C10: empty extraction results -/

/-- C10: whenever extraction yields no surviving stroke, the scene is still
well formed: bounds is a copy of pageBounds, maxHalfWidth is 0, the endpoint
and style arrays are empty, and sourceSegmentCount, mergedSegmentCount,
operatorCount, pathCount and the discarded tallies are still reported (the
tallies together account for every merged segment). -/
theorem extract_empty_scene (ops : List PdfOp) (merge cull : Bool)
    (pageView : Quad) (pageMatrix : Mat2D)
    (h : (extractFirstPageVectors ops merge cull pageView pageMatrix).segmentCount = 0) :
    (extractFirstPageVectors ops merge cull pageView pageMatrix).endpoints = [] ∧
    (extractFirstPageVectors ops merge cull pageView pageMatrix).styles = [] ∧
    (extractFirstPageVectors ops merge cull pageView pageMatrix).bounds =
      (extractFirstPageVectors ops merge cull pageView pageMatrix).pageBounds ∧
    (extractFirstPageVectors ops merge cull pageView pageMatrix).maxHalfWidth = 0 ∧
    (extractFirstPageVectors ops merge cull pageView pageMatrix).operatorCount = ops.length ∧
    (extractFirstPageVectors ops merge cull pageView pageMatrix).mergedSegmentCount =
      (interpretOps ops merge pageMatrix).endpoints.length ∧
    (extractFirstPageVectors ops merge cull pageView pageMatrix).sourceSegmentCount =
      (interpretOps ops merge pageMatrix).sourceSegmentCount ∧
    (extractFirstPageVectors ops merge cull pageView pageMatrix).pathCount =
      (interpretOps ops merge pageMatrix).pathCount ∧
    (extractFirstPageVectors ops merge cull pageView pageMatrix).discardedTransparentCount +
      (extractFirstPageVectors ops merge cull pageView pageMatrix).discardedDegenerateCount +
      (extractFirstPageVectors ops merge cull pageView pageMatrix).discardedDuplicateCount +
      (extractFirstPageVectors ops merge cull pageView pageMatrix).discardedContainedCount =
      (extractFirstPageVectors ops merge cull pageView pageMatrix).mergedSegmentCount := by
  have hpart := cull_partition (interpretOps ops merge pageMatrix).endpoints
    (interpretOps ops merge pageMatrix).styles
  unfold extractFirstPageVectors at h ⊢
  rcases pageView with ⟨v0, v1, v2, v3⟩
  simp only at h ⊢
  split at h
  · rename_i hzero
    rw [if_pos hzero]
    refine ⟨rfl, rfl, rfl, rfl, rfl, rfl, rfl, rfl, ?_⟩
    simp only
    omega
  · rename_i hnz
    split at h
    · rename_i hcull
      exact absurd h hnz
    · rename_i hcull
      split at h
      · rename_i hczero
        rw [if_neg hnz, if_neg hcull, if_pos hczero]
        rw [hczero] at hpart
        refine ⟨rfl, rfl, rfl, rfl, rfl, rfl, rfl, rfl, ?_⟩
        simp only
        omega
      · rename_i hcnz
        exact absurd h hcnz

/-! ### C5: survivor properties, order preservation, and the disabled pass
through -/

theorem coverFold_mono (cands : List CoverageCandidate) :
    ∀ (covers : List CoverageCandidate) (keep : ℕ → Bool) (contained : ℕ) (j : ℕ),
      (cands.foldl coverStep (covers, keep, contained)).2.1 j = true → keep j = true := by
  induction cands with
  | nil => intro covers keep contained j h; exact h
  | cons cand rest ih =>
    intro covers keep contained j h
    rw [List.foldl_cons] at h
    by_cases hcov : ∃ cover ∈ covers, coversCand cover cand
    · by_cases hkeep : keep cand.index = true
      · have hstep : coverStep (covers, keep, contained) cand =
            (covers, updMask keep cand.index false, contained + 1) := by
          unfold coverStep
          simp only [if_pos hcov, hkeep, if_true]
        rw [hstep] at h
        have hk := ih _ _ _ _ h
        by_cases hji : j = cand.index
        · simp [updMask, hji] at hk
        · simpa [updMask, hji] using hk
      · have hstep : coverStep (covers, keep, contained) cand = (covers, keep, contained) := by
          unfold coverStep
          simp only [Bool.not_eq_true] at hkeep
          simp only [if_pos hcov, hkeep, Bool.false_eq_true, if_false]
        rw [hstep] at h
        exact ih _ _ _ _ h
    · by_cases hop : OPAQUE_ALPHA_EPSILON ≤ cand.alpha
      · have hstep : coverStep (covers, keep, contained) cand =
            (covers ++ [cand], keep, contained) := by
          unfold coverStep
          simp only [if_neg hcov, if_pos hop]
        rw [hstep] at h
        exact ih _ _ _ _ h
      · have hstep : coverStep (covers, keep, contained) cand = (covers, keep, contained) := by
          unfold coverStep
          simp only [if_neg hcov, if_neg hop]
        rw [hstep] at h
        exact ih _ _ _ _ h

theorem processGroups_mono (groups : List (CoverKey × List CoverageCandidate)) :
    ∀ (keep : ℕ → Bool) (j : ℕ),
      (processGroups keep groups).1 j = true → keep j = true := by
  have hgen : ∀ (gs : List (CoverKey × List CoverageCandidate)) (keep : ℕ → Bool)
      (contained : ℕ) (j : ℕ),
      (gs.foldl (fun st g => processGroup st.1 st.2 g.2) (keep, contained)).1 j = true →
      keep j = true := by
    intro gs
    induction gs with
    | nil => intro keep contained j h; exact h
    | cons g rest ih =>
      intro keep contained j h
      simp only [List.foldl_cons] at h
      have hstep : processGroup keep contained g.2 =
          (((List.insertionSort coverLE g.2).foldl coverStep ([], keep, contained)).2.1,
           ((List.insertionSort coverLE g.2).foldl coverStep ([], keep, contained)).2.2) := by
        unfold processGroup
        rfl
      rw [hstep] at h
      exact coverFold_mono _ _ _ _ _ (ih _ _ _ h)
  intro keep j h
  exact hgen groups keep 0 j h

/-- Reading a mapped record list at a valid position. -/
theorem quadAt_map_getElem (records : List Quad) (l : List ℕ) (j : ℕ)
    (h : j < l.length) :
    quadAt (l.map (quadAt records)) j = quadAt records l[j] := by
  have h2 : j < (l.map (quadAt records)).length := by simpa using h
  show (l.map (quadAt records)).getD j (0, 0, 0, 0) = quadAt records l[j]
  rw [List.getD_eq_getElem _ _ h2, List.getElem_map]

/-- The zipped record view of two equal-length lists through quadAt. -/
theorem range_map_quadAt_zip (e s : List Quad) (hlen : s.length = e.length) :
    (List.range e.length).map (fun i => (quadAt e i, quadAt s i)) = e.zip s := by
  apply List.ext_getElem
  · simp [hlen]
  · intro i h1 h2
    simp only [List.getElem_map, List.getElem_range, List.getElem_zip]
    have hie : i < e.length := by simpa using h1
    have his : i < s.length := by omega
    unfold quadAt
    rw [List.getD_eq_getElem e _ hie, List.getD_eq_getElem s _ his]

/-- The two builder arrays of emitSegmentsFromPath always grow in lockstep:
flushPending preserves equality of the style and endpoint lengths. -/
theorem flushPending_lenEq (halfWidth luma alpha : ℚ) (st : PathRunState)
    (h : st.styles.length = st.endpoints.length) :
    (flushPending halfWidth luma alpha st).styles.length =
      (flushPending halfWidth luma alpha st).endpoints.length := by
  unfold flushPending
  rcases hp : st.pending with - | ⟨px0, py0, px1, py1⟩
  · simp only [hp]
    exact h
  · simp [hp, h]

theorem emitLine_lenEq (halfWidth luma alpha : ℚ) (asm : Bool)
    (st : PathRunState) (x0 y0 x1 y1 : ℚ) (am : Bool)
    (h : st.styles.length = st.endpoints.length) :
    (emitLine halfWidth luma alpha asm st x0 y0 x1 y1 am).styles.length =
      (emitLine halfWidth luma alpha asm st x0 y0 x1 y1 am).endpoints.length := by
  unfold emitLine
  by_cases hdeg : (x1 - x0) * (x1 - x0) + (y1 - y0) * (y1 - y0) < 1/10000000000
  · simp only [if_pos hdeg]
    exact h
  · simp only [if_neg hdeg]
    rcases hm : (if asm && am then
        match st.pending with
        | some p => tryMergePending p x0 y0 x1 y1
        | none => none
      else none) with - | q
    · simp only [hm]
      by_cases hasm : asm = true
      · simp only [hasm, if_true]
        exact flushPending_lenEq halfWidth luma alpha
          { st with sourceCount := st.sourceCount + 1 } h
      · simp only [Bool.not_eq_true] at hasm
        subst hasm
        simp only [Bool.false_eq_true, if_false]
        simp [h]
    · simp only [hm]
      exact h

theorem emitChords_lenEq (halfWidth luma alpha : ℚ) (asm : Bool) :
    ∀ (chords : List Quad) (st : PathRunState),
      st.styles.length = st.endpoints.length →
      ((chords.foldl
          (fun s q => emitLine halfWidth luma alpha asm s q.1 q.2.1 q.2.2.1 q.2.2.2 false)
          st).styles.length =
        (chords.foldl
          (fun s q => emitLine halfWidth luma alpha asm s q.1 q.2.1 q.2.2.1 q.2.2.2 false)
          st).endpoints.length) := by
  intro chords
  induction chords with
  | nil => intro st h; exact h
  | cons q rest ih =>
    intro st h
    rw [List.foldl_cons]
    exact ih _ (emitLine_lenEq halfWidth luma alpha asm st q.1 q.2.1 q.2.2.1 q.2.2.2 false h)

theorem processPathCmds_lenEq (matrix : Mat2D) (halfWidth luma alpha : ℚ)
    (asm : Bool) :
    ∀ (cmds : List PathCmd) (st : PathRunState),
      st.styles.length = st.endpoints.length →
      (processPathCmds matrix halfWidth luma alpha asm cmds st).styles.length =
        (processPathCmds matrix halfWidth luma alpha asm cmds st).endpoints.length := by
  intro cmds
  induction cmds with
  | nil => intro st h; exact h
  | cons cmd rest ih =>
    intro st h
    cases cmd with
    | moveTo x y =>
      rw [processPathCmds]
      exact ih _ (flushPending_lenEq halfWidth luma alpha st h)
    | lineTo x y =>
      rw [processPathCmds]
      exact ih _ (emitLine_lenEq halfWidth luma alpha asm st _ _ _ _ true h)
    | curveTo x1 y1 x2 y2 x3 y3 =>
      rw [processPathCmds]
      exact ih _ (emitChords_lenEq halfWidth luma alpha asm _ st h)
    | quadTo x1 y1 x2 y2 =>
      rw [processPathCmds]
      exact ih _ (emitChords_lenEq halfWidth luma alpha asm _ st h)
    | close =>
      rw [processPathCmds]
      refine ih _ ?_
      refine flushPending_lenEq _ _ _ _ ?_
      dsimp only
      split
      · exact emitLine_lenEq halfWidth luma alpha asm st _ _ _ _ true h
      · exact h
    | unknown =>
      rw [processPathCmds]
      exact flushPending_lenEq halfWidth luma alpha st h

theorem emitSegmentsFromPath_lenEq (pathData : List PathCmd) (matrix : Mat2D)
    (halfWidth luma alpha : ℚ) (asm : Bool) (endpoints styles : List Quad)
    (bounds : Option Bounds) (h : styles.length = endpoints.length) :
    (emitSegmentsFromPath pathData matrix halfWidth luma alpha asm
        endpoints styles bounds).styles.length =
      (emitSegmentsFromPath pathData matrix halfWidth luma alpha asm
        endpoints styles bounds).endpoints.length := by
  unfold emitSegmentsFromPath
  exact flushPending_lenEq _ _ _ _
    (processPathCmds_lenEq matrix halfWidth luma alpha asm pathData
      ⟨endpoints, styles, bounds, 0, 0, 0, 0, false, none, 0⟩ h)

theorem interpStep_lenEq (merge : Bool) (st : InterpState) (op : PdfOp)
    (h : st.styles.length = st.endpoints.length) :
    (interpStep merge st op).styles.length =
      (interpStep merge st op).endpoints.length := by
  obtain ⟨stack, current, endpoints, styles, bounds, pathCount, ssc, mhw⟩ := st
  cases op with
  | save => exact h
  | restore =>
    rcases stack with - | ⟨g, rest⟩
    · exact h
    · exact h
  | transform m =>
    rcases m with - | m
    · exact h
    · exact h
  | setLineWidth w => exact h
  | setStrokeColor v => exact h
  | setGState entries => exact h
  | other => exact h
  | constructPath paintOp pathData =>
    by_cases hsp : isStrokePaintOp paintOp
    · rcases pathData with - | cmds
      · simp only [interpStep, if_pos hsp]
        exact h
      · simp only [interpStep, if_pos hsp]
        exact emitSegmentsFromPath_lenEq _ _ _ _ _ _ _ _ _ h
    · simp only [interpStep, if_neg hsp]
      exact h

/-- The interpreter always produces style and endpoint arrays of the same
length. -/
theorem interpretOps_lenEq (ops : List PdfOp) (merge : Bool) (pm : Mat2D) :
    (interpretOps ops merge pm).styles.length =
      (interpretOps ops merge pm).endpoints.length := by
  unfold interpretOps
  have hgen : ∀ (l : List PdfOp) (st : InterpState),
      st.styles.length = st.endpoints.length →
      (l.foldl (interpStep merge) st).styles.length =
        (l.foldl (interpStep merge) st).endpoints.length := by
    intro l
    induction l with
    | nil => intro st h; exact h
    | cons op rest ih =>
      intro st h
      rw [List.foldl_cons]
      exact ih _ (interpStep_lenEq merge st op h)
  exact hgen ops _ rfl

/-- Output characterisation of the culler: there is a final keep mask, every
set bit of which passed the scan conditions, such that the output arrays are
exactly the masked input records in input order. -/
theorem cullInvisibleSegments_outputs (e s : List Quad) :
    ∃ keep2 : ℕ → Bool,
      (∀ j, keep2 j = true → scanKeepConds e s j) ∧
      (cullInvisibleSegments e s).endpoints =
        ((List.range e.length).filter (fun i => keep2 i)).map (quadAt e) ∧
      (cullInvisibleSegments e s).styles =
        ((List.range e.length).filter (fun i => keep2 i)).map (quadAt s) ∧
      (cullInvisibleSegments e s).segmentCount =
        ((List.range e.length).filter (fun i => keep2 i)).length := by
  have hscan := cullScan_inv e s e.length e.length (le_refl _)
  rw [show (List.range e.length).foldl (cullScanStep e s) cullScanInit
        = cullScan e s e.length from rfl] at hscan
  obtain ⟨-, -, hconds⟩ := hscan
  rcases hpg : processGroups (cullScan e s e.length).keep
      (cullScan e s e.length).groups with ⟨keep2, contained⟩
  have hmono := processGroups_mono (cullScan e s e.length).groups
    (cullScan e s e.length).keep
  rw [hpg] at hmono
  have hout : (cullInvisibleSegments e s).endpoints =
        ((List.range e.length).filter (fun i => keep2 i)).map (quadAt e) ∧
      (cullInvisibleSegments e s).styles =
        ((List.range e.length).filter (fun i => keep2 i)).map (quadAt s) ∧
      (cullInvisibleSegments e s).segmentCount =
        ((List.range e.length).filter (fun i => keep2 i)).length := by
    unfold cullInvisibleSegments
    simp only [hpg]
    split
    · rename_i hzero
      rw [List.length_eq_zero] at hzero
      rw [hzero]
      simp
    · rename_i hnz
      obtain ⟨hEv, hSv⟩ := cullCollect_eval e s keep2 (List.range e.length)
        ⟨[], [], none, 0⟩
      dsimp only
      rw [hEv, hSv]
      simp
  exact ⟨keep2, fun j hj => hconds j (hmono j hj), hout.1, hout.2.1, hout.2.2⟩

/-- C5: with invisible culling enabled, every surviving stroke has alpha above
1e-3 and squared length at least 1e-10, and the surviving records appear in
the output in the same relative order as in the merged input (the output pair
list is a sublist of the input pair list); with culling disabled,
extractFirstPageVectors returns the merged endpoints and styles unchanged and
all four discarded counters are zero. -/
theorem cull_survivors_spec (e s : List Quad) (ops : List PdfOp) (merge : Bool)
    (pageView : Quad) (pageMatrix : Mat2D) :
    (∀ j, j < (cullInvisibleSegments e s).segmentCount →
      ALPHA_INVISIBLE_EPSILON < (quadAt (cullInvisibleSegments e s).styles j).2.2.1 ∧
      ¬ (((quadAt (cullInvisibleSegments e s).endpoints j).2.2.1 -
            (quadAt (cullInvisibleSegments e s).endpoints j).1) *
          ((quadAt (cullInvisibleSegments e s).endpoints j).2.2.1 -
            (quadAt (cullInvisibleSegments e s).endpoints j).1) +
          ((quadAt (cullInvisibleSegments e s).endpoints j).2.2.2 -
            (quadAt (cullInvisibleSegments e s).endpoints j).2.1) *
          ((quadAt (cullInvisibleSegments e s).endpoints j).2.2.2 -
            (quadAt (cullInvisibleSegments e s).endpoints j).2.1) < 1/10000000000)) ∧
    (s.length = e.length →
      ((cullInvisibleSegments e s).endpoints.zip (cullInvisibleSegments e s).styles).Sublist
        (e.zip s)) ∧
    ((extractFirstPageVectors ops merge false pageView pageMatrix).discardedTransparentCount = 0 ∧
     (extractFirstPageVectors ops merge false pageView pageMatrix).discardedDegenerateCount = 0 ∧
     (extractFirstPageVectors ops merge false pageView pageMatrix).discardedDuplicateCount = 0 ∧
     (extractFirstPageVectors ops merge false pageView pageMatrix).discardedContainedCount = 0 ∧
     (extractFirstPageVectors ops merge false pageView pageMatrix).endpoints =
       (interpretOps ops merge pageMatrix).endpoints ∧
     (extractFirstPageVectors ops merge false pageView pageMatrix).styles =
       (interpretOps ops merge pageMatrix).styles ∧
     (extractFirstPageVectors ops merge false pageView pageMatrix).segmentCount =
       (extractFirstPageVectors ops merge false pageView pageMatrix).mergedSegmentCount) := by
  obtain ⟨keep2, hk, hE, hS, hC⟩ := cullInvisibleSegments_outputs e s
  refine ⟨?_, ?_, ?_⟩
  · intro j hj
    rw [hC] at hj
    have hjm : j < ((List.range e.length).filter (fun i => keep2 i)).length := hj
    have hES : quadAt (cullInvisibleSegments e s).endpoints j =
        quadAt e (((List.range e.length).filter (fun i => keep2 i))[j]) := by
      rw [hE]
      exact quadAt_map_getElem e _ j hjm
    have hSS : quadAt (cullInvisibleSegments e s).styles j =
        quadAt s (((List.range e.length).filter (fun i => keep2 i))[j]) := by
      rw [hS]
      exact quadAt_map_getElem s _ j hjm
    have hkeep : keep2 (((List.range e.length).filter (fun i => keep2 i))[j]) = true := by
      have hmem := List.getElem_mem hjm
      exact (List.mem_filter.mp hmem).2
    have hcond := hk _ hkeep
    unfold scanKeepConds at hcond
    rcases hq : quadAt e (((List.range e.length).filter (fun i => keep2 i))[j])
      with ⟨x0, y0, x1, y1⟩
    rw [hq] at hES
    simp only [hq] at hcond
    rw [hES, hSS]
    obtain ⟨h1, h2, h3⟩ := hcond
    dsimp only
    exact ⟨h3, h2⟩
  · intro hlen
    rw [hE, hS, List.zip_map']
    rw [← range_map_quadAt_zip e s hlen]
    exact (List.filter_sublist _).map _
  · have hsl := interpretOps_lenEq ops merge pageMatrix
    unfold extractFirstPageVectors
    rcases pageView with ⟨v0, v1, v2, v3⟩
    simp only
    split
    · rename_i hzero
      rw [hzero] at hsl
      refine ⟨rfl, rfl, rfl, rfl, ?_, ?_, ?_⟩
      · exact (List.length_eq_zero.mp hzero).symm
      · exact (List.length_eq_zero.mp hsl).symm
      · exact hzero.symm
    · rename_i hnz
      simp only [Bool.not_false, reduceIte]
      exact ⟨trivial, trivial, trivial, trivial, trivial, trivial, trivial⟩

/-- Concrete single-stroke input for the C5 witness. -/
def singleCullEndpoints : List Quad := [(0, 0, 10, 0)]

def singleCullStyles : List Quad := [(1, 0, 1, 0)]

theorem singleCull_eval :
    cullInvisibleSegments singleCullEndpoints singleCullStyles =
      ⟨1, [(0, 0, 10, 0)], [(1, 0, 1, 0)], ⟨0, 0, 10, 0⟩, 1, 0, 0, 0, 0⟩ := by
  rw [cullInvisibleSegments,
    show singleCullEndpoints.length = 1 by norm_num [singleCullEndpoints],
    show cullScan singleCullEndpoints singleCullStyles 1 =
        ⟨[(10000, 0, 10000, 0, 0, 10000, 0)],
         updMask (fun _ => false) 0 true,
         [((2000, 0, 0, 0), [⟨0, 0, 10, 1, 1⟩])], 0, 0, 0⟩ by
      norm_num [singleCullEndpoints, singleCullStyles,
        cullScan, cullScanStep, cullScanInit, quadAt, buildDuplicateKey,
        buildCoverageCandidate, pushGroup, quantize,
        jsRound, min_def, max_def, hypotQ_pos_x,
        ALPHA_INVISIBLE_EPSILON, DUPLICATE_POSITION_SCALE,
        DUPLICATE_STYLE_SCALE, COVER_DIRECTION_SCALE, COVER_OFFSET_SCALE,
        List.range_succ]]
  rw [show processGroups (updMask (fun _ => false) 0 true)
        [((2000, 0, 0, 0), [⟨0, 0, 10, 1, 1⟩])] =
      (updMask (fun _ => false) 0 true, 0) by
    norm_num [processGroups, processGroup, coverStep,
      coverLE, coverCompare, coversCand, min_def, max_def,
      OPAQUE_ALPHA_EPSILON, COVER_INTERVAL_EPSILON, COVER_HALF_WIDTH_EPSILON,
      List.insertionSort, List.orderedInsert, updMask]]
  norm_num [singleCullEndpoints, singleCullStyles,
    cullCollectStep, quadAt, boundsAdd, min_def, max_def, updMask,
    List.range_succ, Option.getD]

/-- C5 witness: the survivor conditions, the order-preservation sublist and
the disabled pass-through, all at a concrete single-stroke input. -/
theorem cull_survivors_spec_witness :
    (0 < (cullInvisibleSegments singleCullEndpoints singleCullStyles).segmentCount ∧
     ALPHA_INVISIBLE_EPSILON <
       (quadAt (cullInvisibleSegments singleCullEndpoints singleCullStyles).styles 0).2.2.1) ∧
    singleCullStyles.length = singleCullEndpoints.length ∧
    ((cullInvisibleSegments singleCullEndpoints singleCullStyles).endpoints.zip
        (cullInvisibleSegments singleCullEndpoints singleCullStyles).styles).Sublist
      (singleCullEndpoints.zip singleCullStyles) ∧
    (extractFirstPageVectors singleStrokeOps true false (0, 0, 100, 100)
      identityMatrix).discardedTransparentCount = 0 := by
  have hmain := cull_survivors_spec singleCullEndpoints singleCullStyles
    singleStrokeOps true (0, 0, 100, 100) identityMatrix
  have hpos : 0 < (cullInvisibleSegments singleCullEndpoints singleCullStyles).segmentCount := by
    rw [singleCull_eval]
    norm_num
  have hlen : singleCullStyles.length = singleCullEndpoints.length := by
    norm_num [singleCullEndpoints, singleCullStyles]
  exact ⟨⟨hpos, (hmain.1 0 hpos).1⟩, hlen, hmain.2.1 hlen, hmain.2.2.1⟩

/-- C10 witness: the empty operator list yields an empty scene whose bounds is
the page bounds. -/
theorem extract_empty_scene_witness :
    (extractFirstPageVectors [] true true (0, 0, 10, 10) identityMatrix).segmentCount = 0 ∧
    (extractFirstPageVectors [] true true (0, 0, 10, 10) identityMatrix).endpoints = [] ∧
    (extractFirstPageVectors [] true true (0, 0, 10, 10) identityMatrix).bounds =
      (extractFirstPageVectors [] true true (0, 0, 10, 10) identityMatrix).pageBounds ∧
    (extractFirstPageVectors [] true true (0, 0, 10, 10) identityMatrix).maxHalfWidth = 0 := by
  have h0 : (extractFirstPageVectors [] true true (0, 0, 10, 10)
      identityMatrix).segmentCount = 0 := rfl
  have hmain := extract_empty_scene [] true true (0, 0, 10, 10) identityMatrix h0
  exact ⟨h0, hmain.1, hmain.2.2.1, hmain.2.2.2.1⟩

/-! ### C9: textures derived by the archive loader (parsedDataZip.ts) -/

/-- Mirror of deriveLinePrimitiveB in parsedDataZip.ts: every derived record
is the second endpoint of the A record, zero padded. -/
def deriveLinePrimitiveB (primitivesA : List Quad) : List Quad :=
  primitivesA.map (fun q => (q.2.2.1, q.2.2.2, (0 : ℚ), (0 : ℚ)))

/-- Mirror of derivePrimitiveBounds in parsedDataZip.ts: componentwise min and
max over the two endpoints of the A record and the first point of the B
record; the source adds no margin. -/
def derivePrimitiveBounds (primitivesA primitivesB : List Quad) : List Quad :=
  (List.range primitivesA.length).map (fun i =>
    (min (quadAt primitivesA i).1 (min (quadAt primitivesA i).2.2.1
        (quadAt primitivesB i).1),
     min (quadAt primitivesA i).2.1 (min (quadAt primitivesA i).2.2.2
        (quadAt primitivesB i).2.1),
     max (quadAt primitivesA i).1 (max (quadAt primitivesA i).2.2.1
        (quadAt primitivesB i).1),
     max (quadAt primitivesA i).2.1 (max (quadAt primitivesA i).2.2.2
        (quadAt primitivesB i).2.1)))

/-- quadAt at a valid position is the list element. -/
theorem quadAt_eq_getElem (l : List Quad) (i : ℕ) (h : i < l.length) :
    quadAt l i = l[i] := List.getD_eq_getElem l _ h

/-- C9 amended: when the optional stroke textures are absent the loader derives
stroke-primitives-b as the second endpoint zero padded (as claimed), but the
derived stroke-primitive-bounds record is the bare endpoint axis-aligned
bounding box: derivePrimitiveBounds takes plain min/max over the endpoints and
adds no half width + 0.35 margin. -/
theorem derivedStrokeTextures_spec (a : List Quad) (i : ℕ) (h : i < a.length) :
    quadAt (deriveLinePrimitiveB a) i =
      ((quadAt a i).2.2.1, (quadAt a i).2.2.2, 0, 0) ∧
    quadAt (derivePrimitiveBounds a (deriveLinePrimitiveB a)) i =
      (min (quadAt a i).1 (quadAt a i).2.2.1,
       min (quadAt a i).2.1 (quadAt a i).2.2.2,
       max (quadAt a i).1 (quadAt a i).2.2.1,
       max (quadAt a i).2.1 (quadAt a i).2.2.2) := by
  have hA : quadAt a i = a[i] := quadAt_eq_getElem a i h
  have h1 : quadAt (deriveLinePrimitiveB a) i =
      ((a[i]).2.2.1, (a[i]).2.2.2, 0, 0) := by
    unfold deriveLinePrimitiveB
    rw [quadAt_eq_getElem _ i (by simpa using h), List.getElem_map]
  have h2 : quadAt (derivePrimitiveBounds a (deriveLinePrimitiveB a)) i =
      (min (quadAt a i).1 (min (quadAt a i).2.2.1
          (quadAt (deriveLinePrimitiveB a) i).1),
       min (quadAt a i).2.1 (min (quadAt a i).2.2.2
          (quadAt (deriveLinePrimitiveB a) i).2.1),
       max (quadAt a i).1 (max (quadAt a i).2.2.1
          (quadAt (deriveLinePrimitiveB a) i).1),
       max (quadAt a i).2.1 (max (quadAt a i).2.2.2
          (quadAt (deriveLinePrimitiveB a) i).2.1)) := by
    unfold derivePrimitiveBounds
    rw [quadAt_eq_getElem _ i (by simpa using h), List.getElem_map,
      List.getElem_range]
  refine ⟨by rw [h1, hA], ?_⟩
  rw [h2, h1, hA]
  dsimp only
  simp [min_self, max_self, min_assoc, max_assoc]

/-- C9 witness: the amended statement instantiated at the single stroke
(0, 0, 10, 0). -/
theorem derivedStrokeTextures_spec_witness :
    quadAt (deriveLinePrimitiveB ([(0, 0, 10, 0)] : List Quad)) 0 =
      ((quadAt ([(0, 0, 10, 0)] : List Quad) 0).2.2.1,
       (quadAt ([(0, 0, 10, 0)] : List Quad) 0).2.2.2, 0, 0) ∧
    quadAt (derivePrimitiveBounds ([(0, 0, 10, 0)] : List Quad)
        (deriveLinePrimitiveB ([(0, 0, 10, 0)] : List Quad))) 0 =
      (min (quadAt ([(0, 0, 10, 0)] : List Quad) 0).1
        (quadAt ([(0, 0, 10, 0)] : List Quad) 0).2.2.1,
       min (quadAt ([(0, 0, 10, 0)] : List Quad) 0).2.1
        (quadAt ([(0, 0, 10, 0)] : List Quad) 0).2.2.2,
       max (quadAt ([(0, 0, 10, 0)] : List Quad) 0).1
        (quadAt ([(0, 0, 10, 0)] : List Quad) 0).2.2.1,
       max (quadAt ([(0, 0, 10, 0)] : List Quad) 0).2.1
        (quadAt ([(0, 0, 10, 0)] : List Quad) 0).2.2.2) :=
  derivedStrokeTextures_spec ([(0, 0, 10, 0)] : List Quad) 0 (by norm_num)

/-- C9 counterexample: for the single stroke (0, 0, 10, 0) the derived bounds
record is the bare endpoint box (0, 0, 10, 0), not the claimed margin-expanded
box (-1.35, -1.35, 11.35, 1.35) (for any style, since derivePrimitiveBounds
never reads the style texture the half width would come from). -/
theorem derivePrimitiveBounds_no_margin_cex :
    quadAt (derivePrimitiveBounds ([(0, 0, 10, 0)] : List Quad)
        (deriveLinePrimitiveB ([(0, 0, 10, 0)] : List Quad))) 0 = (0, 0, 10, 0) ∧
    quadAt (derivePrimitiveBounds ([(0, 0, 10, 0)] : List Quad)
        (deriveLinePrimitiveB ([(0, 0, 10, 0)] : List Quad))) 0 ≠
      (-1.35, -1.35, 11.35, 1.35) := by
  norm_num [derivePrimitiveBounds, deriveLinePrimitiveB, quadAt,
    List.range_succ, min_def, max_def, Prod.ext_iff]

/-! ### The spatial grid (spatialGrid.ts): CSR construction

buildSpatialGrid and chooseGridSize of spatialGrid.ts.  Uint32Array cell
tables are modelled as ℕ → ℕ functions updated pointwise; the indices array,
whose length matters, as a List ℕ written with List.set.  The identical
row/column double loop the source repeats three times is factored into
cellRangeList; the per-visit loop bodies (count bump, cursor write) are the
fold steps countVisit and fillVisit. -/

def MIN_GRID_SIDE : ℤ := 64

def MAX_GRID_SIDE : ℤ := 1024

def MIN_TARGET_CELLS : ℤ := 30000

def MAX_TARGET_CELLS : ℤ := 220000

/-- Mirror of the clamp helper of spatialGrid.ts. -/
def clampNum (value minV maxV : ℤ) : ℤ :=
  if value < minV then minV else if value > maxV then maxV else value

/-- Mirror of chooseGridSize in spatialGrid.ts; Math.sqrt is modelled by
ratSqrt (the clamps behind it do not depend on the sqrt value). -/
def chooseGridSize (segmentCount : ℕ) (width height : ℚ) : ℕ × ℕ :=
  let targetCells := clampNum (jsRound ((segmentCount : ℚ) / 8))
    MIN_TARGET_CELLS MAX_TARGET_CELLS
  let aspect := width / height
  let gridWidth := jsRound (ratSqrt ((targetCells : ℚ) * aspect))
  let gridHeight := jsRound ((targetCells : ℚ) / ((max gridWidth 1 : ℤ) : ℚ))
  ((clampNum gridWidth MIN_GRID_SIDE MAX_GRID_SIDE).toNat,
   (clampNum gridHeight MIN_GRID_SIDE MAX_GRID_SIDE).toNat)

/-- Mirror of clampToCell in spatialGrid.ts. -/
def clampToCell (value : ℤ) (maxCells : ℕ) : ℕ :=
  if value < 0 then 0
  else if (maxCells : ℤ) ≤ value then maxCells - 1
  else value.toNat

/-- The row/column double loop of the source: cell indices row * gw + col for
row in [r0, r1] and col in [c0, c1], rows outer, in loop order. -/
def cellRangeList (gw c0 c1 r0 r1 : ℕ) : List ℕ :=
  (List.range (r1 + 1 - r0)).flatMap (fun dr =>
    (List.range (c1 + 1 - c0)).map (fun dc => (r0 + dr) * gw + (c0 + dc)))

/-- The cells one segment's margin-expanded box covers, exactly as both
passes of buildSpatialGrid enumerate them. -/
def segCellList (endpoints styles : List Quad) (bounds : Bounds)
    (cellWidth cellHeight : ℚ) (gw gh : ℕ) (i : ℕ) : List ℕ :=
  let x0 := (quadAt endpoints i).1
  let y0 := (quadAt endpoints i).2.1
  let x1 := (quadAt endpoints i).2.2.1
  let y1 := (quadAt endpoints i).2.2.2
  let margin := (quadAt styles i).1 + 0.35
  let c0 := clampToCell ⌊(min x0 x1 - margin - bounds.minX) / cellWidth⌋ gw
  let c1 := clampToCell ⌊(max x0 x1 + margin - bounds.minX) / cellWidth⌋ gw
  let r0 := clampToCell ⌊(min y0 y1 - margin - bounds.minY) / cellHeight⌋ gh
  let r1 := clampToCell ⌊(max y0 y1 + margin - bounds.minY) / cellHeight⌋ gh
  cellRangeList gw c0 c1 r0 r1

/-- State of the first (counting) pass. -/
structure CountState where
  counts : ℕ → ℕ
  maxCellPopulation : ℕ

/-- One counts[cellIndex] increment with the running maximum update. -/
def countVisit (st : CountState) (c : ℕ) : CountState :=
  let next := st.counts c + 1
  ⟨fun j => if j = c then next else st.counts j,
   if next > st.maxCellPopulation then next else st.maxCellPopulation⟩

/-- The counting pass over all segments. -/
def countPass (cells : ℕ → List ℕ) (n : ℕ) : CountState :=
  (List.range n).foldl (fun st i => (cells i).foldl countVisit st)
    ⟨fun _ => 0, 0⟩

/-- The prefix-sum loop offsets[i+1] = offsets[i] + counts[i]. -/
def csrOffsets (counts : ℕ → ℕ) : ℕ → ℕ
  | 0 => 0
  | c + 1 => csrOffsets counts c + counts c

/-- State of the second (filling) pass: the write cursors and the indices
array. -/
structure FillState where
  cursors : ℕ → ℕ
  indices : List ℕ

/-- One indices[cursors[cellIndex]++] = i write. -/
def fillVisit (i : ℕ) (st : FillState) (c : ℕ) : FillState :=
  ⟨fun j => if j = c then st.cursors c + 1 else st.cursors j,
   st.indices.set (st.cursors c) i⟩

/-- The filling pass over all segments; cursors start as a copy of offsets
and indices as the zero-initialised Uint32Array. -/
def fillPass (cells : ℕ → List ℕ) (n : ℕ) (offsets : ℕ → ℕ) (total : ℕ) :
    FillState :=
  (List.range n).foldl (fun st i => (cells i).foldl (fillVisit i) st)
    ⟨offsets, List.replicate total 0⟩

/-- Mirror of the SpatialGrid record. -/
structure SpatialGrid where
  gridWidth : ℕ
  gridHeight : ℕ
  minX : ℚ
  minY : ℚ
  maxX : ℚ
  maxY : ℚ
  cellWidth : ℚ
  cellHeight : ℚ
  offsets : ℕ → ℕ
  counts : ℕ → ℕ
  indices : List ℕ
  maxCellPopulation : ℕ

/-- Mirror of buildSpatialGrid in spatialGrid.ts, over the scene fields it
reads (endpoints, styles, segmentCount = endpoints.length, bounds). -/
def buildSpatialGrid (endpoints styles : List Quad) (bounds : Bounds) :
    SpatialGrid :=
  let segmentCount := endpoints.length
  let width := max (bounds.maxX - bounds.minX) (1/100000)
  let height := max (bounds.maxY - bounds.minY) (1/100000)
  let gs := chooseGridSize segmentCount width height
  let gridWidth := gs.1
  let gridHeight := gs.2
  let cellCount := gridWidth * gridHeight
  let cellWidth := width / (gridWidth : ℚ)
  let cellHeight := height / (gridHeight : ℚ)
  let cells := segCellList endpoints styles bounds cellWidth cellHeight
    gridWidth gridHeight
  let cp := countPass cells segmentCount
  let offsets := csrOffsets cp.counts
  let fp := fillPass cells segmentCount offsets (offsets cellCount)
  ⟨gridWidth, gridHeight, bounds.minX, bounds.minY, bounds.maxX, bounds.maxY,
   cellWidth, cellHeight, offsets, cp.counts, fp.indices, cp.maxCellPopulation⟩

/-! ### CSR lemmas -/

theorem getD_set_ne (l : List ℕ) (p q v : ℕ) (h : q ≠ p) :
    (l.set p v).getD q 0 = l.getD q 0 := by
  rw [List.getD_eq_getElem?_getD, List.getD_eq_getElem?_getD,
    List.getElem?_set_ne (fun he => h he.symm)]

theorem getD_set_self (l : List ℕ) (p v : ℕ) (h : p < l.length) :
    (l.set p v).getD p 0 = v := by
  rw [List.getD_eq_getElem?_getD, List.getElem?_set_self]
  · simp
  · exact h

theorem getD_append_left (l l2 : List ℕ) (i : ℕ) (h : i < l.length) :
    (l ++ l2).getD i 0 = l.getD i 0 := by
  rw [List.getD_eq_getElem?_getD, List.getD_eq_getElem?_getD,
    List.getElem?_append_left h]

theorem getD_append_singleton (l : List ℕ) (k : ℕ) :
    (l ++ [k]).getD l.length 0 = k := by
  rw [List.getD_eq_getElem?_getD, List.getElem?_append_right (le_refl _)]
  simp

theorem clampNum_toNat_bounds (v : ℤ) :
    64 ≤ (clampNum v MIN_GRID_SIDE MAX_GRID_SIDE).toNat ∧
    (clampNum v MIN_GRID_SIDE MAX_GRID_SIDE).toNat ≤ 1024 := by
  unfold clampNum MIN_GRID_SIDE MAX_GRID_SIDE
  repeat' split
  all_goals omega

theorem chooseGridSize_bounds (n : ℕ) (w h : ℚ) :
    64 ≤ (chooseGridSize n w h).1 ∧ (chooseGridSize n w h).1 ≤ 1024 ∧
    64 ≤ (chooseGridSize n w h).2 ∧ (chooseGridSize n w h).2 ≤ 1024 :=
  ⟨(clampNum_toNat_bounds _).1, (clampNum_toNat_bounds _).2,
   (clampNum_toNat_bounds _).1, (clampNum_toNat_bounds _).2⟩

theorem clampToCell_lt (v : ℤ) (g : ℕ) (hg : 0 < g) : clampToCell v g < g := by
  unfold clampToCell
  repeat' split
  all_goals omega

theorem clampToCell_mono (v w : ℤ) (g : ℕ) (h : v ≤ w) :
    clampToCell v g ≤ clampToCell w g := by
  unfold clampToCell
  repeat' split
  all_goals omega

theorem mem_cellRangeList {gw c0 c1 r0 r1 x : ℕ} :
    x ∈ cellRangeList gw c0 c1 r0 r1 ↔
      ∃ r c, r0 ≤ r ∧ r ≤ r1 ∧ c0 ≤ c ∧ c ≤ c1 ∧ x = r * gw + c := by
  unfold cellRangeList
  simp only [List.mem_flatMap, List.mem_map, List.mem_range]
  constructor
  · rintro ⟨dr, hdr, dc, hdc, rfl⟩
    exact ⟨r0 + dr, c0 + dc, by omega, by omega, by omega, by omega, rfl⟩
  · rintro ⟨r, c, h1, h2, h3, h4, rfl⟩
    refine ⟨r - r0, by omega, c - c0, by omega, ?_⟩
    have hr : r0 + (r - r0) = r := by omega
    have hc : c0 + (c - c0) = c := by omega
    rw [hr, hc]

theorem row_col_inj {gw a b a2 b2 : ℕ} (hb : b < gw) (hb2 : b2 < gw)
    (h : a * gw + b = a2 * gw + b2) : a = a2 ∧ b = b2 := by
  have e : b % gw = b2 % gw := by
    have e1 := Nat.mul_add_mod gw a b
    have e2 := Nat.mul_add_mod gw a2 b2
    rw [Nat.mul_comm gw a] at e1
    rw [Nat.mul_comm gw a2] at e2
    rw [← e1, ← e2, h]
  rw [Nat.mod_eq_of_lt hb, Nat.mod_eq_of_lt hb2] at e
  subst e
  refine ⟨?_, rfl⟩
  have hm : a * gw = a2 * gw := by omega
  exact Nat.eq_of_mul_eq_mul_right (by omega) hm

theorem cellRangeList_nodup (gw c0 c1 r0 r1 : ℕ) (hc1 : c1 < gw) :
    (cellRangeList gw c0 c1 r0 r1).Nodup := by
  unfold cellRangeList
  rw [List.nodup_flatMap]
  constructor
  · intro dr hdr
    refine List.Nodup.map ?_ (List.nodup_range _)
    intro a b hab
    simp only at hab
    omega
  · have hp := List.pairwise_lt_range (r1 + 1 - r0)
    refine hp.imp ?_
    intro dr dr2 hlt x hx1 hx2
    simp only [List.mem_map, List.mem_range] at hx1 hx2
    obtain ⟨dc, hdc, rfl⟩ := hx1
    obtain ⟨dc2, hdc2, he⟩ := hx2
    have hcb : c0 + dc < gw := by omega
    have hcb2 : c0 + dc2 < gw := by omega
    obtain ⟨hr, -⟩ := row_col_inj hcb2 hcb he
    omega

theorem cellRangeList_lt (gw gh c0 c1 r0 r1 x : ℕ) (hc1 : c1 < gw)
    (hr1 : r1 < gh) (hx : x ∈ cellRangeList gw c0 c1 r0 r1) : x < gw * gh := by
  obtain ⟨r, c, h1, h2, h3, h4, rfl⟩ := mem_cellRangeList.mp hx
  have hrow : r + 1 ≤ gh := by omega
  have h5 : r * gw + c < (r + 1) * gw := by
    rw [Nat.add_mul, Nat.one_mul]
    omega
  have h6 : (r + 1) * gw ≤ gh * gw := Nat.mul_le_mul_right gw hrow
  rw [Nat.mul_comm gh gw] at h6
  omega

/-- The segments whose cell lists contain cell c, among the first k segments,
in input order: the semantic content of one CSR cell. -/
def cellSegs (cells : ℕ → List ℕ) (k c : ℕ) : List ℕ :=
  (List.range k).filter (fun i => decide (c ∈ cells i))

theorem cellSegs_succ (cells : ℕ → List ℕ) (k c : ℕ) :
    cellSegs cells (k + 1) c =
      cellSegs cells k c ++ if c ∈ cells k then [k] else [] := by
  unfold cellSegs
  rw [List.range_succ, List.filter_append]
  congr 1
  by_cases h : c ∈ cells k <;> simp [h]

theorem cellSegs_succ_length (cells : ℕ → List ℕ) (k c : ℕ) :
    (cellSegs cells (k + 1) c).length =
      (cellSegs cells k c).length + if c ∈ cells k then 1 else 0 := by
  rw [cellSegs_succ]
  by_cases h : c ∈ cells k <;> simp [h]

theorem cellSegs_length_mono (cells : ℕ → List ℕ) (c : ℕ) {k k2 : ℕ}
    (h : k ≤ k2) : (cellSegs cells k c).length ≤ (cellSegs cells k2 c).length := by
  induction h with
  | refl => exact le_refl _
  | step h2 ih =>
    rw [cellSegs_succ_length]
    split <;> omega

theorem cellSegs_mem (cells : ℕ → List ℕ) (k c i : ℕ) :
    i ∈ cellSegs cells k c ↔ i < k ∧ c ∈ cells i := by
  unfold cellSegs
  simp [List.mem_filter]

theorem countVisit_counts (st : CountState) (c j : ℕ) :
    (countVisit st c).counts j =
      if j = c then st.counts c + 1 else st.counts j := rfl

theorem countVisit_max (st : CountState) (c : ℕ) :
    (countVisit st c).maxCellPopulation =
      if st.counts c + 1 > st.maxCellPopulation then st.counts c + 1
      else st.maxCellPopulation := rfl

theorem countFold_counts : ∀ (l : List ℕ) (st : CountState), l.Nodup →
    ∀ c, (l.foldl countVisit st).counts c =
      st.counts c + (if c ∈ l then 1 else 0) := by
  intro l
  induction l with
  | nil => intro st _ c; simp
  | cons a t ih =>
    intro st hnd c
    have hat : a ∉ t := (List.nodup_cons.mp hnd).1
    have ht : t.Nodup := (List.nodup_cons.mp hnd).2
    rw [List.foldl_cons, ih (countVisit st a) ht c, countVisit_counts]
    by_cases hca : c = a
    · subst hca
      simp [hat]
    · simp [hca, List.mem_cons]

theorem countVisit_inv (st : CountState) (c : ℕ)
    (h1 : ∀ j, st.counts j ≤ st.maxCellPopulation)
    (h2 : st.maxCellPopulation = 0 ∨
      ∃ j, st.counts j = st.maxCellPopulation) :
    (∀ j, (countVisit st c).counts j ≤ (countVisit st c).maxCellPopulation) ∧
    ((countVisit st c).maxCellPopulation = 0 ∨
      ∃ j, (countVisit st c).counts j = (countVisit st c).maxCellPopulation) := by
  constructor
  · intro j
    rw [countVisit_counts, countVisit_max]
    have := h1 j
    by_cases hj : j = c <;> simp [hj] <;> split <;> omega
  · rw [countVisit_max]
    by_cases hgt : st.counts c + 1 > st.maxCellPopulation
    · rw [if_pos hgt]
      right
      exact ⟨c, by rw [countVisit_counts, if_pos rfl]⟩
    · rw [if_neg hgt]
      rcases h2 with h0 | ⟨j, hj⟩
      · left; exact h0
      · right
        refine ⟨j, ?_⟩
        have hjc : j ≠ c := by
          intro he
          subst he
          omega
        rw [countVisit_counts, if_neg hjc, hj]

theorem countFold_inv : ∀ (l : List ℕ) (st : CountState),
    (∀ j, st.counts j ≤ st.maxCellPopulation) →
    (st.maxCellPopulation = 0 ∨ ∃ j, st.counts j = st.maxCellPopulation) →
    (∀ j, (l.foldl countVisit st).counts j ≤
      (l.foldl countVisit st).maxCellPopulation) ∧
    ((l.foldl countVisit st).maxCellPopulation = 0 ∨
      ∃ j, (l.foldl countVisit st).counts j =
        (l.foldl countVisit st).maxCellPopulation) := by
  intro l
  induction l with
  | nil => intro st h1 h2; exact ⟨h1, h2⟩
  | cons a t ih =>
    intro st h1 h2
    rw [List.foldl_cons]
    obtain ⟨g1, g2⟩ := countVisit_inv st a h1 h2
    exact ih (countVisit st a) g1 g2

theorem countPass_inv (cells : ℕ → List ℕ) (n : ℕ) :
    (∀ j, (countPass cells n).counts j ≤
      (countPass cells n).maxCellPopulation) ∧
    ((countPass cells n).maxCellPopulation = 0 ∨
      ∃ j, (countPass cells n).counts j =
        (countPass cells n).maxCellPopulation) := by
  unfold countPass
  have hgen : ∀ (L : List ℕ) (st : CountState),
      (∀ j, st.counts j ≤ st.maxCellPopulation) →
      (st.maxCellPopulation = 0 ∨ ∃ j, st.counts j = st.maxCellPopulation) →
      (∀ j, (L.foldl (fun st i => (cells i).foldl countVisit st) st).counts j ≤
        (L.foldl (fun st i => (cells i).foldl countVisit st) st).maxCellPopulation) ∧
      ((L.foldl (fun st i => (cells i).foldl countVisit st) st).maxCellPopulation = 0 ∨
        ∃ j, (L.foldl (fun st i => (cells i).foldl countVisit st) st).counts j =
          (L.foldl (fun st i => (cells i).foldl countVisit st) st).maxCellPopulation) := by
    intro L
    induction L with
    | nil => intro st h1 h2; exact ⟨h1, h2⟩
    | cons a t ih =>
      intro st h1 h2
      rw [List.foldl_cons]
      obtain ⟨g1, g2⟩ := countFold_inv (cells a) st h1 h2
      exact ih _ g1 g2
  exact hgen (List.range n) ⟨fun _ => 0, 0⟩ (fun j => le_refl 0) (Or.inl rfl)

theorem countPass_counts (cells : ℕ → List ℕ)
    (hnd : ∀ i, (cells i).Nodup) :
    ∀ (n : ℕ) (c : ℕ),
      (countPass cells n).counts c = (cellSegs cells n c).length := by
  intro n
  unfold countPass
  induction n with
  | zero => intro c; simp [cellSegs]
  | succ k ih =>
    intro c
    rw [List.range_succ, List.foldl_append, List.foldl_cons, List.foldl_nil]
    rw [countFold_counts (cells k) _ (hnd k) c, ih c, cellSegs_succ_length]

/-- Shorthand for the final per-cell count and the offsets built from it. -/
def scount (cells : ℕ → List ℕ) (n : ℕ) : ℕ → ℕ :=
  fun c => (cellSegs cells n c).length

def soffs (cells : ℕ → List ℕ) (n : ℕ) : ℕ → ℕ := csrOffsets (scount cells n)

theorem csrOffsets_succ (counts : ℕ → ℕ) (c : ℕ) :
    csrOffsets counts (c + 1) = csrOffsets counts c + counts c := rfl

theorem csrOffsets_mono (counts : ℕ → ℕ) {a b : ℕ} (h : a ≤ b) :
    csrOffsets counts a ≤ csrOffsets counts b := by
  induction h with
  | refl => exact le_refl _
  | step h2 ih =>
    rw [csrOffsets_succ]
    omega

theorem csrOffsets_coverage (counts : ℕ → ℕ) :
    ∀ (m p : ℕ), p < csrOffsets counts m →
      ∃ c, c < m ∧ csrOffsets counts c ≤ p ∧ p < csrOffsets counts (c + 1) := by
  intro m
  induction m with
  | zero => intro p hp; simp [csrOffsets] at hp
  | succ k ih =>
    intro p hp
    by_cases h : p < csrOffsets counts k
    · obtain ⟨c, h1, h2, h3⟩ := ih p h
      exact ⟨c, by omega, h2, h3⟩
    · exact ⟨k, by omega, by omega, hp⟩

theorem fillVisit_cursors (i : ℕ) (st : FillState) (c j : ℕ) :
    (fillVisit i st c).cursors j =
      if j = c then st.cursors c + 1 else st.cursors j := rfl

theorem fillVisit_indices (i : ℕ) (st : FillState) (c : ℕ) :
    (fillVisit i st c).indices = st.indices.set (st.cursors c) i := rfl

/-- Effect of writing one segment's cell list: each listed cell's cursor
advances by one, a value i lands at each old cursor position, and every other
position is untouched. -/
theorem fillFold_effect (i : ℕ) : ∀ (l : List ℕ) (st : FillState),
    l.Nodup →
    (∀ c, c ∈ l → st.cursors c < st.indices.length) →
    ((∀ c, (l.foldl (fillVisit i) st).cursors c =
        st.cursors c + (if c ∈ l then 1 else 0)) ∧
     (l.foldl (fillVisit i) st).indices.length = st.indices.length ∧
     (∀ p, (∀ c, c ∈ l → p ≠ st.cursors c) →
        (l.foldl (fillVisit i) st).indices.getD p 0 = st.indices.getD p 0) ∧
     (∀ c, c ∈ l →
        (l.foldl (fillVisit i) st).indices.getD (st.cursors c) 0 = i)) := by
  intro l
  induction l with
  | nil =>
    intro st _ _
    exact ⟨fun c => by simp, rfl, fun p _ => rfl,
      fun c hc => absurd hc (List.not_mem_nil c)⟩
  | cons a t ih =>
    intro st hnd hrange
    have hat : a ∉ t := (List.nodup_cons.mp hnd).1
    have hts : t.Nodup := (List.nodup_cons.mp hnd).2
    rw [List.foldl_cons]
    have hlen1 : (fillVisit i st a).indices.length = st.indices.length := by
      rw [fillVisit_indices]
      exact List.length_set st.indices (st.cursors a) i
    have hrange1 : ∀ c, c ∈ t →
        (fillVisit i st a).cursors c < (fillVisit i st a).indices.length := by
      intro c hc
      have hca : c ≠ a := fun he => hat (he ▸ hc)
      rw [fillVisit_cursors, if_neg hca, hlen1]
      exact hrange c (List.mem_cons_of_mem a hc)
    obtain ⟨ihc, ihl, ihu, ihw⟩ := ih (fillVisit i st a) hts hrange1
    refine ⟨?_, ?_, ?_, ?_⟩
    · intro c
      rw [ihc c, fillVisit_cursors]
      by_cases hca : c = a
      · subst hca
        simp [hat]
      · simp [hca, List.mem_cons]
    · rw [ihl, hlen1]
    · intro p hp
      have hp2 : ∀ c, c ∈ t → p ≠ (fillVisit i st a).cursors c := by
        intro c hc
        have hca : c ≠ a := fun he => hat (he ▸ hc)
        rw [fillVisit_cursors, if_neg hca]
        exact hp c (List.mem_cons_of_mem a hc)
      rw [ihu p hp2, fillVisit_indices]
      exact getD_set_ne st.indices (st.cursors a) p i
        (hp a (List.mem_cons_self a t))
    · intro c hc
      rcases List.mem_cons.mp hc with rfl | hct
      · by_cases hcol : ∃ c2, c2 ∈ t ∧ st.cursors c = (fillVisit i st c).cursors c2
        · obtain ⟨c2, hc2, hq⟩ := hcol
          rw [hq]
          exact ihw c2 hc2
        · push_neg at hcol
          rw [ihu (st.cursors c) (fun c2 hc2 => hcol c2 hc2), fillVisit_indices]
          exact getD_set_self st.indices (st.cursors c) i
            (hrange c (List.mem_cons_self c t))
      · have hca : c ≠ a := fun he => hat (he ▸ hct)
        have hcur : st.cursors c = (fillVisit i st a).cursors c := by
          rw [fillVisit_cursors, if_neg hca]
        rw [hcur]
        exact ihw c hct

theorem fillPass_succ (cells : ℕ → List ℕ) (k : ℕ) (o : ℕ → ℕ) (t : ℕ) :
    fillPass cells (k + 1) o t =
      (cells k).foldl (fillVisit k) (fillPass cells k o t) := by
  unfold fillPass
  rw [List.range_succ, List.foldl_append, List.foldl_cons, List.foldl_nil]

/-- Disjointness of distinct cells' index regions. -/
theorem soffs_region_disjoint (cells : ℕ → List ℕ) (n : ℕ) {c c2 p q : ℕ}
    (hne : c ≠ c2)
    (hp1 : soffs cells n c ≤ p) (hp2 : p < soffs cells n (c + 1))
    (hq1 : soffs cells n c2 ≤ q) (hq2 : q < soffs cells n (c2 + 1)) :
    p ≠ q := by
  rcases Nat.lt_or_ge c c2 with h | h
  · have := csrOffsets_mono (scount cells n) (show c + 1 ≤ c2 by omega)
    unfold soffs at *
    omega
  · have hlt : c2 < c := by omega
    have := csrOffsets_mono (scount cells n) (show c2 + 1 ≤ c by omega)
    unfold soffs at *
    omega

/-- Invariant of the filling pass after k of n segments: each cursor sits at
its cell's offset plus the number of earlier writers, the array length never
changes, and region c holds the first k writers of cell c in input order. -/
theorem fillPass_inv (cells : ℕ → List ℕ) (n m : ℕ)
    (hcell : ∀ i, ∀ c ∈ cells i, c < m) (hnd : ∀ i, (cells i).Nodup) :
    ∀ k, k ≤ n →
      (∀ c, (fillPass cells k (soffs cells n) (soffs cells n m)).cursors c =
          soffs cells n c + (cellSegs cells k c).length) ∧
      ((fillPass cells k (soffs cells n) (soffs cells n m)).indices.length =
        soffs cells n m) ∧
      (∀ c, c < m → ∀ j, j < (cellSegs cells k c).length →
        (fillPass cells k (soffs cells n) (soffs cells n m)).indices.getD
            (soffs cells n c + j) 0 =
          (cellSegs cells k c).getD j 0) := by
  intro k
  induction k with
  | zero =>
    intro _
    refine ⟨?_, ?_, ?_⟩
    · intro c
      simp [fillPass, cellSegs]
    · simp [fillPass]
    · intro c _ j hj
      simp [cellSegs] at hj
  | succ k ih =>
    intro hk1
    obtain ⟨ih1, ih2, ih3⟩ := ih (by omega)
    have hsucc : ∀ c, soffs cells n (c + 1) =
        soffs cells n c + scount cells n c := fun c =>
      csrOffsets_succ (scount cells n) c
    have hlenmono : ∀ c, (cellSegs cells k c).length ≤ scount cells n c := by
      intro c
      show (cellSegs cells k c).length ≤ (cellSegs cells n c).length
      exact cellSegs_length_mono cells c (by omega)
    have hstrict : ∀ c, c ∈ cells k →
        (cellSegs cells k c).length < scount cells n c := by
      intro c hc
      have h1 : (cellSegs cells (k + 1) c).length =
          (cellSegs cells k c).length + 1 := by
        rw [cellSegs_succ_length, if_pos hc]
      have h2 : (cellSegs cells (k + 1) c).length ≤ (cellSegs cells n c).length :=
        cellSegs_length_mono cells c (by omega)
      show (cellSegs cells k c).length < (cellSegs cells n c).length
      omega
    have hcur_in : ∀ c, c ∈ cells k →
        (fillPass cells k (soffs cells n) (soffs cells n m)).cursors c <
          (fillPass cells k (soffs cells n) (soffs cells n m)).indices.length := by
      intro c hc
      rw [ih1 c, ih2]
      have hs := hstrict c hc
      have h3 := hsucc c
      have h4 : soffs cells n (c + 1) ≤ soffs cells n m :=
        csrOffsets_mono (scount cells n) (hcell k c hc)
      omega
    obtain ⟨ec, el, eu, ew⟩ := fillFold_effect k (cells k) _ (hnd k) hcur_in
    rw [fillPass_succ]
    refine ⟨?_, ?_, ?_⟩
    · intro c
      rw [ec c, ih1 c, cellSegs_succ_length]
      by_cases h : c ∈ cells k
      · simp [h]
        omega
      · simp [h]
    · rw [el, ih2]
    · intro c hcm j hj
      by_cases hck : c ∈ cells k
      · rw [cellSegs_succ, if_pos hck] at hj ⊢
        rw [List.length_append, List.length_singleton] at hj
        rcases Nat.lt_or_ge j (cellSegs cells k c).length with hjlt | hjge
        · have hunt : ∀ c2, c2 ∈ cells k →
              soffs cells n c + j ≠
                (fillPass cells k (soffs cells n) (soffs cells n m)).cursors c2 := by
            intro c2 hc2
            rw [ih1 c2]
            by_cases hcc : c2 = c
            · subst hcc
              omega
            · refine soffs_region_disjoint cells n
                (fun he => hcc he.symm) (by omega) ?_ (by omega) ?_
              · have := hlenmono c
                have := hsucc c
                omega
              · have := hstrict c2 hc2
                have := hsucc c2
                omega
          rw [eu _ hunt, getD_append_left _ _ _ hjlt]
          exact ih3 c hcm j hjlt
        · have hje : j = (cellSegs cells k c).length := by omega
          subst hje
          have hw := ew c hck
          rw [ih1 c] at hw
          rw [getD_append_singleton, hw]
      · have hlist : cellSegs cells (k + 1) c = cellSegs cells k c := by
          rw [cellSegs_succ, if_neg hck, List.append_nil]
        rw [hlist] at hj ⊢
        have hunt : ∀ c2, c2 ∈ cells k →
            soffs cells n c + j ≠
              (fillPass cells k (soffs cells n) (soffs cells n m)).cursors c2 := by
          intro c2 hc2
          rw [ih1 c2]
          have hcc : c ≠ c2 := fun he => hck (he ▸ hc2)
          refine soffs_region_disjoint cells n hcc (by omega) ?_ (by omega) ?_
          · have := hlenmono c
            have := hsucc c
            omega
          · have := hstrict c2 hc2
            have := hsucc c2
            omega
        rw [eu _ hunt]
        exact ih3 c hcm j hj

/-- Every position of the filled indices array belongs to some cell's region
and holds a segment index below n. -/
theorem fillPass_indices_lt (cells : ℕ → List ℕ) (n m : ℕ)
    (hcell : ∀ i, ∀ c ∈ cells i, c < m) (hnd : ∀ i, (cells i).Nodup) :
    ∀ x ∈ (fillPass cells n (soffs cells n) (soffs cells n m)).indices, x < n := by
  obtain ⟨h1, h2, h3⟩ := fillPass_inv cells n m hcell hnd n (le_refl n)
  intro x hx
  obtain ⟨p, hp, hpx⟩ := List.mem_iff_getElem.mp hx
  have hplen : p < soffs cells n m := by rw [← h2]; exact hp
  obtain ⟨c, hcm, hc1, hc2⟩ := csrOffsets_coverage (scount cells n) m p hplen
  have hc1s : soffs cells n c ≤ p := hc1
  have hc2s : p < soffs cells n (c + 1) := hc2
  have hc2b : p < soffs cells n c + scount cells n c := by
    have hdef : soffs cells n (c + 1) = soffs cells n c + scount cells n c :=
      csrOffsets_succ (scount cells n) c
    omega
  have hj : p - soffs cells n c < (cellSegs cells n c).length := by
    show p - soffs cells n c < scount cells n c
    omega
  have hval := h3 c hcm (p - soffs cells n c) hj
  have hpe : soffs cells n c + (p - soffs cells n c) = p := by omega
  rw [hpe] at hval
  have hgd : (fillPass cells n (soffs cells n) (soffs cells n m)).indices.getD p 0 = x := by
    rw [List.getD_eq_getElem _ _ hp, hpx]
  rw [hgd] at hval
  have hmem : x ∈ cellSegs cells n c := by
    rw [hval, List.getD_eq_getElem _ _ hj]
    exact List.getElem_mem hj
  exact ((cellSegs_mem cells n c x).mp hmem).1

/-- C6: for every scene, buildSpatialGrid returns a well-formed CSR structure:
offsets[0] = 0, offsets[cellCount] = indices.length, offsets[c+1] = offsets[c]
+ counts[c], every stored index lies below segmentCount, maxCellPopulation is
the maximum of the counts (an upper bound that is attained unless zero), and
both grid side lengths lie in [64, 1024]. -/
theorem buildSpatialGrid_csr (endpoints styles : List Quad) (bounds : Bounds) :
    (buildSpatialGrid endpoints styles bounds).offsets 0 = 0 ∧
    (buildSpatialGrid endpoints styles bounds).offsets
        ((buildSpatialGrid endpoints styles bounds).gridWidth *
          (buildSpatialGrid endpoints styles bounds).gridHeight) =
      (buildSpatialGrid endpoints styles bounds).indices.length ∧
    (∀ c, (buildSpatialGrid endpoints styles bounds).offsets (c + 1) =
      (buildSpatialGrid endpoints styles bounds).offsets c +
        (buildSpatialGrid endpoints styles bounds).counts c) ∧
    (∀ x ∈ (buildSpatialGrid endpoints styles bounds).indices,
      x < endpoints.length) ∧
    (∀ c, (buildSpatialGrid endpoints styles bounds).counts c ≤
      (buildSpatialGrid endpoints styles bounds).maxCellPopulation) ∧
    ((buildSpatialGrid endpoints styles bounds).maxCellPopulation = 0 ∨
      ∃ c, (buildSpatialGrid endpoints styles bounds).counts c =
        (buildSpatialGrid endpoints styles bounds).maxCellPopulation) ∧
    64 ≤ (buildSpatialGrid endpoints styles bounds).gridWidth ∧
    (buildSpatialGrid endpoints styles bounds).gridWidth ≤ 1024 ∧
    64 ≤ (buildSpatialGrid endpoints styles bounds).gridHeight ∧
    (buildSpatialGrid endpoints styles bounds).gridHeight ≤ 1024 := by
  obtain ⟨hb1, hb2, hb3, hb4⟩ := chooseGridSize_bounds endpoints.length
    (max (bounds.maxX - bounds.minX) (1/100000)) (max (bounds.maxY - bounds.minY) (1/100000))
  have hnd : ∀ i, ((segCellList endpoints styles bounds ((max (bounds.maxX - bounds.minX) (1/100000)) / ((chooseGridSize endpoints.length (max (bounds.maxX - bounds.minX) (1/100000)) (max (bounds.maxY - bounds.minY) (1/100000))).1 : ℚ)) ((max (bounds.maxY - bounds.minY) (1/100000)) / ((chooseGridSize endpoints.length (max (bounds.maxX - bounds.minX) (1/100000)) (max (bounds.maxY - bounds.minY) (1/100000))).2 : ℚ)) (chooseGridSize endpoints.length (max (bounds.maxX - bounds.minX) (1/100000)) (max (bounds.maxY - bounds.minY) (1/100000))).1 (chooseGridSize endpoints.length (max (bounds.maxX - bounds.minX) (1/100000)) (max (bounds.maxY - bounds.minY) (1/100000))).2) i).Nodup := by
    intro i
    unfold segCellList
    exact cellRangeList_nodup _ _ _ _ _ (clampToCell_lt _ _ (by omega))
  have hcell : ∀ i, ∀ c ∈ (segCellList endpoints styles bounds ((max (bounds.maxX - bounds.minX) (1/100000)) / ((chooseGridSize endpoints.length (max (bounds.maxX - bounds.minX) (1/100000)) (max (bounds.maxY - bounds.minY) (1/100000))).1 : ℚ)) ((max (bounds.maxY - bounds.minY) (1/100000)) / ((chooseGridSize endpoints.length (max (bounds.maxX - bounds.minX) (1/100000)) (max (bounds.maxY - bounds.minY) (1/100000))).2 : ℚ)) (chooseGridSize endpoints.length (max (bounds.maxX - bounds.minX) (1/100000)) (max (bounds.maxY - bounds.minY) (1/100000))).1 (chooseGridSize endpoints.length (max (bounds.maxX - bounds.minX) (1/100000)) (max (bounds.maxY - bounds.minY) (1/100000))).2) i, c < (chooseGridSize endpoints.length (max (bounds.maxX - bounds.minX) (1/100000)) (max (bounds.maxY - bounds.minY) (1/100000))).1 * (chooseGridSize endpoints.length (max (bounds.maxX - bounds.minX) (1/100000)) (max (bounds.maxY - bounds.minY) (1/100000))).2 := by
    intro i c hc
    unfold segCellList at hc
    exact cellRangeList_lt _ _ _ _ _ _ c (clampToCell_lt _ _ (by omega))
      (clampToCell_lt _ _ (by omega)) hc
  have hcnt : (countPass (segCellList endpoints styles bounds ((max (bounds.maxX - bounds.minX) (1/100000)) / ((chooseGridSize endpoints.length (max (bounds.maxX - bounds.minX) (1/100000)) (max (bounds.maxY - bounds.minY) (1/100000))).1 : ℚ)) ((max (bounds.maxY - bounds.minY) (1/100000)) / ((chooseGridSize endpoints.length (max (bounds.maxX - bounds.minX) (1/100000)) (max (bounds.maxY - bounds.minY) (1/100000))).2 : ℚ)) (chooseGridSize endpoints.length (max (bounds.maxX - bounds.minX) (1/100000)) (max (bounds.maxY - bounds.minY) (1/100000))).1 (chooseGridSize endpoints.length (max (bounds.maxX - bounds.minX) (1/100000)) (max (bounds.maxY - bounds.minY) (1/100000))).2) endpoints.length).counts =
      scount (segCellList endpoints styles bounds ((max (bounds.maxX - bounds.minX) (1/100000)) / ((chooseGridSize endpoints.length (max (bounds.maxX - bounds.minX) (1/100000)) (max (bounds.maxY - bounds.minY) (1/100000))).1 : ℚ)) ((max (bounds.maxY - bounds.minY) (1/100000)) / ((chooseGridSize endpoints.length (max (bounds.maxX - bounds.minX) (1/100000)) (max (bounds.maxY - bounds.minY) (1/100000))).2 : ℚ)) (chooseGridSize endpoints.length (max (bounds.maxX - bounds.minX) (1/100000)) (max (bounds.maxY - bounds.minY) (1/100000))).1 (chooseGridSize endpoints.length (max (bounds.maxX - bounds.minX) (1/100000)) (max (bounds.maxY - bounds.minY) (1/100000))).2) endpoints.length :=
    funext (countPass_counts (segCellList endpoints styles bounds ((max (bounds.maxX - bounds.minX) (1/100000)) / ((chooseGridSize endpoints.length (max (bounds.maxX - bounds.minX) (1/100000)) (max (bounds.maxY - bounds.minY) (1/100000))).1 : ℚ)) ((max (bounds.maxY - bounds.minY) (1/100000)) / ((chooseGridSize endpoints.length (max (bounds.maxX - bounds.minX) (1/100000)) (max (bounds.maxY - bounds.minY) (1/100000))).2 : ℚ)) (chooseGridSize endpoints.length (max (bounds.maxX - bounds.minX) (1/100000)) (max (bounds.maxY - bounds.minY) (1/100000))).1 (chooseGridSize endpoints.length (max (bounds.maxX - bounds.minX) (1/100000)) (max (bounds.maxY - bounds.minY) (1/100000))).2) hnd endpoints.length)
  obtain ⟨i1, i2, i3⟩ := fillPass_inv (segCellList endpoints styles bounds ((max (bounds.maxX - bounds.minX) (1/100000)) / ((chooseGridSize endpoints.length (max (bounds.maxX - bounds.minX) (1/100000)) (max (bounds.maxY - bounds.minY) (1/100000))).1 : ℚ)) ((max (bounds.maxY - bounds.minY) (1/100000)) / ((chooseGridSize endpoints.length (max (bounds.maxX - bounds.minX) (1/100000)) (max (bounds.maxY - bounds.minY) (1/100000))).2 : ℚ)) (chooseGridSize endpoints.length (max (bounds.maxX - bounds.minX) (1/100000)) (max (bounds.maxY - bounds.minY) (1/100000))).1 (chooseGridSize endpoints.length (max (bounds.maxX - bounds.minX) (1/100000)) (max (bounds.maxY - bounds.minY) (1/100000))).2) endpoints.length
    ((chooseGridSize endpoints.length (max (bounds.maxX - bounds.minX) (1/100000)) (max (bounds.maxY - bounds.minY) (1/100000))).1 * (chooseGridSize endpoints.length (max (bounds.maxX - bounds.minX) (1/100000)) (max (bounds.maxY - bounds.minY) (1/100000))).2) hcell hnd endpoints.length (le_refl _)
  have hlt := fillPass_indices_lt (segCellList endpoints styles bounds ((max (bounds.maxX - bounds.minX) (1/100000)) / ((chooseGridSize endpoints.length (max (bounds.maxX - bounds.minX) (1/100000)) (max (bounds.maxY - bounds.minY) (1/100000))).1 : ℚ)) ((max (bounds.maxY - bounds.minY) (1/100000)) / ((chooseGridSize endpoints.length (max (bounds.maxX - bounds.minX) (1/100000)) (max (bounds.maxY - bounds.minY) (1/100000))).2 : ℚ)) (chooseGridSize endpoints.length (max (bounds.maxX - bounds.minX) (1/100000)) (max (bounds.maxY - bounds.minY) (1/100000))).1 (chooseGridSize endpoints.length (max (bounds.maxX - bounds.minX) (1/100000)) (max (bounds.maxY - bounds.minY) (1/100000))).2) endpoints.length
    ((chooseGridSize endpoints.length (max (bounds.maxX - bounds.minX) (1/100000)) (max (bounds.maxY - bounds.minY) (1/100000))).1 * (chooseGridSize endpoints.length (max (bounds.maxX - bounds.minX) (1/100000)) (max (bounds.maxY - bounds.minY) (1/100000))).2) hcell hnd
  obtain ⟨m1, m2⟩ := countPass_inv (segCellList endpoints styles bounds ((max (bounds.maxX - bounds.minX) (1/100000)) / ((chooseGridSize endpoints.length (max (bounds.maxX - bounds.minX) (1/100000)) (max (bounds.maxY - bounds.minY) (1/100000))).1 : ℚ)) ((max (bounds.maxY - bounds.minY) (1/100000)) / ((chooseGridSize endpoints.length (max (bounds.maxX - bounds.minX) (1/100000)) (max (bounds.maxY - bounds.minY) (1/100000))).2 : ℚ)) (chooseGridSize endpoints.length (max (bounds.maxX - bounds.minX) (1/100000)) (max (bounds.maxY - bounds.minY) (1/100000))).1 (chooseGridSize endpoints.length (max (bounds.maxX - bounds.minX) (1/100000)) (max (bounds.maxY - bounds.minY) (1/100000))).2) endpoints.length
  refine ⟨rfl, ?_, fun c => rfl, ?_, m1, m2, hb1, hb2, hb3, hb4⟩
  · show csrOffsets (countPass (segCellList endpoints styles bounds ((max (bounds.maxX - bounds.minX) (1/100000)) / ((chooseGridSize endpoints.length (max (bounds.maxX - bounds.minX) (1/100000)) (max (bounds.maxY - bounds.minY) (1/100000))).1 : ℚ)) ((max (bounds.maxY - bounds.minY) (1/100000)) / ((chooseGridSize endpoints.length (max (bounds.maxX - bounds.minX) (1/100000)) (max (bounds.maxY - bounds.minY) (1/100000))).2 : ℚ)) (chooseGridSize endpoints.length (max (bounds.maxX - bounds.minX) (1/100000)) (max (bounds.maxY - bounds.minY) (1/100000))).1 (chooseGridSize endpoints.length (max (bounds.maxX - bounds.minX) (1/100000)) (max (bounds.maxY - bounds.minY) (1/100000))).2) endpoints.length).counts
        ((chooseGridSize endpoints.length (max (bounds.maxX - bounds.minX) (1/100000)) (max (bounds.maxY - bounds.minY) (1/100000))).1 * (chooseGridSize endpoints.length (max (bounds.maxX - bounds.minX) (1/100000)) (max (bounds.maxY - bounds.minY) (1/100000))).2) =
      (fillPass (segCellList endpoints styles bounds ((max (bounds.maxX - bounds.minX) (1/100000)) / ((chooseGridSize endpoints.length (max (bounds.maxX - bounds.minX) (1/100000)) (max (bounds.maxY - bounds.minY) (1/100000))).1 : ℚ)) ((max (bounds.maxY - bounds.minY) (1/100000)) / ((chooseGridSize endpoints.length (max (bounds.maxX - bounds.minX) (1/100000)) (max (bounds.maxY - bounds.minY) (1/100000))).2 : ℚ)) (chooseGridSize endpoints.length (max (bounds.maxX - bounds.minX) (1/100000)) (max (bounds.maxY - bounds.minY) (1/100000))).1 (chooseGridSize endpoints.length (max (bounds.maxX - bounds.minX) (1/100000)) (max (bounds.maxY - bounds.minY) (1/100000))).2) endpoints.length
        (csrOffsets (countPass (segCellList endpoints styles bounds ((max (bounds.maxX - bounds.minX) (1/100000)) / ((chooseGridSize endpoints.length (max (bounds.maxX - bounds.minX) (1/100000)) (max (bounds.maxY - bounds.minY) (1/100000))).1 : ℚ)) ((max (bounds.maxY - bounds.minY) (1/100000)) / ((chooseGridSize endpoints.length (max (bounds.maxX - bounds.minX) (1/100000)) (max (bounds.maxY - bounds.minY) (1/100000))).2 : ℚ)) (chooseGridSize endpoints.length (max (bounds.maxX - bounds.minX) (1/100000)) (max (bounds.maxY - bounds.minY) (1/100000))).1 (chooseGridSize endpoints.length (max (bounds.maxX - bounds.minX) (1/100000)) (max (bounds.maxY - bounds.minY) (1/100000))).2) endpoints.length).counts)
        (csrOffsets (countPass (segCellList endpoints styles bounds ((max (bounds.maxX - bounds.minX) (1/100000)) / ((chooseGridSize endpoints.length (max (bounds.maxX - bounds.minX) (1/100000)) (max (bounds.maxY - bounds.minY) (1/100000))).1 : ℚ)) ((max (bounds.maxY - bounds.minY) (1/100000)) / ((chooseGridSize endpoints.length (max (bounds.maxX - bounds.minX) (1/100000)) (max (bounds.maxY - bounds.minY) (1/100000))).2 : ℚ)) (chooseGridSize endpoints.length (max (bounds.maxX - bounds.minX) (1/100000)) (max (bounds.maxY - bounds.minY) (1/100000))).1 (chooseGridSize endpoints.length (max (bounds.maxX - bounds.minX) (1/100000)) (max (bounds.maxY - bounds.minY) (1/100000))).2) endpoints.length).counts
          ((chooseGridSize endpoints.length (max (bounds.maxX - bounds.minX) (1/100000)) (max (bounds.maxY - bounds.minY) (1/100000))).1 * (chooseGridSize endpoints.length (max (bounds.maxX - bounds.minX) (1/100000)) (max (bounds.maxY - bounds.minY) (1/100000))).2))).indices.length
    rw [hcnt]
    exact i2.symm
  · show ∀ x ∈ (fillPass (segCellList endpoints styles bounds ((max (bounds.maxX - bounds.minX) (1/100000)) / ((chooseGridSize endpoints.length (max (bounds.maxX - bounds.minX) (1/100000)) (max (bounds.maxY - bounds.minY) (1/100000))).1 : ℚ)) ((max (bounds.maxY - bounds.minY) (1/100000)) / ((chooseGridSize endpoints.length (max (bounds.maxX - bounds.minX) (1/100000)) (max (bounds.maxY - bounds.minY) (1/100000))).2 : ℚ)) (chooseGridSize endpoints.length (max (bounds.maxX - bounds.minX) (1/100000)) (max (bounds.maxY - bounds.minY) (1/100000))).1 (chooseGridSize endpoints.length (max (bounds.maxX - bounds.minX) (1/100000)) (max (bounds.maxY - bounds.minY) (1/100000))).2) endpoints.length
        (csrOffsets (countPass (segCellList endpoints styles bounds ((max (bounds.maxX - bounds.minX) (1/100000)) / ((chooseGridSize endpoints.length (max (bounds.maxX - bounds.minX) (1/100000)) (max (bounds.maxY - bounds.minY) (1/100000))).1 : ℚ)) ((max (bounds.maxY - bounds.minY) (1/100000)) / ((chooseGridSize endpoints.length (max (bounds.maxX - bounds.minX) (1/100000)) (max (bounds.maxY - bounds.minY) (1/100000))).2 : ℚ)) (chooseGridSize endpoints.length (max (bounds.maxX - bounds.minX) (1/100000)) (max (bounds.maxY - bounds.minY) (1/100000))).1 (chooseGridSize endpoints.length (max (bounds.maxX - bounds.minX) (1/100000)) (max (bounds.maxY - bounds.minY) (1/100000))).2) endpoints.length).counts)
        (csrOffsets (countPass (segCellList endpoints styles bounds ((max (bounds.maxX - bounds.minX) (1/100000)) / ((chooseGridSize endpoints.length (max (bounds.maxX - bounds.minX) (1/100000)) (max (bounds.maxY - bounds.minY) (1/100000))).1 : ℚ)) ((max (bounds.maxY - bounds.minY) (1/100000)) / ((chooseGridSize endpoints.length (max (bounds.maxX - bounds.minX) (1/100000)) (max (bounds.maxY - bounds.minY) (1/100000))).2 : ℚ)) (chooseGridSize endpoints.length (max (bounds.maxX - bounds.minX) (1/100000)) (max (bounds.maxY - bounds.minY) (1/100000))).1 (chooseGridSize endpoints.length (max (bounds.maxX - bounds.minX) (1/100000)) (max (bounds.maxY - bounds.minY) (1/100000))).2) endpoints.length).counts
          ((chooseGridSize endpoints.length (max (bounds.maxX - bounds.minX) (1/100000)) (max (bounds.maxY - bounds.minY) (1/100000))).1 * (chooseGridSize endpoints.length (max (bounds.maxX - bounds.minX) (1/100000)) (max (bounds.maxY - bounds.minY) (1/100000))).2))).indices, x < endpoints.length
    rw [hcnt]
    exact hlt

/-! ### The per-frame visible-set builder (spatialGrid.ts part 3 /
gpuFloorplanRenderer.ts): updateVisibleSet -/

def FULL_VIEW_FALLBACK_THRESHOLD : ℚ := 0.92

/-- Mirror of clampToGrid in spatialGrid.ts (same body as clampToCell). -/
def clampToGrid (value : ℤ) (gridSize : ℕ) : ℕ :=
  if value < 0 then 0
  else if (gridSize : ℤ) ≤ value then gridSize - 1
  else value.toNat

theorem clampToGrid_eq_clampToCell : clampToGrid = clampToCell := rfl

/-- The margin-expanded view rectangle (minX, maxX, minY, maxY) of
updateVisibleSet: half the viewport in world units each way around the
camera centre, expanded by max(16 / zoom, maxHalfWidth * 2). -/
def viewRect (viewCenterX viewCenterY viewportWidthPx viewportHeightPx
    zoom maxHalfWidth : ℚ) : ℚ × ℚ × ℚ × ℚ :=
  let halfViewWidth := viewportWidthPx / (2 * zoom)
  let halfViewHeight := viewportHeightPx / (2 * zoom)
  let margin := max (16 / zoom) (maxHalfWidth * 2)
  (viewCenterX - halfViewWidth - margin, viewCenterX + halfViewWidth + margin,
   viewCenterY - halfViewHeight - margin, viewCenterY + halfViewHeight + margin)

/-- The clamped cell range (c0, c1, r0, r1) covering a view rectangle. -/
def viewCellRange (grid : SpatialGrid) (vr : ℚ × ℚ × ℚ × ℚ) : ℕ × ℕ × ℕ × ℕ :=
  (clampToGrid ⌊(vr.1 - grid.minX) / grid.cellWidth⌋ grid.gridWidth,
   clampToGrid ⌊(vr.2.1 - grid.minX) / grid.cellWidth⌋ grid.gridWidth,
   clampToGrid ⌊(vr.2.2.1 - grid.minY) / grid.cellHeight⌋ grid.gridHeight,
   clampToGrid ⌊(vr.2.2.2 - grid.minY) / grid.cellHeight⌋ grid.gridHeight)

/-- Mirror of buildSegmentBounds: the per-stroke margin-expanded endpoint box
(minX, minY, maxX, maxY) stored in the segmentMin/Max arrays. -/
def buildSegmentBounds (endpoints styles : List Quad) (i : ℕ) :
    ℚ × ℚ × ℚ × ℚ :=
  (min (quadAt endpoints i).1 (quadAt endpoints i).2.2.1 -
     ((quadAt styles i).1 + 0.35),
   min (quadAt endpoints i).2.1 (quadAt endpoints i).2.2.2 -
     ((quadAt styles i).1 + 0.35),
   max (quadAt endpoints i).1 (quadAt endpoints i).2.2.1 +
     ((quadAt styles i).1 + 0.35),
   max (quadAt endpoints i).2.1 (quadAt endpoints i).2.2.2 +
     ((quadAt styles i).1 + 0.35))

/-- The reject test of the scan inner loop, negated: the stroke's
margin-expanded bounds meet the margin-expanded view rectangle. -/
def segIntersectsView (endpoints styles : List Quad)
    (vMinX vMaxX vMinY vMaxY : ℚ) (i : ℕ) : Prop :=
  ¬ ((buildSegmentBounds endpoints styles i).2.2.1 < vMinX ∨
     (buildSegmentBounds endpoints styles i).1 > vMaxX ∨
     (buildSegmentBounds endpoints styles i).2.2.2 < vMinY ∨
     (buildSegmentBounds endpoints styles i).2.1 > vMaxY)

instance (endpoints styles : List Quad) (a b c d : ℚ) (i : ℕ) :
    Decidable (segIntersectsView endpoints styles a b c d i) := by
  unfold segIntersectsView
  infer_instance

/-- State of the scan: the epoch marks and the collected ids. -/
structure VisScanState where
  segmentMarks : ℕ → ℕ
  out : List ℕ

/-- One inner-loop iteration: skip if already marked this epoch, else mark,
and append unless the per-segment bounds test rejects. -/
def visitSegment (endpoints styles : List Quad) (token : ℕ)
    (vMinX vMaxX vMinY vMaxY : ℚ) (st : VisScanState) (segmentIndex : ℕ) :
    VisScanState :=
  if st.segmentMarks segmentIndex = token then st
  else if (buildSegmentBounds endpoints styles segmentIndex).2.2.1 < vMinX ∨
      (buildSegmentBounds endpoints styles segmentIndex).1 > vMaxX ∨
      (buildSegmentBounds endpoints styles segmentIndex).2.2.2 < vMinY ∨
      (buildSegmentBounds endpoints styles segmentIndex).2.1 > vMaxY then
    ⟨fun j => if j = segmentIndex then token else st.segmentMarks j, st.out⟩
  else
    ⟨fun j => if j = segmentIndex then token else st.segmentMarks j,
     st.out ++ [segmentIndex]⟩

/-- One cell of the scan: walk the cell's CSR slice. -/
def scanCell (grid : SpatialGrid) (endpoints styles : List Quad) (token : ℕ)
    (vMinX vMaxX vMinY vMaxY : ℚ) (st : VisScanState) (cellIndex : ℕ) :
    VisScanState :=
  (List.range (grid.counts cellIndex)).foldl (fun s t =>
    visitSegment endpoints styles token vMinX vMaxX vMinY vMaxY s
      (grid.indices.getD (grid.offsets cellIndex + t) 0)) st

/-- Result record of updateVisibleSet. -/
structure VisibleSetResult where
  usingAllSegments : Bool
  visibleIds : List ℕ
  visibleSegmentCount : ℕ
  segmentMarks : ℕ → ℕ
  markToken : ℕ

/-- Mirror of the advanced GpuFloorplanRenderer.updateVisibleSet: view rect
with margin, clamped cell range, the 0.92 full-view fast path gated on no
interaction, the epoch-mark increment with its 0xffffffff reset, and the
per-cell scan with the per-segment bounds reject. -/
def updateVisibleSet (grid : SpatialGrid) (endpoints styles : List Quad)
    (sceneMaxHalfWidth : ℚ) (segmentCount : ℕ) (segmentMarks : ℕ → ℕ)
    (markToken : ℕ) (interactionActive : Bool)
    (viewCenterX viewCenterY viewportWidthPx viewportHeightPx zoom : ℚ) :
    VisibleSetResult :=
  let vr := viewRect viewCenterX viewCenterY viewportWidthPx viewportHeightPx
    zoom sceneMaxHalfWidth
  let cr := viewCellRange grid vr
  let visibleCellCount : ℤ := ((cr.2.1 : ℤ) - cr.1 + 1) * ((cr.2.2.2 : ℤ) - cr.2.2.1 + 1)
  let totalCellCount := grid.gridWidth * grid.gridHeight
  if interactionActive = false ∧
      (totalCellCount : ℚ) * FULL_VIEW_FALLBACK_THRESHOLD ≤ (visibleCellCount : ℚ) then
    ⟨true, [], segmentCount, segmentMarks, markToken⟩
  else
    let token1 := markToken + 1
    let marks1 := if token1 = 4294967295 then (fun _ => (0 : ℕ)) else segmentMarks
    let token2 := if token1 = 4294967295 then 1 else token1
    let scan := (cellRangeList grid.gridWidth cr.1 cr.2.1 cr.2.2.1 cr.2.2.2).foldl
      (scanCell grid endpoints styles token2 vr.1 vr.2.1 vr.2.2.1 vr.2.2.2)
      ⟨marks1, []⟩
    ⟨false, scan.out, scan.out.length, scan.segmentMarks, token2⟩

/-- C8: the "all segments" fast path of the per-frame visible-set builder is
taken exactly when no interaction is active and the clamped cell range
covering the view rect satisfies (c1 - c0 + 1) * (r1 - r0 + 1) >=
0.92 * gridWidth * gridHeight; below the threshold or during interaction the
per-cell scan runs. -/
theorem updateVisibleSet_fast_path_iff (grid : SpatialGrid)
    (endpoints styles : List Quad) (sceneMaxHalfWidth : ℚ) (segmentCount : ℕ)
    (segmentMarks : ℕ → ℕ) (markToken : ℕ) (interactionActive : Bool)
    (viewCenterX viewCenterY viewportWidthPx viewportHeightPx zoom : ℚ) :
    (updateVisibleSet grid endpoints styles sceneMaxHalfWidth segmentCount
        segmentMarks markToken interactionActive viewCenterX viewCenterY
        viewportWidthPx viewportHeightPx zoom).usingAllSegments = true ↔
      (interactionActive = false ∧
       ((grid.gridWidth * grid.gridHeight : ℕ) : ℚ) * FULL_VIEW_FALLBACK_THRESHOLD ≤
         (((((viewCellRange grid (viewRect viewCenterX viewCenterY viewportWidthPx viewportHeightPx zoom sceneMaxHalfWidth)).2.1 : ℤ) - ((viewCellRange grid (viewRect viewCenterX viewCenterY viewportWidthPx viewportHeightPx zoom sceneMaxHalfWidth)).1 : ℤ) + 1) *
           (((viewCellRange grid (viewRect viewCenterX viewCenterY viewportWidthPx viewportHeightPx zoom sceneMaxHalfWidth)).2.2.2 : ℤ) - ((viewCellRange grid (viewRect viewCenterX viewCenterY viewportWidthPx viewportHeightPx zoom sceneMaxHalfWidth)).2.2.1 : ℤ) + 1) : ℤ) : ℚ)) := by
  unfold updateVisibleSet
  simp only
  split
  · rename_i hc
    exact iff_of_true rfl hc
  · rename_i hc
    exact iff_of_false (by simp) hc

/-! ### C2: soundness and dedup of the visible-set scan -/

/-- Invariant of the scan: marks are either this epoch's token or the initial
marks, collected ids are marked and duplicate free, and every marked
intersecting stroke has been collected. -/
def VisInv (endpoints styles : List Quad) (tk : ℕ) (a b c d : ℚ)
    (m0 : ℕ → ℕ) (st : VisScanState) : Prop :=
  (∀ j, st.segmentMarks j = tk ∨ st.segmentMarks j = m0 j) ∧
  (∀ j, j ∈ st.out → st.segmentMarks j = tk) ∧
  st.out.Nodup ∧
  (∀ j, segIntersectsView endpoints styles a b c d j →
    st.segmentMarks j = tk → j ∈ st.out)

theorem visitSegment_inv (endpoints styles : List Quad) (tk : ℕ) (a b c d : ℚ)
    (m0 : ℕ → ℕ) (st : VisScanState) (j0 : ℕ)
    (h : VisInv endpoints styles tk a b c d m0 st) :
    VisInv endpoints styles tk a b c d m0
      (visitSegment endpoints styles tk a b c d st j0) := by
  obtain ⟨hA, hB, hC, hD⟩ := h
  unfold visitSegment
  by_cases hmk : st.segmentMarks j0 = tk
  · rw [if_pos hmk]
    exact ⟨hA, hB, hC, hD⟩
  · rw [if_neg hmk]
    split
    · rename_i hrej
      refine ⟨?_, ?_, hC, ?_⟩
      · intro j
        show (if j = j0 then tk else st.segmentMarks j) = tk ∨
          (if j = j0 then tk else st.segmentMarks j) = m0 j
        by_cases hj : j = j0
        · rw [if_pos hj]; left; rfl
        · rw [if_neg hj]; exact hA j
      · intro j hjo
        show (if j = j0 then tk else st.segmentMarks j) = tk
        by_cases hj : j = j0
        · rw [if_pos hj]
        · rw [if_neg hj]; exact hB j hjo
      · intro j hacc hmkj
        by_cases hj : j = j0
        · subst hj
          exact absurd hrej hacc
        · show j ∈ st.out
          refine hD j hacc ?_
          have : (if j = j0 then tk else st.segmentMarks j) = tk := hmkj
          rwa [if_neg hj] at this
    · rename_i hrej
      have hj0nin : j0 ∉ st.out := fun hin => hmk (hB j0 hin)
      refine ⟨?_, ?_, ?_, ?_⟩
      · intro j
        show (if j = j0 then tk else st.segmentMarks j) = tk ∨
          (if j = j0 then tk else st.segmentMarks j) = m0 j
        by_cases hj : j = j0
        · rw [if_pos hj]; left; rfl
        · rw [if_neg hj]; exact hA j
      · intro j hjo
        show (if j = j0 then tk else st.segmentMarks j) = tk
        rcases List.mem_append.mp hjo with hjl | hjr
        · have hj : j ≠ j0 := fun he => hj0nin (he ▸ hjl)
          rw [if_neg hj]
          exact hB j hjl
        · have hj : j = j0 := by simpa using hjr
          rw [if_pos hj]
      · show (st.out ++ [j0]).Nodup
        rw [List.nodup_append]
        refine ⟨hC, List.nodup_singleton j0, ?_⟩
        intro x hx hx2
        simp only [List.mem_singleton] at hx2
        subst hx2
        exact hj0nin hx
      · intro j hacc hmkj
        by_cases hj : j = j0
        · subst hj
          exact List.mem_append_right _ (by simp)
        · have : (if j = j0 then tk else st.segmentMarks j) = tk := hmkj
          rw [if_neg hj] at this
          exact List.mem_append_left _ (hD j hacc this)

theorem visitSegment_marks_persist (endpoints styles : List Quad) (tk : ℕ)
    (a b c d : ℚ) (st : VisScanState) (j0 j : ℕ)
    (h : st.segmentMarks j = tk) :
    (visitSegment endpoints styles tk a b c d st j0).segmentMarks j = tk := by
  unfold visitSegment
  by_cases hmk : st.segmentMarks j0 = tk
  · rw [if_pos hmk]; exact h
  · rw [if_neg hmk]
    split
    · show (if j = j0 then tk else st.segmentMarks j) = tk
      by_cases hj : j = j0
      · rw [if_pos hj]
      · rw [if_neg hj]; exact h
    · show (if j = j0 then tk else st.segmentMarks j) = tk
      by_cases hj : j = j0
      · rw [if_pos hj]
      · rw [if_neg hj]; exact h

theorem visitSegment_marks_self (endpoints styles : List Quad) (tk : ℕ)
    (a b c d : ℚ) (st : VisScanState) (j0 : ℕ) :
    (visitSegment endpoints styles tk a b c d st j0).segmentMarks j0 = tk := by
  unfold visitSegment
  by_cases hmk : st.segmentMarks j0 = tk
  · rw [if_pos hmk]; exact hmk
  · rw [if_neg hmk]
    split
    · show (if j0 = j0 then tk else st.segmentMarks j0) = tk
      rw [if_pos rfl]
    · show (if j0 = j0 then tk else st.segmentMarks j0) = tk
      rw [if_pos rfl]

theorem visitFold_inv (endpoints styles : List Quad) (tk : ℕ) (a b c d : ℚ)
    (m0 : ℕ → ℕ) (f : ℕ → ℕ) :
    ∀ (l : List ℕ) (st : VisScanState),
      VisInv endpoints styles tk a b c d m0 st →
      VisInv endpoints styles tk a b c d m0
        (l.foldl (fun s t =>
          visitSegment endpoints styles tk a b c d s (f t)) st) := by
  intro l
  induction l with
  | nil => intro st h; exact h
  | cons x rest ih =>
    intro st h
    rw [List.foldl_cons]
    exact ih _ (visitSegment_inv endpoints styles tk a b c d m0 st (f x) h)

theorem visitFold_marks_persist (endpoints styles : List Quad) (tk : ℕ)
    (a b c d : ℚ) (f : ℕ → ℕ) :
    ∀ (l : List ℕ) (st : VisScanState) (j : ℕ),
      st.segmentMarks j = tk →
      ((l.foldl (fun s t =>
        visitSegment endpoints styles tk a b c d s (f t)) st).segmentMarks j = tk) := by
  intro l
  induction l with
  | nil => intro st j h; exact h
  | cons x rest ih =>
    intro st j h
    rw [List.foldl_cons]
    exact ih _ j (visitSegment_marks_persist endpoints styles tk a b c d st (f x) j h)

theorem visitFold_marks_all (endpoints styles : List Quad) (tk : ℕ)
    (a b c d : ℚ) (f : ℕ → ℕ) :
    ∀ (l : List ℕ) (st : VisScanState) (t : ℕ), t ∈ l →
      ((l.foldl (fun s t =>
        visitSegment endpoints styles tk a b c d s (f t)) st).segmentMarks (f t) = tk) := by
  intro l
  induction l with
  | nil => intro st t ht; exact absurd ht (List.not_mem_nil t)
  | cons x rest ih =>
    intro st t ht
    rw [List.foldl_cons]
    rcases List.mem_cons.mp ht with rfl | htr
    · exact visitFold_marks_persist endpoints styles tk a b c d f rest _ (f t)
        (visitSegment_marks_self endpoints styles tk a b c d st (f t))
    · exact ih _ t htr

theorem scanCell_inv (grid : SpatialGrid) (endpoints styles : List Quad)
    (tk : ℕ) (a b c d : ℚ) (m0 : ℕ → ℕ) (st : VisScanState) (cellIndex : ℕ)
    (h : VisInv endpoints styles tk a b c d m0 st) :
    VisInv endpoints styles tk a b c d m0
      (scanCell grid endpoints styles tk a b c d st cellIndex) := by
  unfold scanCell
  exact visitFold_inv endpoints styles tk a b c d m0
    (fun t => grid.indices.getD (grid.offsets cellIndex + t) 0)
    (List.range (grid.counts cellIndex)) st h

theorem scanCell_marks_persist (grid : SpatialGrid)
    (endpoints styles : List Quad) (tk : ℕ) (a b c d : ℚ)
    (st : VisScanState) (cellIndex j : ℕ) (h : st.segmentMarks j = tk) :
    (scanCell grid endpoints styles tk a b c d st cellIndex).segmentMarks j = tk := by
  unfold scanCell
  exact visitFold_marks_persist endpoints styles tk a b c d _ _ st j h

theorem scanCell_marks (grid : SpatialGrid) (endpoints styles : List Quad)
    (tk : ℕ) (a b c d : ℚ) (st : VisScanState) (cellIndex i : ℕ)
    (h : ∃ t, t < grid.counts cellIndex ∧
      grid.indices.getD (grid.offsets cellIndex + t) 0 = i) :
    (scanCell grid endpoints styles tk a b c d st cellIndex).segmentMarks i = tk := by
  obtain ⟨t, ht, hread⟩ := h
  unfold scanCell
  have hm := visitFold_marks_all endpoints styles tk a b c d
    (fun t => grid.indices.getD (grid.offsets cellIndex + t) 0)
    (List.range (grid.counts cellIndex)) st t (List.mem_range.mpr ht)
  dsimp only at hm
  rw [hread] at hm
  exact hm

theorem scanFold_inv (grid : SpatialGrid) (endpoints styles : List Quad)
    (tk : ℕ) (a b c d : ℚ) (m0 : ℕ → ℕ) :
    ∀ (L : List ℕ) (st : VisScanState),
      VisInv endpoints styles tk a b c d m0 st →
      VisInv endpoints styles tk a b c d m0
        (L.foldl (scanCell grid endpoints styles tk a b c d) st) := by
  intro L
  induction L with
  | nil => intro st h; exact h
  | cons x rest ih =>
    intro st h
    rw [List.foldl_cons]
    exact ih _ (scanCell_inv grid endpoints styles tk a b c d m0 st x h)

theorem scanFold_marks_persist (grid : SpatialGrid)
    (endpoints styles : List Quad) (tk : ℕ) (a b c d : ℚ) :
    ∀ (L : List ℕ) (st : VisScanState) (j : ℕ), st.segmentMarks j = tk →
      (L.foldl (scanCell grid endpoints styles tk a b c d) st).segmentMarks j = tk := by
  intro L
  induction L with
  | nil => intro st j h; exact h
  | cons x rest ih =>
    intro st j h
    rw [List.foldl_cons]
    exact ih _ j (scanCell_marks_persist grid endpoints styles tk a b c d st x j h)

theorem scanFold_marks (grid : SpatialGrid) (endpoints styles : List Quad)
    (tk : ℕ) (a b c d : ℚ) :
    ∀ (L : List ℕ) (st : VisScanState) (cell i : ℕ), cell ∈ L →
      (∃ t, t < grid.counts cell ∧
        grid.indices.getD (grid.offsets cell + t) 0 = i) →
      (L.foldl (scanCell grid endpoints styles tk a b c d) st).segmentMarks i = tk := by
  intro L
  induction L with
  | nil => intro st cell i hc; exact absurd hc (List.not_mem_nil cell)
  | cons x rest ih =>
    intro st cell i hc hslice
    rw [List.foldl_cons]
    rcases List.mem_cons.mp hc with rfl | hcr
    · exact scanFold_marks_persist grid endpoints styles tk a b c d rest _ i
        (scanCell_marks grid endpoints styles tk a b c d st cell i hslice)
    · exact ih _ cell i hcr hslice

theorem viewRect_ordered (cx cy vw vh zoom mhw : ℚ) (hz : 0 < zoom)
    (hvw : 0 ≤ vw) (hvh : 0 ≤ vh) :
    (viewRect cx cy vw vh zoom mhw).1 ≤ (viewRect cx cy vw vh zoom mhw).2.1 ∧
    (viewRect cx cy vw vh zoom mhw).2.2.1 ≤ (viewRect cx cy vw vh zoom mhw).2.2.2 := by
  unfold viewRect
  dsimp only
  have h1 : 0 ≤ vw / (2 * zoom) := div_nonneg hvw (by linarith)
  have h2 : 0 ≤ vh / (2 * zoom) := div_nonneg hvh (by linarith)
  have h3 : 0 ≤ 16 / zoom := le_of_lt (div_pos (by norm_num) hz)
  have h4 : 16 / zoom ≤ max (16 / zoom) (mhw * 2) := le_max_left _ _
  constructor <;> linarith

theorem buildSpatialGrid_cell_pos (endpoints styles : List Quad)
    (bounds : Bounds) :
    0 < (buildSpatialGrid endpoints styles bounds).cellWidth ∧
    0 < (buildSpatialGrid endpoints styles bounds).cellHeight := by
  obtain ⟨hb1, hb2, hb3, hb4⟩ := chooseGridSize_bounds endpoints.length
    (max (bounds.maxX - bounds.minX) (1/100000))
    (max (bounds.maxY - bounds.minY) (1/100000))
  constructor <;> refine div_pos ?_ ?_
  · exact lt_of_lt_of_le (by norm_num) (le_max_right _ _)
  · exact_mod_cast Nat.pos_of_ne_zero (by omega)
  · exact lt_of_lt_of_le (by norm_num) (le_max_right _ _)
  · exact_mod_cast Nat.pos_of_ne_zero (by omega)

/-- If a stroke's margin-expanded box meets the view rectangle, some grid
cell lies in both the stroke's clamped cell range and the view's clamped cell
range. -/
theorem segCellList_meets_view (endpoints styles : List Quad) (bounds : Bounds)
    (cw ch : ℚ) (gw gh : ℕ) (i : ℕ) (vMinX vMaxX vMinY vMaxY : ℚ)
    (hcw : 0 < cw) (hch : 0 < ch)
    (hhw : 0 ≤ (quadAt styles i).1)
    (hvx : vMinX ≤ vMaxX) (hvy : vMinY ≤ vMaxY)
    (hacc : segIntersectsView endpoints styles vMinX vMaxX vMinY vMaxY i) :
    ∃ cell, cell ∈ segCellList endpoints styles bounds cw ch gw gh i ∧
      cell ∈ cellRangeList gw
        (clampToCell ⌊(vMinX - bounds.minX) / cw⌋ gw)
        (clampToCell ⌊(vMaxX - bounds.minX) / cw⌋ gw)
        (clampToCell ⌊(vMinY - bounds.minY) / ch⌋ gh)
        (clampToCell ⌊(vMaxY - bounds.minY) / ch⌋ gh) := by
  have hseg : segCellList endpoints styles bounds cw ch gw gh i =
      cellRangeList gw
        (clampToCell ⌊((buildSegmentBounds endpoints styles i).1 - bounds.minX) / cw⌋ gw)
        (clampToCell ⌊((buildSegmentBounds endpoints styles i).2.2.1 - bounds.minX) / cw⌋ gw)
        (clampToCell ⌊((buildSegmentBounds endpoints styles i).2.1 - bounds.minY) / ch⌋ gh)
        (clampToCell ⌊((buildSegmentBounds endpoints styles i).2.2.2 - bounds.minY) / ch⌋ gh) := rfl
  have monox : ∀ u v : ℚ, u ≤ v →
      clampToCell ⌊(u - bounds.minX) / cw⌋ gw ≤ clampToCell ⌊(v - bounds.minX) / cw⌋ gw := by
    intro u v huv
    refine clampToCell_mono _ _ _ (Int.floor_le_floor ?_)
    exact div_le_div_of_nonneg_right (by linarith) hcw.le
  have monoy : ∀ u v : ℚ, u ≤ v →
      clampToCell ⌊(u - bounds.minY) / ch⌋ gh ≤ clampToCell ⌊(v - bounds.minY) / ch⌋ gh := by
    intro u v huv
    refine clampToCell_mono _ _ _ (Int.floor_le_floor ?_)
    exact div_le_div_of_nonneg_right (by linarith) hch.le
  unfold segIntersectsView at hacc
  push_neg at hacc
  obtain ⟨h1, h2, h3, h4⟩ := hacc
  have hbx : (buildSegmentBounds endpoints styles i).1 ≤
      (buildSegmentBounds endpoints styles i).2.2.1 := by
    unfold buildSegmentBounds
    dsimp only
    have hmm := min_le_max (a := (quadAt endpoints i).1) (b := (quadAt endpoints i).2.2.1)
    linarith
  have hby : (buildSegmentBounds endpoints styles i).2.1 ≤
      (buildSegmentBounds endpoints styles i).2.2.2 := by
    unfold buildSegmentBounds
    dsimp only
    have hmm := min_le_max (a := (quadAt endpoints i).2.1) (b := (quadAt endpoints i).2.2.2)
    linarith
  refine ⟨(max (clampToCell ⌊(vMinY - bounds.minY) / ch⌋ gh)
      (clampToCell ⌊((buildSegmentBounds endpoints styles i).2.1 - bounds.minY) / ch⌋ gh)) * gw +
    (max (clampToCell ⌊(vMinX - bounds.minX) / cw⌋ gw)
      (clampToCell ⌊((buildSegmentBounds endpoints styles i).1 - bounds.minX) / cw⌋ gw)), ?_, ?_⟩
  · rw [hseg]
    refine mem_cellRangeList.mpr ⟨_, _, le_max_right _ _, ?_, le_max_right _ _, ?_, rfl⟩
    · exact max_le (monoy _ _ h3) (monoy _ _ hby)
    · exact max_le (monox _ _ h1) (monox _ _ hbx)
  · refine mem_cellRangeList.mpr ⟨_, _, le_max_left _ _, ?_, le_max_left _ _, ?_, rfl⟩
    · exact max_le (monoy _ _ hvy) (monoy _ _ h4)
    · exact max_le (monox _ _ hvx) (monox _ _ h2)

/-- Membership bridging: a stroke i whose cell list contains cell appears in
cell's CSR slice of the built grid. -/
theorem buildSpatialGrid_slice (endpoints styles : List Quad) (bounds : Bounds)
    (cell i : ℕ)
    (hcm : cell < (buildSpatialGrid endpoints styles bounds).gridWidth * (buildSpatialGrid endpoints styles bounds).gridHeight)
    (hin : i < endpoints.length)
    (hmem : cell ∈ segCellList endpoints styles bounds
      (buildSpatialGrid endpoints styles bounds).cellWidth (buildSpatialGrid endpoints styles bounds).cellHeight (buildSpatialGrid endpoints styles bounds).gridWidth (buildSpatialGrid endpoints styles bounds).gridHeight i) :
    ∃ t, t < (buildSpatialGrid endpoints styles bounds).counts cell ∧
      (buildSpatialGrid endpoints styles bounds).indices.getD ((buildSpatialGrid endpoints styles bounds).offsets cell + t) 0 = i := by
  have hnd : ∀ j, ((segCellList endpoints styles bounds ((max (bounds.maxX - bounds.minX) (1/100000)) / ((chooseGridSize endpoints.length (max (bounds.maxX - bounds.minX) (1/100000)) (max (bounds.maxY - bounds.minY) (1/100000))).1 : ℚ)) ((max (bounds.maxY - bounds.minY) (1/100000)) / ((chooseGridSize endpoints.length (max (bounds.maxX - bounds.minX) (1/100000)) (max (bounds.maxY - bounds.minY) (1/100000))).2 : ℚ)) (chooseGridSize endpoints.length (max (bounds.maxX - bounds.minX) (1/100000)) (max (bounds.maxY - bounds.minY) (1/100000))).1 (chooseGridSize endpoints.length (max (bounds.maxX - bounds.minX) (1/100000)) (max (bounds.maxY - bounds.minY) (1/100000))).2) j).Nodup := by
    intro j
    have hb1 : 64 ≤ (chooseGridSize endpoints.length (max (bounds.maxX - bounds.minX) (1/100000)) (max (bounds.maxY - bounds.minY) (1/100000))).1 := (clampNum_toNat_bounds _).1
    unfold segCellList
    exact cellRangeList_nodup _ _ _ _ _ (clampToCell_lt _ _ (by omega))
  have hcell : ∀ j, ∀ c ∈ (segCellList endpoints styles bounds ((max (bounds.maxX - bounds.minX) (1/100000)) / ((chooseGridSize endpoints.length (max (bounds.maxX - bounds.minX) (1/100000)) (max (bounds.maxY - bounds.minY) (1/100000))).1 : ℚ)) ((max (bounds.maxY - bounds.minY) (1/100000)) / ((chooseGridSize endpoints.length (max (bounds.maxX - bounds.minX) (1/100000)) (max (bounds.maxY - bounds.minY) (1/100000))).2 : ℚ)) (chooseGridSize endpoints.length (max (bounds.maxX - bounds.minX) (1/100000)) (max (bounds.maxY - bounds.minY) (1/100000))).1 (chooseGridSize endpoints.length (max (bounds.maxX - bounds.minX) (1/100000)) (max (bounds.maxY - bounds.minY) (1/100000))).2) j, c < (chooseGridSize endpoints.length (max (bounds.maxX - bounds.minX) (1/100000)) (max (bounds.maxY - bounds.minY) (1/100000))).1 * (chooseGridSize endpoints.length (max (bounds.maxX - bounds.minX) (1/100000)) (max (bounds.maxY - bounds.minY) (1/100000))).2 := by
    intro j c hc
    have hb1 : 64 ≤ (chooseGridSize endpoints.length (max (bounds.maxX - bounds.minX) (1/100000)) (max (bounds.maxY - bounds.minY) (1/100000))).1 := (clampNum_toNat_bounds _).1
    have hb3 : 64 ≤ (chooseGridSize endpoints.length (max (bounds.maxX - bounds.minX) (1/100000)) (max (bounds.maxY - bounds.minY) (1/100000))).2 := (clampNum_toNat_bounds _).1
    unfold segCellList at hc
    exact cellRangeList_lt _ _ _ _ _ _ c (clampToCell_lt _ _ (by omega))
      (clampToCell_lt _ _ (by omega)) hc
  have hcnt : (countPass (segCellList endpoints styles bounds ((max (bounds.maxX - bounds.minX) (1/100000)) / ((chooseGridSize endpoints.length (max (bounds.maxX - bounds.minX) (1/100000)) (max (bounds.maxY - bounds.minY) (1/100000))).1 : ℚ)) ((max (bounds.maxY - bounds.minY) (1/100000)) / ((chooseGridSize endpoints.length (max (bounds.maxX - bounds.minX) (1/100000)) (max (bounds.maxY - bounds.minY) (1/100000))).2 : ℚ)) (chooseGridSize endpoints.length (max (bounds.maxX - bounds.minX) (1/100000)) (max (bounds.maxY - bounds.minY) (1/100000))).1 (chooseGridSize endpoints.length (max (bounds.maxX - bounds.minX) (1/100000)) (max (bounds.maxY - bounds.minY) (1/100000))).2) endpoints.length).counts =
      scount (segCellList endpoints styles bounds ((max (bounds.maxX - bounds.minX) (1/100000)) / ((chooseGridSize endpoints.length (max (bounds.maxX - bounds.minX) (1/100000)) (max (bounds.maxY - bounds.minY) (1/100000))).1 : ℚ)) ((max (bounds.maxY - bounds.minY) (1/100000)) / ((chooseGridSize endpoints.length (max (bounds.maxX - bounds.minX) (1/100000)) (max (bounds.maxY - bounds.minY) (1/100000))).2 : ℚ)) (chooseGridSize endpoints.length (max (bounds.maxX - bounds.minX) (1/100000)) (max (bounds.maxY - bounds.minY) (1/100000))).1 (chooseGridSize endpoints.length (max (bounds.maxX - bounds.minX) (1/100000)) (max (bounds.maxY - bounds.minY) (1/100000))).2) endpoints.length :=
    funext (countPass_counts (segCellList endpoints styles bounds ((max (bounds.maxX - bounds.minX) (1/100000)) / ((chooseGridSize endpoints.length (max (bounds.maxX - bounds.minX) (1/100000)) (max (bounds.maxY - bounds.minY) (1/100000))).1 : ℚ)) ((max (bounds.maxY - bounds.minY) (1/100000)) / ((chooseGridSize endpoints.length (max (bounds.maxX - bounds.minX) (1/100000)) (max (bounds.maxY - bounds.minY) (1/100000))).2 : ℚ)) (chooseGridSize endpoints.length (max (bounds.maxX - bounds.minX) (1/100000)) (max (bounds.maxY - bounds.minY) (1/100000))).1 (chooseGridSize endpoints.length (max (bounds.maxX - bounds.minX) (1/100000)) (max (bounds.maxY - bounds.minY) (1/100000))).2) hnd endpoints.length)
  obtain ⟨i1, i2, i3⟩ := fillPass_inv (segCellList endpoints styles bounds ((max (bounds.maxX - bounds.minX) (1/100000)) / ((chooseGridSize endpoints.length (max (bounds.maxX - bounds.minX) (1/100000)) (max (bounds.maxY - bounds.minY) (1/100000))).1 : ℚ)) ((max (bounds.maxY - bounds.minY) (1/100000)) / ((chooseGridSize endpoints.length (max (bounds.maxX - bounds.minX) (1/100000)) (max (bounds.maxY - bounds.minY) (1/100000))).2 : ℚ)) (chooseGridSize endpoints.length (max (bounds.maxX - bounds.minX) (1/100000)) (max (bounds.maxY - bounds.minY) (1/100000))).1 (chooseGridSize endpoints.length (max (bounds.maxX - bounds.minX) (1/100000)) (max (bounds.maxY - bounds.minY) (1/100000))).2) endpoints.length
    ((chooseGridSize endpoints.length (max (bounds.maxX - bounds.minX) (1/100000)) (max (bounds.maxY - bounds.minY) (1/100000))).1 * (chooseGridSize endpoints.length (max (bounds.maxX - bounds.minX) (1/100000)) (max (bounds.maxY - bounds.minY) (1/100000))).2) hcell hnd endpoints.length (le_refl _)
  have hmem2 : i ∈ cellSegs (segCellList endpoints styles bounds ((max (bounds.maxX - bounds.minX) (1/100000)) / ((chooseGridSize endpoints.length (max (bounds.maxX - bounds.minX) (1/100000)) (max (bounds.maxY - bounds.minY) (1/100000))).1 : ℚ)) ((max (bounds.maxY - bounds.minY) (1/100000)) / ((chooseGridSize endpoints.length (max (bounds.maxX - bounds.minX) (1/100000)) (max (bounds.maxY - bounds.minY) (1/100000))).2 : ℚ)) (chooseGridSize endpoints.length (max (bounds.maxX - bounds.minX) (1/100000)) (max (bounds.maxY - bounds.minY) (1/100000))).1 (chooseGridSize endpoints.length (max (bounds.maxX - bounds.minX) (1/100000)) (max (bounds.maxY - bounds.minY) (1/100000))).2) endpoints.length cell :=
    (cellSegs_mem (segCellList endpoints styles bounds ((max (bounds.maxX - bounds.minX) (1/100000)) / ((chooseGridSize endpoints.length (max (bounds.maxX - bounds.minX) (1/100000)) (max (bounds.maxY - bounds.minY) (1/100000))).1 : ℚ)) ((max (bounds.maxY - bounds.minY) (1/100000)) / ((chooseGridSize endpoints.length (max (bounds.maxX - bounds.minX) (1/100000)) (max (bounds.maxY - bounds.minY) (1/100000))).2 : ℚ)) (chooseGridSize endpoints.length (max (bounds.maxX - bounds.minX) (1/100000)) (max (bounds.maxY - bounds.minY) (1/100000))).1 (chooseGridSize endpoints.length (max (bounds.maxX - bounds.minX) (1/100000)) (max (bounds.maxY - bounds.minY) (1/100000))).2) endpoints.length cell i).mpr ⟨hin, hmem⟩
  obtain ⟨t, ht, hval⟩ := List.mem_iff_getElem.mp hmem2
  have hcm2 : cell < (chooseGridSize endpoints.length (max (bounds.maxX - bounds.minX) (1/100000)) (max (bounds.maxY - bounds.minY) (1/100000))).1 * (chooseGridSize endpoints.length (max (bounds.maxX - bounds.minX) (1/100000)) (max (bounds.maxY - bounds.minY) (1/100000))).2 := hcm
  refine ⟨t, ?_, ?_⟩
  · show t < (countPass (segCellList endpoints styles bounds ((max (bounds.maxX - bounds.minX) (1/100000)) / ((chooseGridSize endpoints.length (max (bounds.maxX - bounds.minX) (1/100000)) (max (bounds.maxY - bounds.minY) (1/100000))).1 : ℚ)) ((max (bounds.maxY - bounds.minY) (1/100000)) / ((chooseGridSize endpoints.length (max (bounds.maxX - bounds.minX) (1/100000)) (max (bounds.maxY - bounds.minY) (1/100000))).2 : ℚ)) (chooseGridSize endpoints.length (max (bounds.maxX - bounds.minX) (1/100000)) (max (bounds.maxY - bounds.minY) (1/100000))).1 (chooseGridSize endpoints.length (max (bounds.maxX - bounds.minX) (1/100000)) (max (bounds.maxY - bounds.minY) (1/100000))).2) endpoints.length).counts cell
    rw [hcnt]
    exact ht
  · show (fillPass (segCellList endpoints styles bounds ((max (bounds.maxX - bounds.minX) (1/100000)) / ((chooseGridSize endpoints.length (max (bounds.maxX - bounds.minX) (1/100000)) (max (bounds.maxY - bounds.minY) (1/100000))).1 : ℚ)) ((max (bounds.maxY - bounds.minY) (1/100000)) / ((chooseGridSize endpoints.length (max (bounds.maxX - bounds.minX) (1/100000)) (max (bounds.maxY - bounds.minY) (1/100000))).2 : ℚ)) (chooseGridSize endpoints.length (max (bounds.maxX - bounds.minX) (1/100000)) (max (bounds.maxY - bounds.minY) (1/100000))).1 (chooseGridSize endpoints.length (max (bounds.maxX - bounds.minX) (1/100000)) (max (bounds.maxY - bounds.minY) (1/100000))).2) endpoints.length
        (csrOffsets (countPass (segCellList endpoints styles bounds ((max (bounds.maxX - bounds.minX) (1/100000)) / ((chooseGridSize endpoints.length (max (bounds.maxX - bounds.minX) (1/100000)) (max (bounds.maxY - bounds.minY) (1/100000))).1 : ℚ)) ((max (bounds.maxY - bounds.minY) (1/100000)) / ((chooseGridSize endpoints.length (max (bounds.maxX - bounds.minX) (1/100000)) (max (bounds.maxY - bounds.minY) (1/100000))).2 : ℚ)) (chooseGridSize endpoints.length (max (bounds.maxX - bounds.minX) (1/100000)) (max (bounds.maxY - bounds.minY) (1/100000))).1 (chooseGridSize endpoints.length (max (bounds.maxX - bounds.minX) (1/100000)) (max (bounds.maxY - bounds.minY) (1/100000))).2) endpoints.length).counts)
        (csrOffsets (countPass (segCellList endpoints styles bounds ((max (bounds.maxX - bounds.minX) (1/100000)) / ((chooseGridSize endpoints.length (max (bounds.maxX - bounds.minX) (1/100000)) (max (bounds.maxY - bounds.minY) (1/100000))).1 : ℚ)) ((max (bounds.maxY - bounds.minY) (1/100000)) / ((chooseGridSize endpoints.length (max (bounds.maxX - bounds.minX) (1/100000)) (max (bounds.maxY - bounds.minY) (1/100000))).2 : ℚ)) (chooseGridSize endpoints.length (max (bounds.maxX - bounds.minX) (1/100000)) (max (bounds.maxY - bounds.minY) (1/100000))).1 (chooseGridSize endpoints.length (max (bounds.maxX - bounds.minX) (1/100000)) (max (bounds.maxY - bounds.minY) (1/100000))).2) endpoints.length).counts
          ((chooseGridSize endpoints.length (max (bounds.maxX - bounds.minX) (1/100000)) (max (bounds.maxY - bounds.minY) (1/100000))).1 * (chooseGridSize endpoints.length (max (bounds.maxX - bounds.minX) (1/100000)) (max (bounds.maxY - bounds.minY) (1/100000))).2))).indices.getD
        (csrOffsets (countPass (segCellList endpoints styles bounds ((max (bounds.maxX - bounds.minX) (1/100000)) / ((chooseGridSize endpoints.length (max (bounds.maxX - bounds.minX) (1/100000)) (max (bounds.maxY - bounds.minY) (1/100000))).1 : ℚ)) ((max (bounds.maxY - bounds.minY) (1/100000)) / ((chooseGridSize endpoints.length (max (bounds.maxX - bounds.minX) (1/100000)) (max (bounds.maxY - bounds.minY) (1/100000))).2 : ℚ)) (chooseGridSize endpoints.length (max (bounds.maxX - bounds.minX) (1/100000)) (max (bounds.maxY - bounds.minY) (1/100000))).1 (chooseGridSize endpoints.length (max (bounds.maxX - bounds.minX) (1/100000)) (max (bounds.maxY - bounds.minY) (1/100000))).2) endpoints.length).counts cell + t) 0 = i
    rw [hcnt]
    have i4 : (fillPass (segCellList endpoints styles bounds ((max (bounds.maxX - bounds.minX) (1/100000)) / ((chooseGridSize endpoints.length (max (bounds.maxX - bounds.minX) (1/100000)) (max (bounds.maxY - bounds.minY) (1/100000))).1 : ℚ)) ((max (bounds.maxY - bounds.minY) (1/100000)) / ((chooseGridSize endpoints.length (max (bounds.maxX - bounds.minX) (1/100000)) (max (bounds.maxY - bounds.minY) (1/100000))).2 : ℚ)) (chooseGridSize endpoints.length (max (bounds.maxX - bounds.minX) (1/100000)) (max (bounds.maxY - bounds.minY) (1/100000))).1 (chooseGridSize endpoints.length (max (bounds.maxX - bounds.minX) (1/100000)) (max (bounds.maxY - bounds.minY) (1/100000))).2) endpoints.length
        (csrOffsets (scount (segCellList endpoints styles bounds ((max (bounds.maxX - bounds.minX) (1/100000)) / ((chooseGridSize endpoints.length (max (bounds.maxX - bounds.minX) (1/100000)) (max (bounds.maxY - bounds.minY) (1/100000))).1 : ℚ)) ((max (bounds.maxY - bounds.minY) (1/100000)) / ((chooseGridSize endpoints.length (max (bounds.maxX - bounds.minX) (1/100000)) (max (bounds.maxY - bounds.minY) (1/100000))).2 : ℚ)) (chooseGridSize endpoints.length (max (bounds.maxX - bounds.minX) (1/100000)) (max (bounds.maxY - bounds.minY) (1/100000))).1 (chooseGridSize endpoints.length (max (bounds.maxX - bounds.minX) (1/100000)) (max (bounds.maxY - bounds.minY) (1/100000))).2) endpoints.length))
        (csrOffsets (scount (segCellList endpoints styles bounds ((max (bounds.maxX - bounds.minX) (1/100000)) / ((chooseGridSize endpoints.length (max (bounds.maxX - bounds.minX) (1/100000)) (max (bounds.maxY - bounds.minY) (1/100000))).1 : ℚ)) ((max (bounds.maxY - bounds.minY) (1/100000)) / ((chooseGridSize endpoints.length (max (bounds.maxX - bounds.minX) (1/100000)) (max (bounds.maxY - bounds.minY) (1/100000))).2 : ℚ)) (chooseGridSize endpoints.length (max (bounds.maxX - bounds.minX) (1/100000)) (max (bounds.maxY - bounds.minY) (1/100000))).1 (chooseGridSize endpoints.length (max (bounds.maxX - bounds.minX) (1/100000)) (max (bounds.maxY - bounds.minY) (1/100000))).2) endpoints.length)
          ((chooseGridSize endpoints.length (max (bounds.maxX - bounds.minX) (1/100000)) (max (bounds.maxY - bounds.minY) (1/100000))).1 * (chooseGridSize endpoints.length (max (bounds.maxX - bounds.minX) (1/100000)) (max (bounds.maxY - bounds.minY) (1/100000))).2))).indices.getD
        (csrOffsets (scount (segCellList endpoints styles bounds ((max (bounds.maxX - bounds.minX) (1/100000)) / ((chooseGridSize endpoints.length (max (bounds.maxX - bounds.minX) (1/100000)) (max (bounds.maxY - bounds.minY) (1/100000))).1 : ℚ)) ((max (bounds.maxY - bounds.minY) (1/100000)) / ((chooseGridSize endpoints.length (max (bounds.maxX - bounds.minX) (1/100000)) (max (bounds.maxY - bounds.minY) (1/100000))).2 : ℚ)) (chooseGridSize endpoints.length (max (bounds.maxX - bounds.minX) (1/100000)) (max (bounds.maxY - bounds.minY) (1/100000))).1 (chooseGridSize endpoints.length (max (bounds.maxX - bounds.minX) (1/100000)) (max (bounds.maxY - bounds.minY) (1/100000))).2) endpoints.length) cell + t) 0 =
        (cellSegs (segCellList endpoints styles bounds ((max (bounds.maxX - bounds.minX) (1/100000)) / ((chooseGridSize endpoints.length (max (bounds.maxX - bounds.minX) (1/100000)) (max (bounds.maxY - bounds.minY) (1/100000))).1 : ℚ)) ((max (bounds.maxY - bounds.minY) (1/100000)) / ((chooseGridSize endpoints.length (max (bounds.maxX - bounds.minX) (1/100000)) (max (bounds.maxY - bounds.minY) (1/100000))).2 : ℚ)) (chooseGridSize endpoints.length (max (bounds.maxX - bounds.minX) (1/100000)) (max (bounds.maxY - bounds.minY) (1/100000))).1 (chooseGridSize endpoints.length (max (bounds.maxX - bounds.minX) (1/100000)) (max (bounds.maxY - bounds.minY) (1/100000))).2) endpoints.length cell).getD t 0 :=
      i3 cell hcm2 t ht
    rw [i4, List.getD_eq_getElem _ _ ht]
    exact hval

/-- The per-cell scan branch: starting from marks that nowhere equal the
epoch token, every in-range stroke whose box meets the view rect is
collected, the collected ids are duplicate free, and every mark is the epoch
token or its initial value. -/
theorem scan_branch_spec (endpoints styles : List Quad) (bounds : Bounds)
    (tk : ℕ) (m0 : ℕ → ℕ) (vMinX vMaxX vMinY vMaxY : ℚ)
    (hm0 : ∀ j, m0 j ≠ tk)
    (hvx : vMinX ≤ vMaxX) (hvy : vMinY ≤ vMaxY)
    (hhw : ∀ i, 0 ≤ (quadAt styles i).1) :
    (∀ i, i < endpoints.length →
      segIntersectsView endpoints styles vMinX vMaxX vMinY vMaxY i →
      i ∈ ((cellRangeList (buildSpatialGrid endpoints styles bounds).gridWidth (clampToGrid ⌊(vMinX - (buildSpatialGrid endpoints styles bounds).minX) / (buildSpatialGrid endpoints styles bounds).cellWidth⌋ (buildSpatialGrid endpoints styles bounds).gridWidth) (clampToGrid ⌊(vMaxX - (buildSpatialGrid endpoints styles bounds).minX) / (buildSpatialGrid endpoints styles bounds).cellWidth⌋ (buildSpatialGrid endpoints styles bounds).gridWidth) (clampToGrid ⌊(vMinY - (buildSpatialGrid endpoints styles bounds).minY) / (buildSpatialGrid endpoints styles bounds).cellHeight⌋ (buildSpatialGrid endpoints styles bounds).gridHeight) (clampToGrid ⌊(vMaxY - (buildSpatialGrid endpoints styles bounds).minY) / (buildSpatialGrid endpoints styles bounds).cellHeight⌋ (buildSpatialGrid endpoints styles bounds).gridHeight)).foldl (scanCell (buildSpatialGrid endpoints styles bounds) endpoints styles tk vMinX vMaxX vMinY vMaxY) (⟨m0, []⟩ : VisScanState)).out) ∧
    ((cellRangeList (buildSpatialGrid endpoints styles bounds).gridWidth (clampToGrid ⌊(vMinX - (buildSpatialGrid endpoints styles bounds).minX) / (buildSpatialGrid endpoints styles bounds).cellWidth⌋ (buildSpatialGrid endpoints styles bounds).gridWidth) (clampToGrid ⌊(vMaxX - (buildSpatialGrid endpoints styles bounds).minX) / (buildSpatialGrid endpoints styles bounds).cellWidth⌋ (buildSpatialGrid endpoints styles bounds).gridWidth) (clampToGrid ⌊(vMinY - (buildSpatialGrid endpoints styles bounds).minY) / (buildSpatialGrid endpoints styles bounds).cellHeight⌋ (buildSpatialGrid endpoints styles bounds).gridHeight) (clampToGrid ⌊(vMaxY - (buildSpatialGrid endpoints styles bounds).minY) / (buildSpatialGrid endpoints styles bounds).cellHeight⌋ (buildSpatialGrid endpoints styles bounds).gridHeight)).foldl (scanCell (buildSpatialGrid endpoints styles bounds) endpoints styles tk vMinX vMaxX vMinY vMaxY) (⟨m0, []⟩ : VisScanState)).out.Nodup ∧
    (∀ j, ((cellRangeList (buildSpatialGrid endpoints styles bounds).gridWidth (clampToGrid ⌊(vMinX - (buildSpatialGrid endpoints styles bounds).minX) / (buildSpatialGrid endpoints styles bounds).cellWidth⌋ (buildSpatialGrid endpoints styles bounds).gridWidth) (clampToGrid ⌊(vMaxX - (buildSpatialGrid endpoints styles bounds).minX) / (buildSpatialGrid endpoints styles bounds).cellWidth⌋ (buildSpatialGrid endpoints styles bounds).gridWidth) (clampToGrid ⌊(vMinY - (buildSpatialGrid endpoints styles bounds).minY) / (buildSpatialGrid endpoints styles bounds).cellHeight⌋ (buildSpatialGrid endpoints styles bounds).gridHeight) (clampToGrid ⌊(vMaxY - (buildSpatialGrid endpoints styles bounds).minY) / (buildSpatialGrid endpoints styles bounds).cellHeight⌋ (buildSpatialGrid endpoints styles bounds).gridHeight)).foldl (scanCell (buildSpatialGrid endpoints styles bounds) endpoints styles tk vMinX vMaxX vMinY vMaxY) (⟨m0, []⟩ : VisScanState)).segmentMarks j = tk ∨ ((cellRangeList (buildSpatialGrid endpoints styles bounds).gridWidth (clampToGrid ⌊(vMinX - (buildSpatialGrid endpoints styles bounds).minX) / (buildSpatialGrid endpoints styles bounds).cellWidth⌋ (buildSpatialGrid endpoints styles bounds).gridWidth) (clampToGrid ⌊(vMaxX - (buildSpatialGrid endpoints styles bounds).minX) / (buildSpatialGrid endpoints styles bounds).cellWidth⌋ (buildSpatialGrid endpoints styles bounds).gridWidth) (clampToGrid ⌊(vMinY - (buildSpatialGrid endpoints styles bounds).minY) / (buildSpatialGrid endpoints styles bounds).cellHeight⌋ (buildSpatialGrid endpoints styles bounds).gridHeight) (clampToGrid ⌊(vMaxY - (buildSpatialGrid endpoints styles bounds).minY) / (buildSpatialGrid endpoints styles bounds).cellHeight⌋ (buildSpatialGrid endpoints styles bounds).gridHeight)).foldl (scanCell (buildSpatialGrid endpoints styles bounds) endpoints styles tk vMinX vMaxX vMinY vMaxY) (⟨m0, []⟩ : VisScanState)).segmentMarks j = m0 j) := by
  obtain ⟨hcw, hch⟩ := buildSpatialGrid_cell_pos endpoints styles bounds
  have hinv0 : VisInv endpoints styles tk vMinX vMaxX vMinY vMaxY m0
      (⟨m0, []⟩ : VisScanState) :=
    ⟨fun j => Or.inr rfl, fun j hj => absurd hj (List.not_mem_nil j),
     List.nodup_nil, fun j _ hmk => absurd hmk (hm0 j)⟩
  obtain ⟨hA, hB, hC, hD⟩ := scanFold_inv (buildSpatialGrid endpoints styles bounds) endpoints styles tk
    vMinX vMaxX vMinY vMaxY m0 (cellRangeList (buildSpatialGrid endpoints styles bounds).gridWidth (clampToGrid ⌊(vMinX - (buildSpatialGrid endpoints styles bounds).minX) / (buildSpatialGrid endpoints styles bounds).cellWidth⌋ (buildSpatialGrid endpoints styles bounds).gridWidth) (clampToGrid ⌊(vMaxX - (buildSpatialGrid endpoints styles bounds).minX) / (buildSpatialGrid endpoints styles bounds).cellWidth⌋ (buildSpatialGrid endpoints styles bounds).gridWidth) (clampToGrid ⌊(vMinY - (buildSpatialGrid endpoints styles bounds).minY) / (buildSpatialGrid endpoints styles bounds).cellHeight⌋ (buildSpatialGrid endpoints styles bounds).gridHeight) (clampToGrid ⌊(vMaxY - (buildSpatialGrid endpoints styles bounds).minY) / (buildSpatialGrid endpoints styles bounds).cellHeight⌋ (buildSpatialGrid endpoints styles bounds).gridHeight)) (⟨m0, []⟩ : VisScanState) hinv0
  refine ⟨?_, hC, hA⟩
  intro i hi hacc
  obtain ⟨cell, hcs, hcv⟩ := segCellList_meets_view endpoints styles bounds
    (buildSpatialGrid endpoints styles bounds).cellWidth (buildSpatialGrid endpoints styles bounds).cellHeight (buildSpatialGrid endpoints styles bounds).gridWidth (buildSpatialGrid endpoints styles bounds).gridHeight i
    vMinX vMaxX vMinY vMaxY hcw hch (hhw i) hvx hvy hacc
  have hbw : 64 ≤ (buildSpatialGrid endpoints styles bounds).gridWidth := (clampNum_toNat_bounds _).1
  have hbh : 64 ≤ (buildSpatialGrid endpoints styles bounds).gridHeight := (clampNum_toNat_bounds _).1
  have hcm : cell < (buildSpatialGrid endpoints styles bounds).gridWidth * (buildSpatialGrid endpoints styles bounds).gridHeight := by
    have hcs2 := hcs
    unfold segCellList at hcs2
    exact cellRangeList_lt _ _ _ _ _ _ cell (clampToCell_lt _ _ (by omega))
      (clampToCell_lt _ _ (by omega)) hcs2
  have hslice := buildSpatialGrid_slice endpoints styles bounds cell i hcm hi hcs
  have hcv2 : cell ∈ (cellRangeList (buildSpatialGrid endpoints styles bounds).gridWidth (clampToGrid ⌊(vMinX - (buildSpatialGrid endpoints styles bounds).minX) / (buildSpatialGrid endpoints styles bounds).cellWidth⌋ (buildSpatialGrid endpoints styles bounds).gridWidth) (clampToGrid ⌊(vMaxX - (buildSpatialGrid endpoints styles bounds).minX) / (buildSpatialGrid endpoints styles bounds).cellWidth⌋ (buildSpatialGrid endpoints styles bounds).gridWidth) (clampToGrid ⌊(vMinY - (buildSpatialGrid endpoints styles bounds).minY) / (buildSpatialGrid endpoints styles bounds).cellHeight⌋ (buildSpatialGrid endpoints styles bounds).gridHeight) (clampToGrid ⌊(vMaxY - (buildSpatialGrid endpoints styles bounds).minY) / (buildSpatialGrid endpoints styles bounds).cellHeight⌋ (buildSpatialGrid endpoints styles bounds).gridHeight)) := hcv
  have hmarked := scanFold_marks (buildSpatialGrid endpoints styles bounds) endpoints styles tk
    vMinX vMaxX vMinY vMaxY (cellRangeList (buildSpatialGrid endpoints styles bounds).gridWidth (clampToGrid ⌊(vMinX - (buildSpatialGrid endpoints styles bounds).minX) / (buildSpatialGrid endpoints styles bounds).cellWidth⌋ (buildSpatialGrid endpoints styles bounds).gridWidth) (clampToGrid ⌊(vMaxX - (buildSpatialGrid endpoints styles bounds).minX) / (buildSpatialGrid endpoints styles bounds).cellWidth⌋ (buildSpatialGrid endpoints styles bounds).gridWidth) (clampToGrid ⌊(vMinY - (buildSpatialGrid endpoints styles bounds).minY) / (buildSpatialGrid endpoints styles bounds).cellHeight⌋ (buildSpatialGrid endpoints styles bounds).gridHeight) (clampToGrid ⌊(vMaxY - (buildSpatialGrid endpoints styles bounds).minY) / (buildSpatialGrid endpoints styles bounds).cellHeight⌋ (buildSpatialGrid endpoints styles bounds).gridHeight)) (⟨m0, []⟩ : VisScanState) cell i hcv2 hslice
  exact hD i hacc hmarked

/-- C2: for every scene, the grid built from it, and every camera, zoom and
viewport, the visible set built by updateVisibleSet contains every stroke
whose margin-expanded bounds (endpoint AABB grown by halfWidth + 0.35) meets the
margin-expanded view rectangle (or the all-segments fast path is in force,
which draws everything), contains no index twice, and the epoch-mark
invariant survives, including across the 0xffffffff token wraparound. -/
theorem updateVisibleSet_sound (endpoints styles : List Quad) (bounds : Bounds)
    (sceneMaxHalfWidth : ℚ) (segmentMarks : ℕ → ℕ) (markToken : ℕ)
    (interactionActive : Bool)
    (viewCenterX viewCenterY viewportWidthPx viewportHeightPx zoom : ℚ)
    (hhw : ∀ i, 0 ≤ (quadAt styles i).1)
    (hzoom : 0 < zoom) (hvw : 0 ≤ viewportWidthPx) (hvh : 0 ≤ viewportHeightPx)
    (hmarks : ∀ j, segmentMarks j ≤ markToken)
    (htoken : markToken < 4294967295) :
    (∀ i, i < endpoints.length →
      segIntersectsView endpoints styles (viewRect viewCenterX viewCenterY viewportWidthPx viewportHeightPx zoom sceneMaxHalfWidth).1 (viewRect viewCenterX viewCenterY viewportWidthPx viewportHeightPx zoom sceneMaxHalfWidth).2.1 (viewRect viewCenterX viewCenterY viewportWidthPx viewportHeightPx zoom sceneMaxHalfWidth).2.2.1 (viewRect viewCenterX viewCenterY viewportWidthPx viewportHeightPx zoom sceneMaxHalfWidth).2.2.2 i →
      ((updateVisibleSet (buildSpatialGrid endpoints styles bounds) endpoints styles sceneMaxHalfWidth endpoints.length segmentMarks markToken interactionActive viewCenterX viewCenterY viewportWidthPx viewportHeightPx zoom).usingAllSegments = true ∨ i ∈ (updateVisibleSet (buildSpatialGrid endpoints styles bounds) endpoints styles sceneMaxHalfWidth endpoints.length segmentMarks markToken interactionActive viewCenterX viewCenterY viewportWidthPx viewportHeightPx zoom).visibleIds)) ∧
    (updateVisibleSet (buildSpatialGrid endpoints styles bounds) endpoints styles sceneMaxHalfWidth endpoints.length segmentMarks markToken interactionActive viewCenterX viewCenterY viewportWidthPx viewportHeightPx zoom).visibleIds.Nodup ∧
    (∀ j, (updateVisibleSet (buildSpatialGrid endpoints styles bounds) endpoints styles sceneMaxHalfWidth endpoints.length segmentMarks markToken interactionActive viewCenterX viewCenterY viewportWidthPx viewportHeightPx zoom).segmentMarks j ≤ (updateVisibleSet (buildSpatialGrid endpoints styles bounds) endpoints styles sceneMaxHalfWidth endpoints.length segmentMarks markToken interactionActive viewCenterX viewCenterY viewportWidthPx viewportHeightPx zoom).markToken) ∧
    (updateVisibleSet (buildSpatialGrid endpoints styles bounds) endpoints styles sceneMaxHalfWidth endpoints.length segmentMarks markToken interactionActive viewCenterX viewCenterY viewportWidthPx viewportHeightPx zoom).markToken < 4294967295 := by
  obtain ⟨hvx, hvy⟩ := viewRect_ordered viewCenterX viewCenterY
    viewportWidthPx viewportHeightPx zoom sceneMaxHalfWidth hzoom hvw hvh
  unfold updateVisibleSet
  simp only
  split
  · exact ⟨fun i hi hacc => Or.inl rfl, List.nodup_nil,
      fun j => hmarks j, htoken⟩
  · by_cases hreset : markToken + 1 = 4294967295
    · simp only [if_pos hreset]
      obtain ⟨s1, s2, s3⟩ := scan_branch_spec endpoints styles bounds 1
        (fun _ => 0) (viewRect viewCenterX viewCenterY viewportWidthPx viewportHeightPx zoom sceneMaxHalfWidth).1 (viewRect viewCenterX viewCenterY viewportWidthPx viewportHeightPx zoom sceneMaxHalfWidth).2.1 (viewRect viewCenterX viewCenterY viewportWidthPx viewportHeightPx zoom sceneMaxHalfWidth).2.2.1 (viewRect viewCenterX viewCenterY viewportWidthPx viewportHeightPx zoom sceneMaxHalfWidth).2.2.2
        (fun j => by norm_num) hvx hvy hhw
      refine ⟨fun i hi hacc => Or.inr (s1 i hi hacc), s2, ?_, by norm_num⟩
      intro j
      rcases s3 j with h | h
      · exact le_of_eq h
      · exact le_trans (le_of_eq h) (Nat.zero_le 1)
    · simp only [if_neg hreset]
      obtain ⟨s1, s2, s3⟩ := scan_branch_spec endpoints styles bounds
        (markToken + 1) segmentMarks (viewRect viewCenterX viewCenterY viewportWidthPx viewportHeightPx zoom sceneMaxHalfWidth).1 (viewRect viewCenterX viewCenterY viewportWidthPx viewportHeightPx zoom sceneMaxHalfWidth).2.1 (viewRect viewCenterX viewCenterY viewportWidthPx viewportHeightPx zoom sceneMaxHalfWidth).2.2.1 (viewRect viewCenterX viewCenterY viewportWidthPx viewportHeightPx zoom sceneMaxHalfWidth).2.2.2
        (fun j he => by have := hmarks j; omega) hvx hvy hhw
      refine ⟨fun i hi hacc => Or.inr (s1 i hi hacc), s2, ?_, by omega⟩
      intro j
      rcases s3 j with h | h
      · exact le_of_eq h
      · exact le_trans (le_of_eq h) (le_trans (hmarks j) (Nat.le_succ _))

/-- C2 witness: the soundness statement instantiated at a one-stroke scene
with a concrete camera, all hypotheses discharged. -/
theorem updateVisibleSet_sound_witness :
    (updateVisibleSet (buildSpatialGrid ([(0, 0, 10, 0)] : List Quad) ([(1, 0, 1, 0)] : List Quad) ⟨0, 0, 10, 10⟩) ([(0, 0, 10, 0)] : List Quad) ([(1, 0, 1, 0)] : List Quad) 1 ([(0, 0, 10, 0)] : List Quad).length (fun _ => 0) 1 true 5 5 100 100 1).visibleIds.Nodup ∧ (updateVisibleSet (buildSpatialGrid ([(0, 0, 10, 0)] : List Quad) ([(1, 0, 1, 0)] : List Quad) ⟨0, 0, 10, 10⟩) ([(0, 0, 10, 0)] : List Quad) ([(1, 0, 1, 0)] : List Quad) 1 ([(0, 0, 10, 0)] : List Quad).length (fun _ => 0) 1 true 5 5 100 100 1).markToken < 4294967295 := by
  have hhw : ∀ i, 0 ≤ (quadAt ([(1, 0, 1, 0)] : List Quad) i).1 := by
    intro i
    match i with
    | 0 => norm_num [quadAt]
    | n + 1 => simp [quadAt, List.getD_cons_succ, List.getD_nil]
  have h := updateVisibleSet_sound ([(0, 0, 10, 0)] : List Quad) ([(1, 0, 1, 0)] : List Quad) ⟨0, 0, 10, 10⟩ 1 (fun _ => 0) 1 true
    5 5 100 100 1 hhw (by norm_num) (by norm_num) (by norm_num)
    (fun j => by norm_num) (by norm_num)
  exact ⟨h.2.1, h.2.2.2⟩

end HEPR
